import Mathlib

/-!
Verification development for the VYL compiler (new-compiler pipeline).

Shallow embedding of the compiler sources:
  lexer.py, parser.py, resolver.py, type_checker.py, codegen.py, main.py.

Conventions used throughout:
  - Python dicts are modelled as association lists with in-place overwrite
    on key collision (`dinsert`), first-match lookup (`dlookup`).
  - Python character classification (str.isdigit / isalpha / isalnum) is
    modelled at ASCII precision; all inputs appearing in theorems are ASCII.
  - Error messages mirror the source f-strings, except that single-quote
    characters around interpolated fragments are omitted.
  - Python floats are not modelled: a DECIMAL token stores the raw scanned
    digit string (the source stores `float(num_str)` and renders it with
    `str`); no claim inspects decimal token contents.
  - Loops are modelled with an explicit fuel argument; every call site
    passes fuel that provably dominates the loop's iteration count, and
    where a claim depends on totality this is proved.
-/

/-- Python dict insertion: overwrite in place if the key exists, else append. -/
def dinsert {α : Type} (k : String) (v : α) : List (String × α) → List (String × α)
  | [] => [(k, v)]
  | (k0, v0) :: rest => if k0 = k then (k, v) :: rest else (k0, v0) :: dinsert k v rest

/-- Python dict lookup: first matching key. -/
def dlookup {α : Type} (k : String) : List (String × α) → Option α
  | [] => none
  | (k0, v0) :: rest => if k0 = k then some v0 else dlookup k rest

/-- Python `key in dict`. -/
def dmem {α : Type} (k : String) (d : List (String × α)) : Bool :=
  (dlookup k d).isSome

/-- The double-quote character (written by code to keep source scanning simple). -/
def quoteChar : Char := Char.ofNat 34

/-- The backslash character. -/
def backslashChar : Char := Char.ofNat 92

/-- The newline character. -/
def nlChar : Char := Char.ofNat 10

/-- The carriage-return character. -/
def crChar : Char := Char.ofNat 13

/-- The horizontal-tab character. -/
def tabChar : Char := Char.ofNat 9

/-- ASCII model of Python str.isdigit restricted to the decimal digits. -/
def pyIsDigit (c : Char) : Bool := c.isDigit

/-- ASCII model of Python str.isalpha. -/
def pyIsAlpha (c : Char) : Bool := c.isAlpha

/-- ASCII model of Python str.isalnum. -/
def pyIsAlnum (c : Char) : Bool := c.isAlpha || c.isDigit

/-!  ## Lexer (lexer.py)  -/

/-- Token record from lexer.py: type, optional text, optional parsed integer,
optional decimal (stored here as the raw digit string), line, column. -/
structure Token where
  type : String
  value : Option String := none
  int_value : Option Int := none
  dec_value : Option String := none
  line : Nat := 0
  column : Nat := 0
deriving Repr, DecidableEq

/-- Keyword table KEYWORDS from lexer.py. -/
def KEYWORDS : List (String × String) :=
  [("var", "VAR"), ("if", "IF"), ("else", "ELSE"), ("while", "WHILE"),
   ("for", "FOR"), ("in", "IN"), ("struct", "STRUCT"), ("new", "NEW"),
   ("import", "IMPORT"), ("int", "INT_TYPE"), ("dec", "DEC_TYPE"),
   ("string", "STRING_TYPE"), ("bool", "BOOL_TYPE"), ("true", "TRUE"),
   ("false", "FALSE")]

/-- Lexer state: source text, cached length, cursor position, line, column. -/
structure LexState where
  source : List Char
  length : Nat
  position : Nat
  line : Nat
  column : Nat
deriving Repr, DecidableEq

/-- Lexer.__init__. -/
def LexState.init (source : String) : LexState :=
  ⟨source.toList, source.toList.length, 0, 1, 1⟩

/-- Lexer.peek with offset (Python returns the empty string out of bounds,
modelled as `none`). -/
def LexState.peekAt (st : LexState) (offset : Nat) : Option Char :=
  if st.position + offset < st.length then st.source.get? (st.position + offset) else none

/-- Lexer.peek with offset 0. -/
def LexState.peek (st : LexState) : Option Char := st.peekAt 0

/-- One step of Lexer.advance: move one character, tracking line and column. -/
def LexState.advance1 (st : LexState) : LexState :=
  if st.position ≥ st.length then st
  else
    match st.source.get? st.position with
    | some c =>
        if c = nlChar then
          { st with line := st.line + 1, column := 1, position := st.position + 1 }
        else
          { st with column := st.column + 1, position := st.position + 1 }
    | none => { st with column := st.column + 1, position := st.position + 1 }

/-- Lexer.advance(count). -/
def LexState.advanceN : LexState → Nat → LexState
  | st, 0 => st
  | st, n + 1 => (st.advance1).advanceN n

/-- Whitespace set of Lexer.skip_whitespace: space, tab, carriage return. -/
def isSkippableWS (c : Char) : Bool := c = ' ' || c = tabChar || c = crChar

/-- Loop body of Lexer.skip_whitespace (fuelled). -/
def skipWhitespaceAux : Nat → LexState → LexState
  | 0, st => st
  | fuel + 1, st =>
      if st.position < st.length then
        match st.peek with
        | some c => if isSkippableWS c then skipWhitespaceAux fuel st.advance1 else st
        | none => st
      else st

/-- Lexer.skip_whitespace. -/
def skipWhitespace (st : LexState) : LexState :=
  skipWhitespaceAux (st.length + 1) st

/-- Inner loop of Lexer.skip_comment: consume to end of line (fuelled). -/
def skipCommentAux : Nat → LexState → LexState
  | 0, st => st
  | fuel + 1, st =>
      if st.position < st.length then
        match st.peek with
        | some c => if c = nlChar then st else skipCommentAux fuel st.advance1
        | none => st
      else st

/-- Lexer.skip_comment: skip a // comment to end of line. -/
def skipComment (st : LexState) : LexState :=
  if st.peek = some '/' && st.peekAt 1 = some '/' then
    skipCommentAux (st.length + 1) (st.advanceN 2)
  else st

/-- Escape translation inside Lexer.scan_string. -/
def stringEscape (c : Char) : Char :=
  if c = 'n' then nlChar
  else if c = 't' then tabChar
  else if c = 'r' then crChar
  else c

/-- Loop body of Lexer.scan_string after the opening quote (fuelled).
Returns the accumulated content and the state after the loop. -/
def scanStringAux : Nat → LexState → List Char → List Char × LexState
  | 0, st, acc => (acc, st)
  | fuel + 1, st, acc =>
      if st.position < st.length then
        match st.peek with
        | some c =>
            if c = quoteChar then (acc, st.advance1)
            else if c = backslashChar then
              let st1 := st.advance1
              match st1.peek with
              | some e => scanStringAux fuel st1.advance1 (acc ++ [stringEscape e])
              | none => scanStringAux fuel st1.advance1 acc
            else scanStringAux fuel st.advance1 (acc ++ [c])
        | none => (acc, st)
      else (acc, st)

/-- Lexer.scan_string: skip the opening quote, scan to the closing quote
(or to end of input), decoding escapes. -/
def scanString (st : LexState) : List Char × LexState :=
  scanStringAux (st.length + 1) st.advance1 []

/-- Loop body of Lexer.scan_number (fuelled): consume digits and at most one
dot not followed by a second dot.  Returns (has_dot, state after). -/
def scanNumberAux : Nat → LexState → Bool → Bool × LexState
  | 0, st, hasDot => (hasDot, st)
  | fuel + 1, st, hasDot =>
      if st.position < st.length then
        match st.peek with
        | some c =>
            if c = '.' then
              if st.position + 1 < st.length && st.peekAt 1 = some '.' then (hasDot, st)
              else if hasDot then (hasDot, st)
              else scanNumberAux fuel st.advance1 true
            else if pyIsDigit c then scanNumberAux fuel st.advance1 hasDot
            else (hasDot, st)
        | none => (hasDot, st)
      else (hasDot, st)

/-- Lexer.scan_number: returns (is_decimal, scanned slice, state after). -/
def scanNumber (st : LexState) : Bool × List Char × LexState :=
  let (hasDot, st') := scanNumberAux (st.length + 1) st false
  (hasDot, (st.source.drop st.position).take (st'.position - st.position), st')

/-- Loop body of Lexer.scan_identifier (fuelled). -/
def scanIdentifierAux : Nat → LexState → LexState
  | 0, st => st
  | fuel + 1, st =>
      if st.position < st.length then
        match st.peek with
        | some c => if pyIsAlnum c || c = '_' then scanIdentifierAux fuel st.advance1 else st
        | none => st
      else st

/-- Lexer.scan_identifier: returns the identifier slice and the state after. -/
def scanIdentifier (st : LexState) : List Char × LexState :=
  let st' := scanIdentifierAux (st.length + 1) st
  ((st.source.drop st.position).take (st'.position - st.position), st')

/-- Decimal digits to the natural number Python int() yields on a digit string. -/
def digitsToNat (cs : List Char) : Nat :=
  cs.foldl (fun acc c => acc * 10 + (c.toNat - 48)) 0

/-- Lexer error: Python raises SyntaxError with the location rendered into
the message.  `fuel` is the out-of-fuel sentinel of the model, proven
unreachable from `tokenize`. -/
inductive LexErr where
  | syn (msg : String)
  | fuel
deriving Repr, DecidableEq

/-- The two-character operator list of Lexer.next_token. -/
def twoCharOps : List String := ["==", "!=", "<=", ">=", ".."]

/-- Single-character token dispatch at the end of Lexer.next_token. -/
def singleCharToken (c : Char) (line column : Nat) : Option Token :=
  if c = '+' then some ⟨"PLUS", some "+", none, none, line, column⟩
  else if c = '-' then some ⟨"MINUS", some "-", none, none, line, column⟩
  else if c = '*' then some ⟨"STAR", some "*", none, none, line, column⟩
  else if c = '/' then some ⟨"SLASH", some "/", none, none, line, column⟩
  else if c = '=' then some ⟨"ASSIGN", some "=", none, none, line, column⟩
  else if c = '<' then some ⟨"LT", some "<", none, none, line, column⟩
  else if c = '>' then some ⟨"GT", some ">", none, none, line, column⟩
  else if c = '(' then some ⟨"LPAREN", some "(", none, none, line, column⟩
  else if c = ')' then some ⟨"RPAREN", some ")", none, none, line, column⟩
  else if c = Char.ofNat 123 then some ⟨"LBRACE", some (String.singleton (Char.ofNat 123)), none, none, line, column⟩
  else if c = Char.ofNat 125 then some ⟨"RBRACE", some (String.singleton (Char.ofNat 125)), none, none, line, column⟩
  else if c = '[' then some ⟨"LBRACKET", some "[", none, none, line, column⟩
  else if c = ']' then some ⟨"RBRACKET", some "]", none, none, line, column⟩
  else if c = ';' then some ⟨"SEMICOLON", some ";", none, none, line, column⟩
  else if c = ',' then some ⟨"COMMA", some ",", none, none, line, column⟩
  else if c = '.' then some ⟨"DOT", some ".", none, none, line, column⟩
  else if c = ':' then some ⟨"COLON", some ":", none, none, line, column⟩
  else none

/-- Lexer.next_token. -/
def nextToken (st0 : LexState) : Except LexErr (Token × LexState) := do
  let st := skipWhitespace (skipComment (skipWhitespace st0))
  if st.position ≥ st.length then
    return (⟨"EOF", none, none, none, st.line, st.column⟩, st)
  match st.peek with
  | none => return (⟨"EOF", none, none, none, st.line, st.column⟩, st)
  | some c =>
      let line := st.line
      let column := st.column
      if c = nlChar then
        return (⟨"NEWLINE", none, none, none, line, column⟩, st.advance1)
      else if c = quoteChar then
        let (content, st') := scanString st
        return (⟨"STRING", some (String.mk content), none, none, line, column⟩, st')
      else if pyIsDigit c then
        let (isDec, numStr, st') := scanNumber st
        if isDec then
          return (⟨"DECIMAL", some (String.mk numStr), none, some (String.mk numStr), line, column⟩, st')
        else
          let n := digitsToNat numStr
          return (⟨"INTEGER", some (toString n), some (Int.ofNat n), none, line, column⟩, st')
      else if pyIsAlpha c || c = '_' then
        let (identChars, st') := scanIdentifier st
        let ident := String.mk identChars
        let ttype := (dlookup ident KEYWORDS).getD "IDENTIFIER"
        return (⟨ttype, some ident, none, none, line, column⟩, st')
      else
        let twoChar :=
          match st.peekAt 1 with
          | some c2 => String.mk [c, c2]
          | none => String.mk [c]
        if twoCharOps.contains twoChar then
          return (⟨twoChar, some twoChar, none, none, line, column⟩, st.advanceN 2)
        else
          match singleCharToken c line column with
          | some tok => return (tok, st.advance1)
          | none =>
              throw (.syn ("Unexpected character " ++ String.singleton c ++
                " at line " ++ toString line ++ ", column " ++ toString column))

/-- Loop of Lexer.tokenize (fuelled): collect tokens until EOF. -/
def tokenizeAux : Nat → LexState → List Token → Except LexErr (List Token)
  | 0, _, _ => throw .fuel
  | fuel + 1, st, acc => do
      let (tok, st') ← nextToken st
      let acc' := acc ++ [tok]
      if tok.type = "EOF" then return acc'
      else tokenizeAux fuel st' acc'

/-- Lexer.tokenize / module-level tokenize: lex a whole source string. -/
def tokenize (source : String) : Except LexErr (List Token) :=
  let st := LexState.init source
  tokenizeAux (st.length + 1) st []

/-!  ## AST (parser.py dataclasses)

One inductive covers every AST dataclass, mirroring Python's untyped node
union.  Every constructor carries (line, column) last.  The `forStmt` field
`end` is renamed `endE` (Lean keyword).  `FunctionDef`/`MethodDef` params are
(name, type, default) triples as produced by Parser.parse_param.  `EnumDef`
variants are (name, value) pairs: the dataclass annotates the value as
Optional but the parser always supplies an integer. -/

/-- Literal payload: Python stores int / float / str / bool in Literal.value.
Decimals keep the raw digit string. -/
inductive LitVal where
  | int (i : Int)
  | dec (raw : String)
  | str (s : String)
  | bool (b : Bool)
  | pynone
deriving Repr, DecidableEq

inductive Node where
  | program (statements : List Node) (line column : Nat)
  | varDecl (name : String) (var_type : Option String) (value : Option Node)
      (is_mutable : Bool) (line column : Nat)
  | assignment (name : String) (value : Node) (target : Option Node) (line column : Nat)
  | functionCall (name : String) (arguments : List Node) (line column : Nat)
  | functionDef (name : String) (params : List (String × Option String × Option Node))
      (return_type : Option String) (body : Option Node) (type_params : List String)
      (line column : Nat)
  | structDef (name : String) (fields : List Node) (methods : List Node)
      (type_params : List String) (line column : Nat)
  | returnStmt (value : Option Node) (line column : Nat)
  | deferStmt (body : Node) (line column : Nat)
  | block (statements : List Node) (line column : Nat)
  | ifStmt (condition : Node) (then_block : Node) (else_block : Option Node) (line column : Nat)
  | whileStmt (condition : Node) (body : Node) (line column : Nat)
  | forStmt (var_name : String) (start : Node) (endE : Node) (body : Node) (line column : Nat)
  | binaryExpr (left : Node) (operator : String) (right : Node) (line column : Nat)
  | unaryExpr (operator : String) (operand : Node) (line column : Nat)
  | literal (value : LitVal) (literal_type : String) (line column : Nat)
  | interpString (parts : List (Bool × String)) (line column : Nat)
  | identifier (name : String) (line column : Nat)
  | fieldAccess (receiver : Node) (field : String) (line column : Nat)
  | indexExpr (receiver : Node) (index : Node) (line column : Nat)
  | newExpr (struct_name : String) (initializers : List (String × Node)) (line column : Nat)
  | arrayLiteral (elements : List Node) (element_type : Option String) (line column : Nat)
  | enumDef (name : String) (variants : List (String × Int)) (line column : Nat)
  | interfaceDef (name : String) (methods : List Node) (line column : Nat)
  | interfaceMethod (name : String) (params : List (String × Option String))
      (return_type : Option String) (line column : Nat)
  | enumAccess (enum_name : String) (variant : String) (line column : Nat)
  | methodDef (name : String) (params : List (String × Option String × Option Node))
      (return_type : Option String) (body : Option Node) (line column : Nat)
  | methodCall (receiver : Node) (method_name : String) (arguments : List Node) (line column : Nat)
  | selfExpr (line column : Nat)
  | addressOf (operand : Node) (line column : Nat)
  | dereference (operand : Node) (line column : Nat)
  | nullLiteral (line column : Nat)
  | tryExpr (operand : Node) (line column : Nat)
  | tupleLiteral (elements : List Node) (line column : Nat)
  | tupleUnpack (names : List String) (types : List (Option String)) (value : Node)
      (is_mutable : Bool) (line column : Nat)
deriving Repr

/-- Source line of a node (every dataclass carries `line`). -/
def Node.nline : Node → Nat
  | .program _ l _ => l
  | .varDecl _ _ _ _ l _ => l
  | .assignment _ _ _ l _ => l
  | .functionCall _ _ l _ => l
  | .functionDef _ _ _ _ _ l _ => l
  | .structDef _ _ _ _ l _ => l
  | .returnStmt _ l _ => l
  | .deferStmt _ l _ => l
  | .block _ l _ => l
  | .ifStmt _ _ _ l _ => l
  | .whileStmt _ _ l _ => l
  | .forStmt _ _ _ _ l _ => l
  | .binaryExpr _ _ _ l _ => l
  | .unaryExpr _ _ l _ => l
  | .literal _ _ l _ => l
  | .interpString _ l _ => l
  | .identifier _ l _ => l
  | .fieldAccess _ _ l _ => l
  | .indexExpr _ _ l _ => l
  | .newExpr _ _ l _ => l
  | .arrayLiteral _ _ l _ => l
  | .enumDef _ _ l _ => l
  | .interfaceDef _ _ l _ => l
  | .interfaceMethod _ _ _ l _ => l
  | .enumAccess _ _ l _ => l
  | .methodDef _ _ _ _ l _ => l
  | .methodCall _ _ _ l _ => l
  | .selfExpr l _ => l
  | .addressOf _ l _ => l
  | .dereference _ l _ => l
  | .nullLiteral l _ => l
  | .tryExpr _ l _ => l
  | .tupleLiteral _ l _ => l
  | .tupleUnpack _ _ _ _ l _ => l

/-- Source column of a node. -/
def Node.ncolumn : Node → Nat
  | .program _ _ c => c
  | .varDecl _ _ _ _ _ c => c
  | .assignment _ _ _ _ c => c
  | .functionCall _ _ _ c => c
  | .functionDef _ _ _ _ _ _ c => c
  | .structDef _ _ _ _ _ c => c
  | .returnStmt _ _ c => c
  | .deferStmt _ _ c => c
  | .block _ _ c => c
  | .ifStmt _ _ _ _ c => c
  | .whileStmt _ _ _ c => c
  | .forStmt _ _ _ _ _ c => c
  | .binaryExpr _ _ _ _ c => c
  | .unaryExpr _ _ _ c => c
  | .literal _ _ _ c => c
  | .interpString _ _ c => c
  | .identifier _ _ c => c
  | .fieldAccess _ _ _ c => c
  | .indexExpr _ _ _ c => c
  | .newExpr _ _ _ c => c
  | .arrayLiteral _ _ _ c => c
  | .enumDef _ _ _ c => c
  | .interfaceDef _ _ _ c => c
  | .interfaceMethod _ _ _ _ c => c
  | .enumAccess _ _ _ c => c
  | .methodDef _ _ _ _ _ c => c
  | .methodCall _ _ _ _ c => c
  | .selfExpr _ c => c
  | .addressOf _ _ c => c
  | .dereference _ _ c => c
  | .nullLiteral _ c => c
  | .tryExpr _ _ c => c
  | .tupleLiteral _ _ c => c
  | .tupleUnpack _ _ _ _ _ c => c

/-!  ## Parser (parser.py)

The recursive-descent parser is modelled with a single fuel argument: every
function entry and every loop iteration consumes one unit.  Fuel exhaustion
returns the sentinel message below; concrete runs are given ample fuel.
`parse_enum_decl` sits outside the mutual cluster (it calls no other parse
function), fuelled by its variant-loop iteration count only. -/

def fuelErrMsg : String := "INTERNAL: parser fuel exhausted"

/-- Parser cursor over the token list (Parser.position / current_token). -/
structure PState where
  tokens : List Token
  position : Nat
deriving Repr, DecidableEq

/-- Parser.current_token. -/
def PState.cur (p : PState) : Option Token := p.tokens.get? p.position

/-- Parser.advance. -/
def PState.adv (p : PState) : PState := { p with position := p.position + 1 }

/-- Parser.peek with offset. -/
def PState.peekTok (p : PState) (offset : Nat) : Option Token :=
  p.tokens.get? (p.position + offset)

/-- current_token is present with the given type. -/
def PState.curIs (p : PState) (ty : String) : Bool :=
  match p.cur with
  | some t => t.type = ty
  | none => false

/-- current_token is present with a type in the given list. -/
def PState.curIn (p : PState) (tys : List String) : Bool :=
  match p.cur with
  | some t => tys.contains t.type
  | none => false

/-- Text of a token (operator and identifier tokens always carry text). -/
def tokStr (t : Token) : String := t.value.getD ""

/-- Parser.consume. -/
def consume (expected : String) (p : PState) : Except String (Token × PState) :=
  match p.cur with
  | none => .error ("Expected " ++ expected ++ ", got EOF")
  | some t =>
      if t.type = expected then .ok (t, p.adv)
      else .error ("Expected " ++ expected ++ ", got " ++ t.type ++ " at line " ++ toString t.line)

/-- Loop of Parser.skip_newlines (fuelled by remaining tokens). -/
def skipNewlinesAux : Nat → PState → PState
  | 0, p => p
  | fuel + 1, p => if p.curIs "NEWLINE" then skipNewlinesAux fuel p.adv else p

/-- Parser.skip_newlines. -/
def skipNewlines (p : PState) : PState :=
  skipNewlinesAux (p.tokens.length + 1) p

/-- The balanced-parenthesis scan inside Parser.parse_statement's
identifier lookahead: advance while depth stays positive. -/
def scanDepthAux : Nat → PState → Nat → PState
  | 0, p, _ => p
  | fuel + 1, p, depth =>
      if depth = 0 then p
      else
        match p.cur with
        | none => p
        | some t =>
            let depth' :=
              if t.type = "LPAREN" then depth + 1
              else if t.type = "RPAREN" then depth - 1
              else depth
            if depth' > 0 then scanDepthAux fuel p.adv depth' else p

/-- Parser.parse_statement's lookahead at IDENTIFIER followed by LPAREN:
scan past the balanced parameter list and test for LBRACE or ARROW.
The caller's position is untouched (`save_pos` restore). -/
def lookIsFuncDef (p : PState) : Bool :=
  let p1 := p.adv
  let p2 := p1.adv
  let p3 := scanDepthAux (p.tokens.length + 1) p2 1
  let p4 :=
    match p3.cur with
    | some t => if t.type = "RPAREN" then p3.adv else p3
    | none => p3
  match p4.cur with
  | some t => t.type = "LBRACE" || t.type = "ARROW"
  | none => false

/-- Statement kinds exempt from the trailing-semicolon requirement
(the isinstance tuple at the end of Parser.parse_statement). -/
def isBlockTerminated : Node → Bool
  | .ifStmt _ _ _ _ _ => true
  | .whileStmt _ _ _ _ => true
  | .forStmt _ _ _ _ _ _ => true
  | .functionDef _ _ _ _ _ _ _ => true
  | .block _ _ _ => true
  | .structDef _ _ _ _ _ _ => true
  | .enumDef _ _ _ _ => true
  | .interfaceDef _ _ _ _ => true
  | .deferStmt _ _ _ => true
  | _ => false

/-- Type-name token kinds accepted by the parser's type positions. -/
def typeTokenKinds : List String :=
  ["INT_TYPE", "DEC_TYPE", "STRING_TYPE", "BOOL_TYPE", "INF_TYPE", "ARRAY_TYPE"]

/-- Variant loop of Parser.parse_enum_decl (one fuel unit per variant).
A malformed INTEGER token without int_value would crash the source with a
TypeError; modelled as an error. -/
def parseEnumVariants : Nat → PState → Int → List (String × Int) →
    Except String (List (String × Int) × PState)
  | 0, _, _, _ => .error fuelErrMsg
  | fuel + 1, p, current_value, acc =>
      match p.cur with
      | none => .ok (acc, p)
      | some t =>
          if t.type = "RBRACE" then .ok (acc, p)
          else do
            let (variant_tok, p) ← consume "IDENTIFIER" p
            let (entry, nextCur, p) ←
              if p.curIs "ASSIGN" then do
                let (_, p) ← consume "ASSIGN" p
                let (value_tok, p) ← consume "INTEGER" p
                match value_tok.int_value with
                | some k => pure ((tokStr variant_tok, k), k + 1, p)
                | none => throw "TypeError: INTEGER token without int_value"
              else
                pure ((tokStr variant_tok, current_value), current_value + 1, p)
            let p := if p.curIs "COMMA" then p.adv else p
            let p := skipNewlines p
            parseEnumVariants fuel p nextCur (acc ++ [entry])

/-- Parser.parse_enum_decl. -/
def parseEnumDecl (fuel : Nat) (p : PState) : Except String (Node × PState) := do
  let (enum_tok, p) ← consume "ENUM" p
  let (name_tok, p) ← consume "IDENTIFIER" p
  let (_, p) ← consume "LBRACE" p
  let p := skipNewlines p
  let (variants, p) ← parseEnumVariants fuel p 0 []
  let (_, p) ← consume "RBRACE" p
  return (.enumDef (tokStr name_tok) variants enum_tok.line enum_tok.column, p)

mutual

/-- Parser.parse_statement (returns `none` for the bare-semicolon skip). -/
def parse_statement : Nat → PState → Except String (Option Node × PState)
  | 0, _ => .error fuelErrMsg
  | fuel + 1, p =>
      match p.cur with
      | none => .ok (none, p)
      | some tok =>
          if tok.type = "SEMICOLON" then .ok (none, p.adv)
          else do
            let (stmt, p1) ← parse_statement_core fuel p tok
            if isBlockTerminated stmt then
              .ok (some stmt, p1)
            else
              match p1.cur with
              | some t2 =>
                  if t2.type = "SEMICOLON" then .ok (some stmt, p1.adv)
                  else .error ("Expected ; after statement at line " ++ toString stmt.nline)
              | none => .error ("Expected ; after statement at line " ++ toString stmt.nline)

/-- Dispatch body of Parser.parse_statement. -/
def parse_statement_core : Nat → PState → Token → Except String (Node × PState)
  | 0, _, _ => .error fuelErrMsg
  | fuel + 1, p, tok =>
      let token_type := tok.type
      if token_type = "VAR" then parse_var_decl fuel p
      else if token_type = "LET" then parse_let_decl fuel p
      else if token_type = "FUNCTION" then parse_function_decl fuel p
      else if token_type = "STRUCT" then parse_struct_decl fuel p
      else if token_type = "ENUM" then parseEnumDecl fuel p
      else if token_type = "INTERFACE" then parse_interface_decl fuel p
      else if token_type = "RETURN" then parse_return fuel p
      else if token_type = "IDENTIFIER" then
        match p.peekTok 1 with
        | some t1 =>
            if t1.type = "LPAREN" then
              if lookIsFuncDef p then parse_shorthand_function_decl fuel p
              else parse_assignment_or_call fuel p
            else parse_assignment_or_call fuel p
        | none => parse_assignment_or_call fuel p
      else if token_type = "SELF" then parse_self_expression_statement fuel p
      else if token_type = "STAR" then parse_dereference_assignment fuel p
      else if token_type = "IF" then parse_if fuel p
      else if token_type = "WHILE" then parse_while fuel p
      else if token_type = "FOR" then parse_for fuel p
      else if token_type = "DEFER" then parse_defer fuel p
      else .error ("Unexpected token " ++ token_type ++ " at line " ++ toString tok.line)

/-- Parameter-list tail: `while COMMA: parse_param` (shared by the three
function-shaped declarations). -/
def parse_params_more : Nat → PState → List (String × Option String × Option Node) →
    Except String (List (String × Option String × Option Node) × PState)
  | 0, _, _ => .error fuelErrMsg
  | fuel + 1, p, acc =>
      if p.curIs "COMMA" then do
        let (_, p) ← consume "COMMA" p
        let (prm, p) ← parse_param fuel p
        parse_params_more fuel p (acc ++ [prm])
      else .ok (acc, p)

/-- Optional parameter list before RPAREN. -/
def parse_params_opt : Nat → PState → Except String (List (String × Option String × Option Node) × PState)
  | 0, _ => .error fuelErrMsg
  | fuel + 1, p =>
      match p.cur with
      | some t =>
          if t.type ≠ "RPAREN" then do
            let (prm, p) ← parse_param fuel p
            parse_params_more fuel p [prm]
          else .ok ([], p)
      | none => .ok ([], p)

/-- Optional `-> type` return annotation. -/
def parse_ret_ann : Nat → PState → Except String (Option String × PState)
  | 0, _ => .error fuelErrMsg
  | fuel + 1, p =>
      if p.curIs "ARROW" then do
        let (_, p) ← consume "ARROW" p
        let (ty, p) ← parse_type_ann fuel p
        .ok (some ty, p)
      else .ok (none, p)

/-- Parser.parse_function_decl. -/
def parse_function_decl : Nat → PState → Except String (Node × PState)
  | 0, _ => .error fuelErrMsg
  | fuel + 1, p => do
      let (fn_token, p) ← consume "FUNCTION" p
      let (name_tok, p) ← consume "IDENTIFIER" p
      let (_, p) ← consume "LPAREN" p
      let (params, p) ← parse_params_opt fuel p
      let (_, p) ← consume "RPAREN" p
      let (return_type, p) ← parse_ret_ann fuel p
      let (body, p) ← parse_block fuel p
      .ok (.functionDef (tokStr name_tok) params return_type (some body) []
            fn_token.line fn_token.column, p)

/-- Parser.parse_shorthand_function_decl. -/
def parse_shorthand_function_decl : Nat → PState → Except String (Node × PState)
  | 0, _ => .error fuelErrMsg
  | fuel + 1, p => do
      let (name_tok, p) ← consume "IDENTIFIER" p
      let (_, p) ← consume "LPAREN" p
      let (params, p) ← parse_params_opt fuel p
      let (_, p) ← consume "RPAREN" p
      let (return_type, p) ← parse_ret_ann fuel p
      let (body, p) ← parse_block fuel p
      .ok (.functionDef (tokStr name_tok) params return_type (some body) []
            name_tok.line name_tok.column, p)

/-- Parser.parse_param: `name[: type][= default]`. -/
def parse_param : Nat → PState → Except String ((String × Option String × Option Node) × PState)
  | 0, _ => .error fuelErrMsg
  | fuel + 1, p => do
      let (name_tok, p) ← consume "IDENTIFIER" p
      let (param_type, p) ←
        if p.curIs "COLON" then do
          let (_, p) ← consume "COLON" p
          let (ty, p) ← parse_type_ann fuel p
          pure (some ty, p)
        else pure ((none : Option String), p)
      let (default_value, p) ←
        if p.curIs "ASSIGN" then do
          let (_, p) ← consume "ASSIGN" p
          let (e, p) ← parse_expression fuel p
          pure (some e, p)
        else pure ((none : Option Node), p)
      .ok ((tokStr name_tok, param_type, default_value), p)

/-- Generic type-parameter tail `, T, K` inside `<...>`. -/
def parse_type_params_more : Nat → PState → List String → Except String (List String × PState)
  | 0, _, _ => .error fuelErrMsg
  | fuel + 1, p, acc =>
      if p.curIs "COMMA" then do
        let (_, p) ← consume "COMMA" p
        let (t, p) ← consume "IDENTIFIER" p
        parse_type_params_more fuel p (acc ++ [tokStr t])
      else .ok (acc, p)

/-- Struct body loop: fields and methods until RBRACE. -/
def parse_struct_items : Nat → PState → List Node → List Node →
    Except String ((List Node × List Node) × PState)
  | 0, _, _, _ => .error fuelErrMsg
  | fuel + 1, p, fields, methods =>
      match p.cur with
      | none => .ok ((fields, methods), p)
      | some t =>
          if t.type = "RBRACE" then .ok ((fields, methods), p)
          else if t.type = "VAR" then do
            let (_, p) ← consume "VAR" p
            let (field_type, p) ←
              match p.cur with
              | some _ => do
                  let (ty, p) ← parse_type_ann fuel p
                  pure (some ty, p)
              | none => pure ((none : Option String), p)
            let (field_name_tok, p) ← consume "IDENTIFIER" p
            let field_decl : Node := .varDecl (tokStr field_name_tok) field_type none true
              field_name_tok.line field_name_tok.column
            if p.curIs "SEMICOLON" then do
              let (_, p) ← consume "SEMICOLON" p
              let p := skipNewlines p
              parse_struct_items fuel p (fields ++ [field_decl]) methods
            else
              .error ("Expected ; after field in struct at line " ++ toString field_decl.nline)
          else if t.type = "FUNCTION" then do
            let (m, p) ← parse_method_decl fuel p
            let p := skipNewlines p
            parse_struct_items fuel p fields (methods ++ [m])
          else
            .error ("Expected field or method declaration in struct at line " ++ toString t.line)

/-- Parser.parse_struct_decl. -/
def parse_struct_decl : Nat → PState → Except String (Node × PState)
  | 0, _ => .error fuelErrMsg
  | fuel + 1, p => do
      let (struct_tok, p) ← consume "STRUCT" p
      let (struct_name_tok, p) ← consume "IDENTIFIER" p
      let (type_params, p) ←
        if p.curIs "LT" then do
          let (_, p) ← consume "LT" p
          let (t0, p) ← consume "IDENTIFIER" p
          let (tps, p) ← parse_type_params_more fuel p [tokStr t0]
          let (_, p) ← consume "GT" p
          pure (tps, p)
        else pure (([] : List String), p)
      let (_, p) ← consume "LBRACE" p
      let p := skipNewlines p
      let ((fields, methods), p) ← parse_struct_items fuel p [] []
      let (_, p) ← consume "RBRACE" p
      .ok (.structDef (tokStr struct_name_tok) fields methods type_params
            struct_tok.line struct_tok.column, p)

/-- Parser.parse_method_decl. -/
def parse_method_decl : Nat → PState → Except String (Node × PState)
  | 0, _ => .error fuelErrMsg
  | fuel + 1, p => do
      let (fn_token, p) ← consume "FUNCTION" p
      let (name_tok, p) ← consume "IDENTIFIER" p
      let (_, p) ← consume "LPAREN" p
      let (params, p) ← parse_params_opt fuel p
      let (_, p) ← consume "RPAREN" p
      let (return_type, p) ← parse_ret_ann fuel p
      let (body, p) ← parse_block fuel p
      .ok (.methodDef (tokStr name_tok) params return_type (some body)
            fn_token.line fn_token.column, p)

/-- Interface-signature parameter tail. -/
def parse_iface_params_more : Nat → PState → List (String × Option String) →
    Except String (List (String × Option String) × PState)
  | 0, _, _ => .error fuelErrMsg
  | fuel + 1, p, acc =>
      if p.curIs "COMMA" then do
        let (_, p) ← consume "COMMA" p
        let (param_name, p) ← consume "IDENTIFIER" p
        let (_, p) ← consume "COLON" p
        let (param_type, p) ← parse_type_ann fuel p
        parse_iface_params_more fuel p (acc ++ [(tokStr param_name, some param_type)])
      else .ok (acc, p)

/-- Interface body loop: `Function name(params) -> type;` entries. -/
def parse_iface_items : Nat → PState → List Node → Except String (List Node × PState)
  | 0, _, _ => .error fuelErrMsg
  | fuel + 1, p, methods =>
      match p.cur with
      | none => .ok (methods, p)
      | some t =>
          if t.type = "RBRACE" then .ok (methods, p)
          else do
            let (_, p) ← consume "FUNCTION" p
            let (method_name, p) ← consume "IDENTIFIER" p
            let (_, p) ← consume "LPAREN" p
            let (params, p) ←
              match p.cur with
              | some t2 =>
                  if t2.type ≠ "RPAREN" then do
                    let (param_name, p) ← consume "IDENTIFIER" p
                    let (_, p) ← consume "COLON" p
                    let (param_type, p) ← parse_type_ann fuel p
                    parse_iface_params_more fuel p [(tokStr param_name, some param_type)]
                  else pure (([] : List (String × Option String)), p)
              | none => pure (([] : List (String × Option String)), p)
            let (_, p) ← consume "RPAREN" p
            let (return_type, p) ← parse_ret_ann fuel p
            let (_, p) ← consume "SEMICOLON" p
            let m : Node := .interfaceMethod (tokStr method_name) params return_type 0 0
            let p := skipNewlines p
            parse_iface_items fuel p (methods ++ [m])

/-- Parser.parse_interface_decl. -/
def parse_interface_decl : Nat → PState → Except String (Node × PState)
  | 0, _ => .error fuelErrMsg
  | fuel + 1, p => do
      let (interface_tok, p) ← consume "INTERFACE" p
      let (name_tok, p) ← consume "IDENTIFIER" p
      let (_, p) ← consume "LBRACE" p
      let p := skipNewlines p
      let (methods, p) ← parse_iface_items fuel p []
      let (_, p) ← consume "RBRACE" p
      .ok (.interfaceDef (tokStr name_tok) methods interface_tok.line interface_tok.column, p)

/-- Tuple-type element tail inside parse_type_annotation. -/
def parse_type_tuple_more : Nat → PState → List String → Except String (List String × PState)
  | 0, _, _ => .error fuelErrMsg
  | fuel + 1, p, acc =>
      if p.curIs "COMMA" then do
        let (_, p) ← consume "COMMA" p
        let (ty, p) ← parse_type_ann fuel p
        parse_type_tuple_more fuel p (acc ++ [ty])
      else .ok (acc, p)

/-- Parser.parse_type_annotation. -/
def parse_type_ann : Nat → PState → Except String (String × PState)
  | 0, _ => .error fuelErrMsg
  | fuel + 1, p =>
      match p.cur with
      | none => .error "Expected type annotation"
      | some tok =>
          if tok.type = "LPAREN" then do
            let (_, p) ← consume "LPAREN" p
            let (types, p) ←
              match p.cur with
              | some t2 =>
                  if t2.type ≠ "RPAREN" then do
                    let (ty0, p) ← parse_type_ann fuel p
                    parse_type_tuple_more fuel p [ty0]
                  else pure (([] : List String), p)
              | none => pure (([] : List String), p)
            let (_, p) ← consume "RPAREN" p
            .ok ("(" ++ String.intercalate ", " types ++ ")", p)
          else if tok.type = "STAR" then do
            let p := p.adv
            let (inner_type, p) ← parse_type_ann fuel p
            .ok ("*" ++ inner_type, p)
          else if typeTokenKinds.contains tok.type then
            .ok (tokStr tok, p.adv)
          else if tok.type = "IDENTIFIER" then
            .ok (tokStr tok, p.adv)
          else .error ("Expected type, got " ++ tok.type)

/-- Parser.parse_return. -/
def parse_return : Nat → PState → Except String (Node × PState)
  | 0, _ => .error fuelErrMsg
  | fuel + 1, p => do
      let (tok, p) ← consume "RETURN" p
      match p.cur with
      | some t =>
          if t.type ≠ "SEMICOLON" && t.type ≠ "NEWLINE" && t.type ≠ "RBRACE" then do
            let (value, p) ← parse_expression fuel p
            .ok (.returnStmt (some value) tok.line tok.column, p)
          else .ok (.returnStmt none tok.line tok.column, p)
      | none => .ok (.returnStmt none tok.line tok.column, p)

/-- Tuple-unpacking name tail inside parse_var_decl. -/
def parse_unpack_more : Nat → PState → List String → List (Option String) →
    Except String ((List String × List (Option String)) × PState)
  | 0, _, _, _ => .error fuelErrMsg
  | fuel + 1, p, names, types =>
      if p.curIs "COMMA" then do
        let (_, p) ← consume "COMMA" p
        let (next_type, p) ←
          match p.cur with
          | some t =>
              if typeTokenKinds.contains t.type then pure ((some (tokStr t) : Option String), p.adv)
              else if t.type = "IDENTIFIER" then
                match p.peekTok 1 with
                | some la =>
                    if la.type = "IDENTIFIER" then pure (some (tokStr t), p.adv)
                    else pure ((none : Option String), p)
                | none => pure ((none : Option String), p)
              else pure ((none : Option String), p)
          | none => pure ((none : Option String), p)
        let (name_tok, p) ← consume "IDENTIFIER" p
        parse_unpack_more fuel p (names ++ [tokStr name_tok]) (types ++ [next_type])
      else .ok ((names, types), p)

/-- Parser.parse_var_decl (plain declaration or tuple unpacking). -/
def parse_var_decl : Nat → PState → Except String (Node × PState)
  | 0, _ => .error fuelErrMsg
  | fuel + 1, p => do
      let (var_tok, p) ← consume "VAR" p
      let (var_type, p) ←
        match p.cur with
        | some t =>
            if t.type = "STAR" then do
              let p := p.adv
              let (inner_type, p) ← parse_type_ann fuel p
              pure ((some ("*" ++ inner_type) : Option String), p)
            else if typeTokenKinds.contains t.type then do
              let base := tokStr t
              let p := p.adv
              if p.curIs "LBRACKET" then do
                let p := p.adv
                let (_, p) ← consume "RBRACKET" p
                pure (some (base ++ "[]"), p)
              else pure (some base, p)
            else if t.type = "IDENTIFIER" then
              match p.peekTok 1 with
              | some la =>
                  if la.type = "IDENTIFIER" then pure ((some (tokStr t) : Option String), p.adv)
                  else if la.type = "LBRACKET" then do
                    let base := tokStr t
                    let p := p.adv
                    let p := p.adv
                    let (_, p) ← consume "RBRACKET" p
                    pure (some (base ++ "[]"), p)
                  else pure ((none : Option String), p)
              | none => pure ((none : Option String), p)
            else pure ((none : Option String), p)
        | none => pure ((none : Option String), p)
      match p.cur with
      | some t =>
          if t.type ≠ "IDENTIFIER" then
            .error ("Expected variable name at line " ++ toString var_tok.line)
          else do
            let (first_name, p) ← consume "IDENTIFIER" p
            if p.curIs "COMMA" then do
              let ((names, types), p) ← parse_unpack_more fuel p [tokStr first_name] [var_type]
              if p.curIs "ASSIGN" then do
                let (_, p) ← consume "ASSIGN" p
                let (value, p) ← parse_expression fuel p
                .ok (.tupleUnpack names types value true var_tok.line var_tok.column, p)
              else
                .error ("Tuple unpacking requires initialization at line " ++ toString var_tok.line)
            else if p.curIs "ASSIGN" then do
              let (_, p) ← consume "ASSIGN" p
              let (value, p) ← parse_expression fuel p
              .ok (.varDecl (tokStr first_name) var_type (some value) true
                    first_name.line first_name.column, p)
            else
              .ok (.varDecl (tokStr first_name) var_type none true
                    first_name.line first_name.column, p)
      | none => .error ("Expected variable name at line " ++ toString var_tok.line)

/-- Parser.parse_let_decl. -/
def parse_let_decl : Nat → PState → Except String (Node × PState)
  | 0, _ => .error fuelErrMsg
  | fuel + 1, p => do
      let (_, p) ← consume "LET" p
      let (is_mutable, p) ←
        if p.curIs "MUT" then do
          let (_, p) ← consume "MUT" p
          pure (true, p)
        else pure (false, p)
      let (name_token, p) ← consume "IDENTIFIER" p
      let (var_type, p) ←
        if p.curIs "COLON" then do
          let (_, p) ← consume "COLON" p
          let (ty, p) ← parse_type_ann fuel p
          pure (some ty, p)
        else pure ((none : Option String), p)
      let (value, p) ←
        if p.curIs "ASSIGN" then do
          let (_, p) ← consume "ASSIGN" p
          let (e, p) ← parse_expression fuel p
          pure (some e, p)
        else pure ((none : Option Node), p)
      .ok (.varDecl (tokStr name_token) var_type value is_mutable
            name_token.line name_token.column, p)

/-- Parser.parse_dereference_assignment: `*ptr = value`. -/
def parse_dereference_assignment : Nat → PState → Except String (Node × PState)
  | 0, _ => .error fuelErrMsg
  | fuel + 1, p => do
      let (star_tok, p) ← consume "STAR" p
      let (operand, p) ← parse_unary fuel p
      let deref : Node := .dereference operand star_tok.line star_tok.column
      if p.curIs "ASSIGN" then do
        let (_, p) ← consume "ASSIGN" p
        let (value, p) ← parse_expression fuel p
        .ok (.assignment "" value (some deref) star_tok.line star_tok.column, p)
      else .error ("Expected = after dereference at line " ++ toString star_tok.line)

/-- Call-argument list between parentheses (LPAREN already consumed). -/
def parse_args_more : Nat → PState → List Node → Except String (List Node × PState)
  | 0, _, _ => .error fuelErrMsg
  | fuel + 1, p, acc =>
      if p.curIs "COMMA" then do
        let (_, p) ← consume "COMMA" p
        let (e, p) ← parse_expression fuel p
        parse_args_more fuel p (acc ++ [e])
      else .ok (acc, p)

/-- Optional call-argument list up to RPAREN. -/
def parse_args_opt : Nat → PState → Except String (List Node × PState)
  | 0, _ => .error fuelErrMsg
  | fuel + 1, p =>
      match p.cur with
      | some t =>
          if t.type ≠ "RPAREN" then do
            let (e, p) ← parse_expression fuel p
            parse_args_more fuel p [e]
          else .ok ([], p)
      | none => .ok ([], p)

/-- DOT / LBRACKET chain for `self` receivers (used by the self statement
and the SELF case of parse_primary). -/
def parse_self_chain : Nat → PState → Node → Except String (Node × PState)
  | 0, _, _ => .error fuelErrMsg
  | fuel + 1, p, node =>
      match p.cur with
      | none => .ok (node, p)
      | some t =>
          if t.type = "DOT" then do
            let (_, p) ← consume "DOT" p
            let (field_tok, p) ← consume "IDENTIFIER" p
            if p.curIs "LPAREN" then do
              let (_, p) ← consume "LPAREN" p
              let (args, p) ← parse_args_opt fuel p
              let (_, p) ← consume "RPAREN" p
              parse_self_chain fuel p
                (.methodCall node (tokStr field_tok) args field_tok.line field_tok.column)
            else
              parse_self_chain fuel p
                (.fieldAccess node (tokStr field_tok) field_tok.line field_tok.column)
          else if t.type = "LBRACKET" then do
            let (lbr, p) ← consume "LBRACKET" p
            let (idx_expr, p) ← parse_expression fuel p
            let (_, p) ← consume "RBRACKET" p
            parse_self_chain fuel p (.indexExpr node idx_expr lbr.line lbr.column)
          else .ok (node, p)

/-- Parser.parse_self_expression_statement. -/
def parse_self_expression_statement : Nat → PState → Except String (Node × PState)
  | 0, _ => .error fuelErrMsg
  | fuel + 1, p => do
      let (self_tok, p) ← consume "SELF" p
      let node : Node := .selfExpr self_tok.line self_tok.column
      if p.curIs "DOT" then do
        let (node, p) ← parse_self_chain fuel p node
        match node with
        | .methodCall r m a l c => .ok (.methodCall r m a l c, p)
        | _ =>
            if p.curIs "ASSIGN" then do
              let (_, p) ← consume "ASSIGN" p
              let (value, p) ← parse_expression fuel p
              .ok (.assignment "" value (some node) node.nline node.ncolumn, p)
            else .error ("Expected = after self field access at line " ++ toString node.nline)
      else .error ("Expected . after self at line " ++ toString self_tok.line)

/-- Parser.parse_assignment_or_call. -/
def parse_assignment_or_call : Nat → PState → Except String (Node × PState)
  | 0, _ => .error fuelErrMsg
  | fuel + 1, p => do
      let (lhs, p) ← parse_postfix_identifier fuel p
      match lhs with
      | .functionCall n a l c => .ok (.functionCall n a l c, p)
      | .methodCall r m a l c => .ok (.methodCall r m a l c, p)
      | _ =>
          if p.curIs "ASSIGN" then do
            let (_, p) ← consume "ASSIGN" p
            let (value, p) ← parse_expression fuel p
            match lhs with
            | .identifier n l c => .ok (.assignment n value none l c, p)
            | .fieldAccess r f l c => .ok (.assignment "" value (some (.fieldAccess r f l c)) l c, p)
            | .indexExpr r i l c => .ok (.assignment "" value (some (.indexExpr r i l c)) l c, p)
            | _ => .error "Invalid assignment target"
          else
            .error ("Expected ASSIGN, got " ++
              (match p.cur with | some t => t.type | none => "EOF") ++
              " at line " ++ toString lhs.nline)

/-- DOT / LBRACKET / QUESTION chain of Parser.parse_postfix_identifier. -/
def parse_postfix_chain : Nat → PState → Node → Except String (Node × PState)
  | 0, _, _ => .error fuelErrMsg
  | fuel + 1, p, node =>
      match p.cur with
      | none => .ok (node, p)
      | some t =>
          if t.type = "QUESTION" then do
            let (q_tok, p) ← consume "QUESTION" p
            parse_postfix_chain fuel p (.tryExpr node q_tok.line q_tok.column)
          else if t.type = "DOT" then do
            let (_, p) ← consume "DOT" p
            let (field_tok, p) ← consume "IDENTIFIER" p
            if p.curIs "LPAREN" then do
              let (_, p) ← consume "LPAREN" p
              let (args, p) ← parse_args_opt fuel p
              let (_, p) ← consume "RPAREN" p
              parse_postfix_chain fuel p
                (.methodCall node (tokStr field_tok) args field_tok.line field_tok.column)
            else
              parse_postfix_chain fuel p
                (.fieldAccess node (tokStr field_tok) field_tok.line field_tok.column)
          else if t.type = "LBRACKET" then do
            let (lbr, p) ← consume "LBRACKET" p
            let (idx_expr, p) ← parse_expression fuel p
            let (_, p) ← consume "RBRACKET" p
            parse_postfix_chain fuel p (.indexExpr node idx_expr lbr.line lbr.column)
          else .ok (node, p)

/-- Parser.parse_postfix_identifier. -/
def parse_postfix_identifier : Nat → PState → Except String (Node × PState)
  | 0, _ => .error fuelErrMsg
  | fuel + 1, p => do
      let (name_token, p) ← consume "IDENTIFIER" p
      let node : Node := .identifier (tokStr name_token) name_token.line name_token.column
      let (node, p) ←
        if p.curIs "LPAREN" then do
          let (_, p) ← consume "LPAREN" p
          let (arguments, p) ← parse_args_opt fuel p
          let (_, p) ← consume "RPAREN" p
          pure ((.functionCall (tokStr name_token) arguments name_token.line name_token.column : Node), p)
        else pure (node, p)
      parse_postfix_chain fuel p node

/-- Statement loop of Parser.parse_block. -/
def parse_block_stmts : Nat → PState → List Node → Except String (List Node × PState)
  | 0, _, _ => .error fuelErrMsg
  | fuel + 1, p, acc =>
      match p.cur with
      | none => .ok (acc, p)
      | some t =>
          if t.type = "RBRACE" then .ok (acc, p)
          else do
            let (stmt, p) ← parse_statement fuel p
            let acc := match stmt with | some s => acc ++ [s] | none => acc
            let p := skipNewlines p
            parse_block_stmts fuel p acc

/-- Parser.parse_block. -/
def parse_block : Nat → PState → Except String (Node × PState)
  | 0, _ => .error fuelErrMsg
  | fuel + 1, p => do
      let (_, p) ← consume "LBRACE" p
      let p := skipNewlines p
      let (stmts, p) ← parse_block_stmts fuel p []
      let (_, p) ← consume "RBRACE" p
      .ok (.block stmts 0 0, p)

/-- elif / else chain of Parser.parse_if (the source threads nested IfStmt
nodes through else_block; built here by recursion). -/
def parse_elif_chain : Nat → PState → Except String (Option Node × PState)
  | 0, _ => .error fuelErrMsg
  | fuel + 1, p =>
      if p.curIs "ELIF" then do
        let (elif_token, p) ← consume "ELIF" p
        let (_, p) ← consume "LPAREN" p
        let (elif_cond, p) ← parse_expression fuel p
        let (_, p) ← consume "RPAREN" p
        let (elif_block, p) ← parse_block fuel p
        let p := skipNewlines p
        let (rest, p) ← parse_elif_chain fuel p
        .ok (some (.ifStmt elif_cond elif_block rest elif_token.line elif_token.column), p)
      else if p.curIs "ELSE" then do
        let (_, p) ← consume "ELSE" p
        let (blk, p) ← parse_block fuel p
        .ok (some blk, p)
      else .ok (none, p)

/-- Parser.parse_if. -/
def parse_if : Nat → PState → Except String (Node × PState)
  | 0, _ => .error fuelErrMsg
  | fuel + 1, p => do
      let (if_token, p) ← consume "IF" p
      let (_, p) ← consume "LPAREN" p
      let (condition, p) ← parse_expression fuel p
      let (_, p) ← consume "RPAREN" p
      let (then_block, p) ← parse_block fuel p
      let p := skipNewlines p
      let (els, p) ← parse_elif_chain fuel p
      .ok (.ifStmt condition then_block els if_token.line if_token.column, p)

/-- Parser.parse_while. -/
def parse_while : Nat → PState → Except String (Node × PState)
  | 0, _ => .error fuelErrMsg
  | fuel + 1, p => do
      let (while_token, p) ← consume "WHILE" p
      let (_, p) ← consume "LPAREN" p
      let (condition, p) ← parse_expression fuel p
      let (_, p) ← consume "RPAREN" p
      let (body, p) ← parse_block fuel p
      .ok (.whileStmt condition body while_token.line while_token.column, p)

/-- Parser.parse_for. -/
def parse_for : Nat → PState → Except String (Node × PState)
  | 0, _ => .error fuelErrMsg
  | fuel + 1, p => do
      let (for_token, p) ← consume "FOR" p
      let (vname_tok, p) ← consume "IDENTIFIER" p
      let (_, p) ← consume "IN" p
      let (start, p) ← parse_expression fuel p
      if p.curIs "RANGE" then do
        let (_, p) ← consume "RANGE" p
        let (endv, p) ← parse_expression fuel p
        let (body, p) ← parse_block fuel p
        .ok (.forStmt (tokStr vname_tok) start endv body for_token.line for_token.column, p)
      else .error "Expected .. in for loop range"

/-- Parser.parse_defer.  A bare `defer ;` leaves parse_statement's result
empty and the source crashes reading `.line` of None; modelled as an error. -/
def parse_defer : Nat → PState → Except String (Node × PState)
  | 0, _ => .error fuelErrMsg
  | fuel + 1, p => do
      let (defer_token, p) ← consume "DEFER" p
      if p.curIs "LBRACE" then do
        let (body, p) ← parse_block fuel p
        .ok (.deferStmt body defer_token.line defer_token.column, p)
      else do
        let (stmt, p) ← parse_statement fuel p
        match stmt with
        | some s => .ok (.deferStmt (.block [s] s.nline s.ncolumn) defer_token.line defer_token.column, p)
        | none => .error "TypeError: defer of an empty statement"

/-- Parser.parse_expression. -/
def parse_expression : Nat → PState → Except String (Node × PState)
  | 0, _ => .error fuelErrMsg
  | fuel + 1, p => parse_comparison fuel p

/-- Operator loop of Parser.parse_comparison. -/
def parse_comparison_more : Nat → PState → Node → Except String (Node × PState)
  | 0, _, _ => .error fuelErrMsg
  | fuel + 1, p, node =>
      if p.curIn ["LT", "GT", "LE", "GE", "EQ", "NE"] then do
        let op := match p.cur with | some t => tokStr t | none => ""
        let p := p.adv
        let (right, p) ← parse_term fuel p
        parse_comparison_more fuel p (.binaryExpr node op right node.nline node.ncolumn)
      else .ok (node, p)

/-- Parser.parse_comparison. -/
def parse_comparison : Nat → PState → Except String (Node × PState)
  | 0, _ => .error fuelErrMsg
  | fuel + 1, p => do
      let (node, p) ← parse_term fuel p
      parse_comparison_more fuel p node

/-- Operator loop of Parser.parse_term. -/
def parse_term_more : Nat → PState → Node → Except String (Node × PState)
  | 0, _, _ => .error fuelErrMsg
  | fuel + 1, p, node =>
      if p.curIn ["PLUS", "MINUS"] then do
        let op := match p.cur with | some t => tokStr t | none => ""
        let p := p.adv
        let (right, p) ← parse_factor fuel p
        parse_term_more fuel p (.binaryExpr node op right node.nline node.ncolumn)
      else .ok (node, p)

/-- Parser.parse_term. -/
def parse_term : Nat → PState → Except String (Node × PState)
  | 0, _ => .error fuelErrMsg
  | fuel + 1, p => do
      let (node, p) ← parse_factor fuel p
      parse_term_more fuel p node

/-- Operator loop of Parser.parse_factor. -/
def parse_factor_more : Nat → PState → Node → Except String (Node × PState)
  | 0, _, _ => .error fuelErrMsg
  | fuel + 1, p, node =>
      if p.curIn ["STAR", "SLASH"] then do
        let op := match p.cur with | some t => tokStr t | none => ""
        let p := p.adv
        let (right, p) ← parse_unary fuel p
        parse_factor_more fuel p (.binaryExpr node op right node.nline node.ncolumn)
      else .ok (node, p)

/-- Parser.parse_factor. -/
def parse_factor : Nat → PState → Except String (Node × PState)
  | 0, _ => .error fuelErrMsg
  | fuel + 1, p => do
      let (node, p) ← parse_unary fuel p
      parse_factor_more fuel p node

/-- Parser.parse_unary (note: PLUS/MINUS/NOT nodes take the operand's
source position in the source). -/
def parse_unary : Nat → PState → Except String (Node × PState)
  | 0, _ => .error fuelErrMsg
  | fuel + 1, p =>
      if p.curIn ["PLUS", "MINUS", "NOT"] then do
        let op := match p.cur with | some t => tokStr t | none => ""
        let p := p.adv
        let (operand, p) ← parse_unary fuel p
        .ok (.unaryExpr op operand operand.nline operand.ncolumn, p)
      else if p.curIs "AMPERSAND" then do
        let tok := p.cur.getD ⟨"", none, none, none, 0, 0⟩
        let p := p.adv
        let (operand, p) ← parse_unary fuel p
        .ok (.addressOf operand tok.line tok.column, p)
      else if p.curIs "STAR" then do
        let tok := p.cur.getD ⟨"", none, none, none, 0, 0⟩
        let p := p.adv
        let (operand, p) ← parse_unary fuel p
        .ok (.dereference operand tok.line tok.column, p)
      else parse_primary fuel p

/-- Tuple-literal element loop of parse_primary (allows a trailing comma). -/
def parse_tuple_more : Nat → PState → List Node → Except String (List Node × PState)
  | 0, _, _ => .error fuelErrMsg
  | fuel + 1, p, acc =>
      if p.curIs "COMMA" then do
        let (_, p) ← consume "COMMA" p
        if p.curIs "RPAREN" then .ok (acc, p)
        else do
          let (e, p) ← parse_expression fuel p
          parse_tuple_more fuel p (acc ++ [e])
      else .ok (acc, p)

/-- Parser.parse_primary. -/
def parse_primary : Nat → PState → Except String (Node × PState)
  | 0, _ => .error fuelErrMsg
  | fuel + 1, p =>
      match p.cur with
      | none => .error "Unexpected end of expression"
      | some token =>
          if token.type = "LPAREN" then do
            let (_, p) ← consume "LPAREN" p
            if p.curIs "RPAREN" then do
              let (_, p) ← consume "RPAREN" p
              .ok (.tupleLiteral [] token.line token.column, p)
            else do
              let (first_expr, p) ← parse_expression fuel p
              if p.curIs "COMMA" then do
                let (elements, p) ← parse_tuple_more fuel p [first_expr]
                let (_, p) ← consume "RPAREN" p
                .ok (.tupleLiteral elements token.line token.column, p)
              else do
                let (_, p) ← consume "RPAREN" p
                .ok (first_expr, p)
          else if token.type = "LBRACKET" then parse_array_literal fuel p
          else if token.type = "NEW" then parse_new_expr fuel p
          else if token.type = "SELF" then do
            let p := p.adv
            parse_self_chain fuel p (.selfExpr token.line token.column)
          else if token.type = "NULL" then .ok (.nullLiteral token.line token.column, p.adv)
          else if token.type = "TRUE" then
            .ok (.literal (.bool true) "bool" token.line token.column, p.adv)
          else if token.type = "FALSE" then
            .ok (.literal (.bool false) "bool" token.line token.column, p.adv)
          else if token.type = "INTEGER" then
            let v := match token.int_value with | some i => LitVal.int i | none => LitVal.pynone
            .ok (.literal v "int" token.line token.column, p.adv)
          else if token.type = "DECIMAL" then
            let v := match token.dec_value with | some s => LitVal.dec s | none => LitVal.pynone
            .ok (.literal v "dec" token.line token.column, p.adv)
          else if token.type = "STRING" then
            let v := match token.value with | some s => LitVal.str s | none => LitVal.pynone
            .ok (.literal v "string" token.line token.column, p.adv)
          else if token.type = "INTERP_STRING" then
            -- The lexer of this repository never produces INTERP_STRING
            -- tokens and the Token model cannot carry a parts list.
            .ok (.interpString [] token.line token.column, p.adv)
          else if token.type = "BOOL" then
            let v := match token.value with | some s => LitVal.str s | none => LitVal.pynone
            .ok (.literal v "bool" token.line token.column, p.adv)
          else if token.type = "IDENTIFIER" then parse_postfix_identifier fuel p
          else .error ("Unexpected token " ++ token.type ++ " at line " ++ toString token.line)

/-- Struct-literal initializer loop of Parser.parse_new_expr. -/
def parse_init_items : Nat → PState → List (String × Node) →
    Except String (List (String × Node) × PState)
  | 0, _, _ => .error fuelErrMsg
  | fuel + 1, p, acc =>
      match p.cur with
      | none => .ok (acc, p)
      | some t =>
          if t.type = "RBRACE" then .ok (acc, p)
          else do
            let (field_tok, p) ← consume "IDENTIFIER" p
            let (_, p) ← consume "COLON" p
            let (value, p) ← parse_expression fuel p
            let acc := acc ++ [(tokStr field_tok, value)]
            if p.curIs "COMMA" then do
              let (_, p) ← consume "COMMA" p
              let p := skipNewlines p
              let p := skipNewlines p
              parse_init_items fuel p acc
            else .ok (acc, p)

/-- Parser.parse_new_expr. -/
def parse_new_expr : Nat → PState → Except String (Node × PState)
  | 0, _ => .error fuelErrMsg
  | fuel + 1, p => do
      let (new_tok, p) ← consume "NEW" p
      let (name_tok, p) ← consume "IDENTIFIER" p
      if p.curIs "LBRACE" then do
        let (_, p) ← consume "LBRACE" p
        let p := skipNewlines p
        let (initializers, p) ← parse_init_items fuel p []
        let (_, p) ← consume "RBRACE" p
        .ok (.newExpr (tokStr name_tok) initializers new_tok.line new_tok.column, p)
      else
        .ok (.newExpr (tokStr name_tok) [] new_tok.line new_tok.column, p)

/-- Element loop of Parser.parse_array_literal. -/
def parse_array_more : Nat → PState → List Node → Except String (List Node × PState)
  | 0, _, _ => .error fuelErrMsg
  | fuel + 1, p, acc =>
      if p.curIs "COMMA" then do
        let (_, p) ← consume "COMMA" p
        let (e, p) ← parse_expression fuel p
        parse_array_more fuel p (acc ++ [e])
      else .ok (acc, p)

/-- Parser.parse_array_literal. -/
def parse_array_literal : Nat → PState → Except String (Node × PState)
  | 0, _ => .error fuelErrMsg
  | fuel + 1, p => do
      let (lbr, p) ← consume "LBRACKET" p
      let (elements, p) ←
        match p.cur with
        | some t =>
            if t.type ≠ "RBRACKET" then do
              let (e, p) ← parse_expression fuel p
              parse_array_more fuel p [e]
            else pure (([] : List Node), p)
        | none => pure (([] : List Node), p)
      let (_, p) ← consume "RBRACKET" p
      .ok (.arrayLiteral elements none lbr.line lbr.column, p)

/-- Statement loop of Parser.parse. -/
def parse_program_stmts : Nat → PState → List Node → Except String (List Node × PState)
  | 0, _, _ => .error fuelErrMsg
  | fuel + 1, p, acc =>
      match p.cur with
      | none => .ok (acc, p)
      | some t =>
          if t.type = "EOF" then .ok (acc, p)
          else do
            let (stmt, p) ← parse_statement fuel p
            let acc := match stmt with | some s => acc ++ [s] | none => acc
            let p := skipNewlines p
            parse_program_stmts fuel p acc

end

/-- Parser.parse: parse a whole token list into a Program node. -/
def parseProgram (fuel : Nat) (tokens : List Token) : Except String Node := do
  let p : PState := ⟨tokens, 0⟩
  let p := skipNewlines p
  let (stmts, _) ← parse_program_stmts fuel p []
  return .program stmts 0 0

/-!  ## Resolver (resolver.py)

Environments are (name → (type, mutable)) association lists; Python's
in-place dict mutation becomes environment threading, and `dict(...)`
copies passed to nested scopes become uses of the unmodified value.
Error messages drop the quote characters of the source f-strings. -/

/-- ValidationError (validator.py): message with location metadata. -/
structure VErr where
  msg : String
  line : Nat
  column : Nat
deriving Repr, DecidableEq

/-- (type, mutable) environment, resolver and type checker alike. -/
abbrev REnv := List (String × (String × Bool))

/-- BUILTIN_FUNCTIONS from resolver.py (a set literal; "Sys" is listed
twice in the source). -/
def BUILTIN_FUNCTIONS : List String :=
  ["Print", "Clock", "Exists", "CreateFolder", "Open", "Close", "Read", "Write",
   "SHA256", "Argc", "GetArg", "ReadFilesize", "GC", "Sys", "Input", "Exit",
   "Sleep", "Now", "RandInt", "Remove", "TcpConnect", "TcpSend", "TcpRecv",
   "TcpClose", "TcpResolve", "TlsConnect", "TlsSend", "TlsRecv", "TlsClose",
   "HttpGet", "HttpDownload", "Array", "Length", "Sqrt", "MkdirP", "RemoveAll",
   "CopyFile", "Unzip", "OpenDir", "ReadDir", "CloseDir", "Alloc", "Free",
   "StrConcat", "StrLen", "StrFind", "Substring", "GetEnv", "Sys", "Len"]

/-- Read-only tables threaded through the resolver walk. -/
structure RCtx where
  globals : REnv
  functions : List (String × Node)
  structs : List (String × Node)
  enums : List (String × Node)
deriving Repr

/-- Variants of an enum node. -/
def Node.enumVariants : Node → List (String × Int)
  | .enumDef _ vs _ _ => vs
  | _ => []

/-- The two hasattr probes ending _resolve_statement: does the node's
dataclass own a `condition` or `body` attribute? -/
def hasConditionOrBody : Node → Bool
  | .ifStmt _ _ _ _ _ => true
  | .whileStmt _ _ _ _ => true
  | .forStmt _ _ _ _ _ _ => true
  | .deferStmt _ _ _ => true
  | .functionDef _ _ _ _ _ _ _ => true
  | .methodDef _ _ _ _ _ _ => true
  | _ => false

/-- Register the names of a TupleUnpack, in order, duplicate-checking
against the growing environment (the loop in _resolve_statement). -/
def registerUnpack (is_mutable : Bool) (line column : Nat) :
    List String → List (Option String) → REnv → Except VErr REnv
  | [], _, env => .ok env
  | name :: names, types, env =>
      if dmem name env then
        .error ⟨"Duplicate local variable " ++ name, line, column⟩
      else
        let var_type := (types.headD none).getD "int"
        registerUnpack is_mutable line column names (types.drop 1)
          (dinsert name (var_type, is_mutable) env)

mutual

/-- resolver._resolve_statement.  Returns the caller-visible environment:
VarDecl / TupleUnpack extend it, every other statement leaves it unchanged
(nested scopes work on copies). -/
def resolveStatement (ctx : RCtx) (in_function in_method : Bool) (cs : Option Node)
    (locals : REnv) : Node → Except VErr REnv
  | .varDecl name var_type value _is_mut line column => do
      if dmem name locals then
        throw ⟨"Duplicate local variable " ++ name, line, column⟩
      let locals' := dinsert name (var_type.getD "int", _is_mut) locals
      match value with
      | some v => do
          resolveExpression ctx in_method cs locals' v
          return locals'
      | none => return locals'
  | .tupleUnpack names types value is_mutable line column => do
      let locals' ← registerUnpack is_mutable line column names types locals
      resolveExpression ctx in_method cs locals' value
      return locals'
  | .assignment name value target line column => do
      match target with
      | some t => resolveExpression ctx in_method cs locals t
      | none =>
          if !in_function && !(dmem name ctx.globals) then
            throw ⟨"Assignment to undefined global " ++ name, line, column⟩
          else if in_function && !(dmem name locals) && !(dmem name ctx.globals) then
            throw ⟨"Assignment to undefined identifier " ++ name, line, column⟩
          else pure ()
      resolveExpression ctx in_method cs locals value
      return locals
  | .functionCall n args line column => do
      resolveExpression ctx in_method cs locals (.functionCall n args line column)
      return locals
  | .methodCall r m args line column => do
      resolveExpression ctx in_method cs locals (.methodCall r m args line column)
      return locals
  | .ifStmt condition then_block else_block _ _ => do
      resolveExpression ctx in_method cs locals condition
      let _ ← resolveStatement ctx in_function in_method cs locals then_block
      match else_block with
      | some e => do
          let _ ← resolveStatement ctx in_function in_method cs locals e
          return locals
      | none => return locals
  | .whileStmt condition body _ _ => do
      resolveExpression ctx in_method cs locals condition
      let _ ← resolveStatement ctx in_function in_method cs locals body
      return locals
  | .forStmt var_name start endv body _ _ => do
      resolveExpression ctx in_method cs locals start
      resolveExpression ctx in_method cs locals endv
      let loop_locals := dinsert var_name ("int", true) locals
      let _ ← resolveStatement ctx in_function in_method cs loop_locals body
      return locals
  | .deferStmt body _ _ => do
      let _ ← resolveStatement ctx in_function in_method cs locals body
      return locals
  | .block stmts _ _ => do
      let _ ← resolveStatements ctx in_function in_method cs locals stmts
      return locals
  | .returnStmt value line column => do
      if !in_function && !in_method then
        throw ⟨"Return outside of function", line, column⟩
      match value with
      | some v => do
          resolveExpression ctx in_method cs locals v
          return locals
      | none => return locals
  | .structDef n f m tp l c =>
      let _ := Node.structDef n f m tp l c
      return locals
  | .enumDef n v l c =>
      let _ := Node.enumDef n v l c
      return locals
  | other =>
      if hasConditionOrBody other then return locals
      else do
        resolveExpression ctx in_method cs locals other
        return locals
termination_by st => (sizeOf st, 1)

/-- Fold of _resolve_statement over a statement list sharing one mutable
environment (a function body or Block scope). -/
def resolveStatements (ctx : RCtx) (in_function in_method : Bool) (cs : Option Node)
    (locals : REnv) : List Node → Except VErr REnv
  | [] => return locals
  | s :: rest => do
      let locals' ← resolveStatement ctx in_function in_method cs locals s
      resolveStatements ctx in_function in_method cs locals' rest
termination_by ss => (sizeOf ss, 0)

/-- resolver._resolve_expression. -/
def resolveExpression (ctx : RCtx) (in_method : Bool) (cs : Option Node)
    (locals : REnv) : Node → Except VErr Unit
  | .identifier name line column =>
      if name = "argc" || name = "argv" then pure ()
      else if !(dmem name locals) && !(dmem name ctx.globals) then
        if !(dmem name ctx.enums) then
          throw ⟨"Undefined identifier " ++ name, line, column⟩
        else pure ()
      else pure ()
  | .selfExpr line column =>
      if !in_method then throw ⟨"self used outside of method", line, column⟩
      else pure ()
  | .binaryExpr left _ right _ _ => do
      resolveExpression ctx in_method cs locals left
      resolveExpression ctx in_method cs locals right
  | .unaryExpr _ operand _ _ => resolveExpression ctx in_method cs locals operand
  | .addressOf operand _ _ => resolveExpression ctx in_method cs locals operand
  | .dereference operand _ _ => resolveExpression ctx in_method cs locals operand
  | .nullLiteral _ _ => pure ()
  | .functionCall name args line column => do
      if !(BUILTIN_FUNCTIONS.contains name) && !(dmem name ctx.functions) then
        throw ⟨"Unknown function " ++ name, line, column⟩
      resolveExpressions ctx in_method cs locals args
  | .methodCall receiver _ args _ _ => do
      resolveExpression ctx in_method cs locals receiver
      resolveExpressions ctx in_method cs locals args
  | .newExpr struct_name initializers line column => do
      if !(dmem struct_name ctx.structs) then
        throw ⟨"Unknown struct type " ++ struct_name, line, column⟩
      resolveInits ctx in_method cs locals initializers
  | .arrayLiteral elements _ _ _ => resolveExpressions ctx in_method cs locals elements
  | .tupleLiteral elements _ _ => resolveExpressions ctx in_method cs locals elements
  | .interpString _ _ _ => pure ()
  | .tryExpr operand _ _ => resolveExpression ctx in_method cs locals operand
  | .fieldAccess receiver fieldName line column => do
      resolveExpression ctx in_method cs locals receiver
      match receiver with
      | .identifier rname _ _ =>
          if dmem rname ctx.enums then
            let enum_def := (dlookup rname ctx.enums).getD (.enumDef rname [] 0 0)
            let variant_names := enum_def.enumVariants.map Prod.fst
            if !(variant_names.contains fieldName) then
              throw ⟨"Unknown variant " ++ fieldName ++ " in enum " ++ rname, line, column⟩
            else pure ()
          else
            let recv_type : Option String :=
              match dlookup rname locals with
              | some (t, _) => some t
              | none =>
                  match dlookup rname ctx.globals with
                  | some (t, _) => some t
                  | none => none
            match recv_type with
            | some rt =>
                if !(dmem rt ctx.structs) && !(dmem rt ctx.enums) then
                  throw ⟨"Unknown struct type " ++ rt ++ " for field access", line, column⟩
                else pure ()
            | none => pure ()
      | _ => pure ()
  | .indexExpr receiver index _ _ => do
      resolveExpression ctx in_method cs locals receiver
      resolveExpression ctx in_method cs locals index
  | .literal _ _ _ _ => pure ()
  | .block stmts _ _ => resolveExprBlockStmts ctx in_method cs locals stmts
  | other =>
      throw ⟨"Unsupported expression encountered", other.nline, other.ncolumn⟩
termination_by e => (sizeOf e, 0)

/-- Argument / element lists inside _resolve_expression. -/
def resolveExpressions (ctx : RCtx) (in_method : Bool) (cs : Option Node)
    (locals : REnv) : List Node → Except VErr Unit
  | [] => pure ()
  | e :: rest => do
      resolveExpression ctx in_method cs locals e
      resolveExpressions ctx in_method cs locals rest
termination_by es => (sizeOf es, 0)

/-- Initializer values of a NewExpr. -/
def resolveInits (ctx : RCtx) (in_method : Bool) (cs : Option Node)
    (locals : REnv) : List (String × Node) → Except VErr Unit
  | [] => pure ()
  | (_, v) :: rest => do
      resolveExpression ctx in_method cs locals v
      resolveInits ctx in_method cs locals rest
termination_by xs => (sizeOf xs, 0)

/-- Block used in expression position: each inner statement gets a fresh
copy of the environment (the dict(...) sits inside the loop). -/
def resolveExprBlockStmts (ctx : RCtx) (in_method : Bool) (cs : Option Node)
    (locals : REnv) : List Node → Except VErr Unit
  | [] => pure ()
  | s :: rest => do
      let _ ← resolveStatement ctx true in_method cs locals s
      resolveExprBlockStmts ctx in_method cs locals rest
termination_by ss => (sizeOf ss, 0)

end

/-- Parameter registration shared by _resolve_function and _resolve_method. -/
def registerParams (line column : Nat) :
    List (String × Option String × Option Node) → REnv → Except VErr REnv
  | [], env => .ok env
  | (pname, ptype, _) :: rest, env =>
      if dmem pname env then
        .error ⟨"Duplicate parameter " ++ pname, line, column⟩
      else registerParams line column rest (dinsert pname (ptype.getD "int", true) env)

/-- resolver._resolve_function. -/
def resolveFunction (ctx : RCtx) (f : Node) : Except VErr Unit :=
  match f with
  | .functionDef _ params _ body _ line column => do
      let locals ← registerParams line column params []
      let stmts := match body with | some (.block ss _ _) => ss | _ => []
      let _ ← resolveStatements ctx true false none locals stmts
      pure ()
  | _ => pure ()

/-- resolver._resolve_method. -/
def resolveMethod (ctx : RCtx) (struct : Node) (m : Node) : Except VErr Unit :=
  match m with
  | .methodDef _ params _ body line column => do
      let structName := match struct with | .structDef n _ _ _ _ _ => n | _ => ""
      let locals0 : REnv := [("self", (structName, false))]
      let locals ← registerParams line column params locals0
      let stmts := match body with | some (.block ss _ _) => ss | _ => []
      let _ ← resolveStatements ctx true true (some struct) locals stmts
      pure ()
  | _ => pure ()

/-- First pass of resolve_program: register top-level declarations. -/
def registerTopLevel : List Node → REnv → List (String × Node) → List (String × Node) →
    List (String × Node) → List (String × Node) →
    Except VErr (REnv × List (String × Node) × List (String × Node) × List (String × Node) × List (String × Node))
  | [], globs, funcs, structs, enums, ifaces => .ok (globs, funcs, structs, enums, ifaces)
  | stmt :: rest, globs, funcs, structs, enums, ifaces =>
      match stmt with
      | .varDecl name var_type _ is_mutable line column =>
          if dmem name globs then
            .error ⟨"Duplicate global variable " ++ name, line, column⟩
          else
            registerTopLevel rest (dinsert name (var_type.getD "int", is_mutable) globs)
              funcs structs enums ifaces
      | .functionDef name _ _ _ _ line column =>
          if dmem name funcs then
            .error ⟨"Duplicate function " ++ name, line, column⟩
          else registerTopLevel rest globs (dinsert name stmt funcs) structs enums ifaces
      | .structDef name _ _ _ line column =>
          if dmem name structs then
            .error ⟨"Duplicate struct " ++ name, line, column⟩
          else registerTopLevel rest globs funcs (dinsert name stmt structs) enums ifaces
      | .enumDef name _ line column =>
          if dmem name enums then
            .error ⟨"Duplicate enum " ++ name, line, column⟩
          else registerTopLevel rest globs funcs structs (dinsert name stmt enums) ifaces
      | .interfaceDef name _ line column =>
          if dmem name ifaces then
            .error ⟨"Duplicate interface " ++ name, line, column⟩
          else registerTopLevel rest globs funcs structs enums (dinsert name stmt ifaces)
      | _ => registerTopLevel rest globs funcs structs enums ifaces

/-- Struct methods loop of resolve_program's second pass. -/
def resolveStructMethods (ctx : RCtx) (struct : Node) : List Node → Except VErr Unit
  | [] => pure ()
  | m :: rest => do
      resolveMethod ctx struct m
      resolveStructMethods ctx struct rest

/-- Second pass of resolve_program over the top-level statements. -/
def resolveTopLevel (ctx : RCtx) : List Node → Except VErr Unit
  | [] => pure ()
  | stmt :: rest => do
      match stmt with
      | .functionDef n ps rt b tp l c => resolveFunction ctx (.functionDef n ps rt b tp l c)
      | .varDecl _ _ value _ _ _ =>
          match value with
          | some v => resolveExpression ctx false none [] v
          | none => pure ()
      | .structDef n f m tp l c => resolveStructMethods ctx (.structDef n f m tp l c) m
      | .enumDef _ _ _ _ => pure ()
      | .interfaceDef _ _ _ _ => pure ()
      | other => do
          let _ ← resolveStatement ctx false false none [] other
          pure ()
      resolveTopLevel ctx rest

/-- resolver.resolve_program: returns (globals table, functions table). -/
def resolveProgram (program : Node) : Except VErr (REnv × List (String × Node)) := do
  let stmts := match program with | .program ss _ _ => ss | _ => []
  let (globs, funcs, structs, enums, _) ← registerTopLevel stmts [] [] [] [] []
  if !(dmem "Main" funcs) then
    throw ⟨"Missing Main function entrypoint", program.nline, program.ncolumn⟩
  let ctx : RCtx := ⟨globs, funcs, structs, enums⟩
  resolveTopLevel ctx stmts
  return (globs, funcs)

/-!  ## Type checker (type_checker.py)  -/

/-- Python truthiness chain `a or b` on strings. -/
def pyOrS (a b : String) : String := if a = "" then b else a

/-- `opt or "dflt"` where opt is Optional[str]. -/
def optOr (o : Option String) (d : String) : String :=
  match o with
  | some s => pyOrS s d
  | none => d

/-- `opt or None`: collapse a falsy string to None. -/
def optFalsy (o : Option String) : Option String :=
  match o with
  | some s => if s = "" then none else some s
  | none => none

/-- Python default str.strip character set. -/
def isPyWS (c : Char) : Bool :=
  c = ' ' || c = tabChar || c = nlChar || c = crChar || c = Char.ofNat 11 || c = Char.ofNat 12

/-- Python str.strip(). -/
def pyStrip (s : String) : String :=
  String.mk (((s.toList.dropWhile isPyWS).reverse.dropWhile isPyWS).reverse)

/-- The depth-counting comma split of the TupleUnpack branch in
_type_check_statement. -/
def splitTupleElemsAux : List Char → Int → String → List String → List String
  | [], _, current, acc =>
      if pyStrip current ≠ "" then acc ++ [pyStrip current] else acc
  | ch :: rest, depth, current, acc =>
      if ch = '(' then splitTupleElemsAux rest (depth + 1) (current.push ch) acc
      else if ch = ')' then splitTupleElemsAux rest (depth - 1) (current.push ch) acc
      else if ch = ',' && depth = 0 then splitTupleElemsAux rest depth "" (acc ++ [pyStrip current])
      else splitTupleElemsAux rest depth (current.push ch) acc

/-- Split the inside of a rendered tuple type into element types. -/
def splitTupleElems (inner : String) : List String :=
  splitTupleElemsAux inner.toList 0 "" []

/-- type_checker._ensure_assignable. -/
def ensureAssignable (expected actual : String) (line col : Nat) : Except VErr Unit :=
  if expected = actual then pure ()
  else if expected = "dec" && actual = "int" then pure ()
  else if expected.startsWith "*" && actual = "*void" then pure ()
  else throw ⟨"Type mismatch: expected " ++ expected ++ ", got " ++ actual, line, col⟩

/-- type_checker._ensure_same. -/
def ensureSame (t1 t2 : String) (line col : Nat) : Except VErr Unit :=
  if t1 ≠ t2 then
    if (t1.startsWith "*" && t2 = "*void") || (t2.startsWith "*" && t1 = "*void") then pure ()
    else throw ⟨"Type mismatch: " ++ t1 ++ " vs " ++ t2, line, col⟩
  else pure ()

/-- type_checker._require_numeric (NUMERIC = int, dec). -/
def requireNumeric (t : String) (line col : Nat) : Except VErr Unit :=
  if t = "int" || t = "dec" then pure ()
  else throw ⟨"Numeric type required, got " ++ t, line, col⟩

/-- type_checker._require_bool. -/
def requireBool (t : String) (line col : Nat) : Except VErr Unit :=
  if t = "bool" then pure ()
  else throw ⟨"Boolean type required, got " ++ t, line, col⟩

/-- Entries of the BUILTINS table in source order ("Sys" appears twice;
the dict keeps the later entry). -/
def BUILTINS_entries : List (String × (List (Option String) × Option String)) :=
  [("Print", ([none], none)),
   ("Clock", ([], some "int")),
   ("Exists", ([some "string"], some "bool")),
   ("CreateFolder", ([some "string"], some "int")),
   ("Open", ([some "string", some "string"], some "int")),
   ("Close", ([some "int"], some "int")),
   ("Read", ([some "int"], some "string")),
   ("Write", ([some "int", some "string"], some "int")),
   ("SHA256", ([some "string"], some "string")),
   ("Argc", ([], some "int")),
   ("GetArg", ([some "int"], some "string")),
   ("ReadFilesize", ([some "string"], some "int")),
   ("GC", ([], none)),
   ("Sys", ([some "string"], some "int")),
   ("Input", ([], some "string")),
   ("Exit", ([some "int"], none)),
   ("Sleep", ([some "int"], some "int")),
   ("Now", ([], some "int")),
   ("RandInt", ([], some "int")),
   ("Remove", ([some "string"], some "int")),
   ("MkdirP", ([some "string"], some "int")),
   ("RemoveAll", ([some "string"], some "int")),
   ("CopyFile", ([some "string", some "string"], some "int")),
   ("Unzip", ([some "string", some "string"], some "int")),
   ("OpenDir", ([some "string"], some "int")),
   ("ReadDir", ([some "int"], some "string")),
   ("CloseDir", ([some "int"], some "int")),
   ("Alloc", ([some "int"], some "int")),
   ("StrConcat", ([some "string", some "string"], some "string")),
   ("StrLen", ([some "string"], some "int")),
   ("StrFind", ([some "string", some "string"], some "int")),
   ("Substring", ([some "string", some "int", some "int"], some "string")),
   ("GetEnv", ([some "string"], some "string")),
   ("Sys", ([some "string"], some "int")),
   ("TcpConnect", ([some "string", some "int"], some "int")),
   ("TcpSend", ([some "int", some "string"], some "int")),
   ("TcpRecv", ([some "int", some "int"], some "string")),
   ("TcpClose", ([some "int"], some "int")),
   ("TcpResolve", ([some "string"], some "string")),
   ("TlsConnect", ([some "string", some "int"], some "int")),
   ("TlsSend", ([some "int", some "string"], some "int")),
   ("TlsRecv", ([some "int", some "int"], some "string")),
   ("TlsClose", ([some "int"], some "int")),
   ("HttpGet", ([some "string", some "string", some "int"], some "string")),
   ("HttpDownload", ([some "string", some "string", some "int", some "string"], some "int")),
   ("Array", ([some "int"], some "array")),
   ("Length", ([some "array"], some "int")),
   ("Len", ([none], some "int")),
   ("Sqrt", ([some "int"], some "int")),
   ("Malloc", ([some "int"], some "int")),
   ("Free", ([some "int"], some "int")),
   ("Memcpy", ([some "int", some "int", some "int"], some "int")),
   ("Memset", ([some "int", some "int", some "int"], some "int"))]

/-- BUILTINS dict of type_checker.py. -/
def BUILTINS : List (String × (List (Option String) × Option String)) :=
  BUILTINS_entries.foldl (fun d kv => dinsert kv.1 kv.2 d) []

/-- Read-only tables of the type checker walk. -/
structure TCtx where
  functions : List (String × Node)
  structs : List (String × Node)
  enums : List (String × Node)
deriving Repr

/-- Find a method node of the given name in a struct's method list. -/
def findMethod (name : String) :
    List Node → Option (List (String × Option String × Option Node) × Option String)
  | [] => none
  | .methodDef n params rt _ _ _ :: rest =>
      if n = name then some (params, rt) else findMethod name rest
  | _ :: rest => findMethod name rest

/-- Count parameters without defaults (the `required_params` sums). -/
def countRequired (params : List (String × Option String × Option Node)) : Nat :=
  (params.filter (fun p => p.2.2.isNone)).length

/-- Find a field's declared type in a struct's field list. -/
def findFieldType (name : String) : List Node → Option (Option String)
  | [] => none
  | .varDecl n vt _ _ _ _ :: rest =>
      if n = name then some vt else findFieldType name rest
  | _ :: rest => findFieldType name rest

/-- Field-name membership in a struct's field list. -/
def hasFieldNamed (name : String) : List Node → Bool
  | [] => false
  | .varDecl n _ _ _ _ _ :: rest => n = name || hasFieldNamed name rest
  | _ :: rest => hasFieldNamed name rest

/-- Fields and methods of a struct node. -/
def Node.structFields : Node → List Node
  | .structDef _ fs _ _ _ _ => fs
  | _ => []

def Node.structMethods : Node → List Node
  | .structDef _ _ ms _ _ _ => ms
  | _ => []

def Node.structName : Node → String
  | .structDef n _ _ _ _ _ => n
  | _ => ""

mutual

/-- type_checker._type_of_expression. -/
def typeOfExpression (ctx : TCtx) (globals locals : REnv) (in_method : Bool)
    (cs : Option Node) : Node → Except VErr String
  | .literal _ literal_type _ _ => return literal_type
  | .nullLiteral _ _ => return "*void"
  | .selfExpr line column =>
      if !in_method || cs.isNone then
        throw ⟨"self used outside of method", line, column⟩
      else return (cs.getD (.selfExpr 0 0)).structName
  | .identifier name line column =>
      match dlookup name locals with
      | some (t, _) => return t
      | none =>
          match dlookup name globals with
          | some (t, _) => return t
          | none =>
              if name = "argc" || name = "argv" then return "int"
              else if dmem name ctx.enums then return name
              else throw ⟨"Undefined identifier " ++ name, line, column⟩
  | .addressOf operand _ _ => do
      let t ← typeOfExpression ctx globals locals in_method cs operand
      return "*" ++ t
  | .dereference operand line column => do
      let t ← typeOfExpression ctx globals locals in_method cs operand
      if !t.startsWith "*" then
        throw ⟨"Cannot dereference non-pointer type " ++ t, line, column⟩
      else return t.drop 1
  | .unaryExpr op operand line column => do
      let t ← typeOfExpression ctx globals locals in_method cs operand
      if op = "-" || op = "+" then do
        requireNumeric t line column
        return t
      else if op = "!" || op = "NOT" then do
        requireBool t line column
        return "bool"
      else throw ⟨"Unsupported unary operator " ++ op, line, column⟩
  | .binaryExpr left op right line column => do
      let left_t ← typeOfExpression ctx globals locals in_method cs left
      let right_t ← typeOfExpression ctx globals locals in_method cs right
      if op = "+" then do
        if left_t = "string" || right_t = "string" then return "string"
        requireNumeric left_t left.nline left.ncolumn
        requireNumeric right_t right.nline right.ncolumn
        return (if left_t = "dec" || right_t = "dec" then "dec" else "int")
      else if op = "-" || op = "*" || op = "/" || op = "%" then do
        requireNumeric left_t left.nline left.ncolumn
        requireNumeric right_t right.nline right.ncolumn
        return (if left_t = "dec" || right_t = "dec" then "dec" else "int")
      else if op = "==" || op = "!=" then do
        ensureSame left_t right_t line column
        return "bool"
      else if op = "<" || op = ">" || op = "<=" || op = ">=" then do
        requireNumeric left_t left.nline left.ncolumn
        requireNumeric right_t right.nline right.ncolumn
        return "bool"
      else if op = "&&" || op = "||" then do
        requireBool left_t left.nline left.ncolumn
        requireBool right_t right.nline right.ncolumn
        return "bool"
      else throw ⟨"Unsupported binary operator " ++ op, line, column⟩
  | .methodCall receiver method_name args line column => do
      let recv_type ← typeOfExpression ctx globals locals in_method cs receiver
      match dlookup recv_type ctx.structs with
      | none => throw ⟨"Method call on non-struct type " ++ recv_type, line, column⟩
      | some struct_def =>
          match findMethod method_name struct_def.structMethods with
          | some (params, rt) => do
              let required_params := countRequired params
              if args.length < required_params || args.length > params.length then
                throw ⟨"Method " ++ method_name ++ " expects " ++ toString required_params ++
                  " to " ++ toString params.length ++ " args, got " ++ toString args.length,
                  line, column⟩
              checkArgsAgainstParams ctx globals locals in_method cs params args
              return optOr rt "int"
          | none =>
              throw ⟨"Unknown method " ++ method_name ++ " on struct " ++ recv_type, line, column⟩
  | .functionCall name args line column => do
      if name = "CreateFolder" then do
        if args.isEmpty then
          throw ⟨"Function CreateFolder expects at least 1 arg", line, column⟩
        checkCreateFolderArgs ctx globals locals in_method cs args
        return "int"
      else
        match dlookup name BUILTINS with
        | some (sig_params, sig_ret) => do
            if sig_params.length = 1 && (sig_params.headD none).isNone then pure ()
            else if sig_params.length ≠ args.length then
              throw ⟨"Function " ++ name ++ " expects " ++ toString sig_params.length ++
                " args, got " ++ toString args.length, line, column⟩
            checkBuiltinArgs ctx globals locals in_method cs sig_params 0 args
            return optOr sig_ret "int"
        | none =>
            match dlookup name ctx.functions with
            | none => throw ⟨"Unknown function " ++ name, line, column⟩
            | some fn =>
                match fn with
                | .functionDef _ params rt _ _ _ _ => do
                    let required_params := countRequired params
                    if args.length < required_params || args.length > params.length then
                      throw ⟨"Function " ++ name ++ " expects " ++ toString required_params ++
                        " to " ++ toString params.length ++ " args, got " ++ toString args.length,
                        line, column⟩
                    checkArgsAgainstParams ctx globals locals in_method cs params args
                    return optOr rt "int"
                | _ => throw ⟨"Unknown function " ++ name, line, column⟩
  | .fieldAccess receiver fieldName line column => do
      let enumName : Option String :=
        match receiver with
        | .identifier rname _ _ => if dmem rname ctx.enums then some rname else none
        | _ => none
      match enumName with
      | some rname => return rname
      | none => do
          let recv_type ← typeOfExpression ctx globals locals in_method cs receiver
          match dlookup recv_type ctx.structs with
          | none => throw ⟨"Field access on non-struct type " ++ recv_type, line, column⟩
          | some struct_def =>
              match findFieldType fieldName struct_def.structFields with
              | some vt => return optOr vt "int"
              | none =>
                  throw ⟨"Unknown field " ++ fieldName ++ " on struct " ++ recv_type, line, column⟩
  | .newExpr struct_name initializers line column => do
      match dlookup struct_name ctx.structs with
      | none => throw ⟨"Unknown struct type " ++ struct_name, line, column⟩
      | some struct_def => do
          checkNewInits ctx globals locals in_method cs struct_name
            struct_def.structFields initializers line column
          return struct_name
  | .arrayLiteral elements _ _ _ => do
      let elem_type ← arrayElemFold ctx globals locals in_method cs "int" elements
      return elem_type ++ "[]"
  | .tupleLiteral elements _ _ => do
      let elem_types ← tupleTypesList ctx globals locals in_method cs elements
      return "(" ++ String.intercalate ", " elem_types ++ ")"
  | .indexExpr receiver index line column => do
      let arr_t ← typeOfExpression ctx globals locals in_method cs receiver
      if arr_t ≠ "array" && !arr_t.endsWith "[]" then
        throw ⟨"Indexing requires array, got " ++ arr_t, line, column⟩
      let idx_t ← typeOfExpression ctx globals locals in_method cs index
      requireNumeric idx_t index.nline index.ncolumn
      if arr_t.endsWith "[]" then return arr_t.dropRight 2
      else return "int"
  | .block stmts _ _ => do
      let _ ← blockThreadTC ctx globals locals stmts
      return "void"
  | .interpString _ _ _ => return "string"
  | .tryExpr operand _ _ => typeOfExpression ctx globals locals in_method cs operand
  | other => throw ⟨"Unsupported expression encountered", other.nline, other.ncolumn⟩
termination_by e => (sizeOf e, 0)

/-- zip(params, args) argument compatibility loop (user functions, methods). -/
def checkArgsAgainstParams (ctx : TCtx) (globals locals : REnv) (in_method : Bool)
    (cs : Option Node) (params : List (String × Option String × Option Node)) :
    List Node → Except VErr Unit
  | [] => pure ()
  | arg :: restArgs =>
      match params with
      | [] => pure ()
      | (_, ptype, _) :: restParams => do
          let arg_t ← typeOfExpression ctx globals locals in_method cs arg
          ensureAssignable (optOr ptype "int") arg_t arg.nline arg.ncolumn
          checkArgsAgainstParams ctx globals locals in_method cs restParams restArgs
termination_by args => (sizeOf args, 0)

/-- Builtin argument loop with positional signature slots. -/
def checkBuiltinArgs (ctx : TCtx) (globals locals : REnv) (in_method : Bool)
    (cs : Option Node) (sig_params : List (Option String)) (idx : Nat) :
    List Node → Except VErr Unit
  | [] => pure ()
  | arg :: rest => do
      let arg_t ← typeOfExpression ctx globals locals in_method cs arg
      match sig_params.get? idx with
      | some (some expected) => do
          ensureAssignable expected arg_t arg.nline arg.ncolumn
          checkBuiltinArgs ctx globals locals in_method cs sig_params (idx + 1) rest
      | _ => checkBuiltinArgs ctx globals locals in_method cs sig_params (idx + 1) rest
termination_by args => (sizeOf args, 0)

/-- The CreateFolder special case: every argument string-compatible. -/
def checkCreateFolderArgs (ctx : TCtx) (globals locals : REnv) (in_method : Bool)
    (cs : Option Node) : List Node → Except VErr Unit
  | [] => pure ()
  | arg :: rest => do
      let arg_t ← typeOfExpression ctx globals locals in_method cs arg
      ensureAssignable "string" arg_t arg.nline arg.ncolumn
      checkCreateFolderArgs ctx globals locals in_method cs rest
termination_by args => (sizeOf args, 0)

/-- NewExpr initializer loop: declared-field check plus value typing. -/
def checkNewInits (ctx : TCtx) (globals locals : REnv) (in_method : Bool)
    (cs : Option Node) (struct_name : String) (fields : List Node) :
    List (String × Node) → Nat → Nat → Except VErr Unit
  | [], _, _ => pure ()
  | (field_name, value) :: rest, line, column => do
      if !hasFieldNamed field_name fields then
        throw ⟨"Unknown field " ++ field_name ++ " on struct " ++ struct_name, line, column⟩
      let _ ← typeOfExpression ctx globals locals in_method cs value
      checkNewInits ctx globals locals in_method cs struct_name fields rest line column
termination_by inits => (sizeOf inits, 0)

/-- ArrayLiteral element fold (the last element's type wins). -/
def arrayElemFold (ctx : TCtx) (globals locals : REnv) (in_method : Bool)
    (cs : Option Node) (elem_type : String) : List Node → Except VErr String
  | [] => return elem_type
  | e :: rest => do
      let t ← typeOfExpression ctx globals locals in_method cs e
      arrayElemFold ctx globals locals in_method cs t rest
termination_by es => (sizeOf es, 0)

/-- TupleLiteral element types. -/
def tupleTypesList (ctx : TCtx) (globals locals : REnv) (in_method : Bool)
    (cs : Option Node) : List Node → Except VErr (List String)
  | [] => return []
  | e :: rest => do
      let t ← typeOfExpression ctx globals locals in_method cs e
      let ts ← tupleTypesList ctx globals locals in_method cs rest
      return t :: ts
termination_by es => (sizeOf es, 0)

/-- Block-as-expression statement loop of _type_of_expression: one shared
scope copy, each statement checked through _type_check_statement_expr
(which passes func_ret None and the default in_method/current_struct). -/
def blockThreadTC (ctx : TCtx) (globals : REnv) (locals : REnv) :
    List Node → Except VErr REnv
  | [] => return locals
  | s :: rest => do
      let locals' ← typeCheckStatement ctx globals locals none false none s
      blockThreadTC ctx globals locals' rest
termination_by ss => (sizeOf ss, 0)

/-- type_checker._type_check_statement. -/
def typeCheckStatement (ctx : TCtx) (globals : REnv) (locals : REnv)
    (func_ret : Option String) (in_method : Bool) (cs : Option Node) :
    Node → Except VErr REnv
  | .varDecl name var_type value is_mutable line column => do
      if dmem name locals then
        throw ⟨"Duplicate local variable " ++ name, line, column⟩
      match value with
      | some v => do
          let val_type ← typeOfExpression ctx globals locals in_method cs v
          let decl_type_hint : Option String :=
            match var_type with
            | none => none
            | some t => if t = "inf" then none else some t
          let decl_type :=
            match decl_type_hint with
            | some h => pyOrS h (pyOrS val_type "int")
            | none => pyOrS val_type "int"
          return dinsert name (decl_type, is_mutable) locals
      | none =>
          let decl_type : String :=
            match var_type with
            | none => "int"
            | some t => if t = "inf" then "int" else t
          return dinsert name (decl_type, is_mutable) locals
  | .tupleUnpack names types value _ line column => do
      let val_type ← typeOfExpression ctx globals locals in_method cs value
      if !(val_type.startsWith "(" && val_type.endsWith ")") then
        throw ⟨"Cannot unpack non-tuple type " ++ val_type, line, column⟩
      let inner := (val_type.drop 1).dropRight 1
      let elem_types := splitTupleElems inner
      if elem_types.length ≠ names.length then
        throw ⟨"Tuple unpacking: expected " ++ toString elem_types.length ++
          " values, got " ++ toString names.length ++ " names", line, column⟩
      registerUnpackTC names types elem_types locals line column
  | .assignment name value target line column => do
      match target with
      | some t => do
          let target_type ← typeOfExpression ctx globals locals in_method cs t
          let val_type ← typeOfExpression ctx globals locals in_method cs value
          ensureAssignable target_type val_type line column
          return locals
      | none => do
          let (target_type, is_mut) ←
            match dlookup name locals with
            | some p => pure p
            | none =>
                match dlookup name globals with
                | some p => pure p
                | none =>
                    throw ⟨"Assignment to undefined identifier " ++ name, line, column⟩
          if !is_mut then
            throw ⟨"Cannot assign to immutable binding " ++ name, line, column⟩
          let val_type ← typeOfExpression ctx globals locals in_method cs value
          ensureAssignable target_type val_type line column
          return locals
  | .functionCall n args line column => do
      let _ ← typeOfExpression ctx globals locals in_method cs (.functionCall n args line column)
      return locals
  | .methodCall r m args line column => do
      let _ ← typeOfExpression ctx globals locals in_method cs (.methodCall r m args line column)
      return locals
  | .ifStmt condition then_block else_block _ _ => do
      let cond_t ← typeOfExpression ctx globals locals in_method cs condition
      requireBool cond_t condition.nline condition.ncolumn
      let _ ← typeCheckStatement ctx globals locals func_ret in_method cs then_block
      match else_block with
      | some e => do
          let _ ← typeCheckStatement ctx globals locals func_ret in_method cs e
          return locals
      | none => return locals
  | .whileStmt condition body _ _ => do
      let cond_t ← typeOfExpression ctx globals locals in_method cs condition
      requireBool cond_t condition.nline condition.ncolumn
      let _ ← typeCheckStatement ctx globals locals func_ret in_method cs body
      return locals
  | .forStmt var_name start endv body _ _ => do
      let start_t ← typeOfExpression ctx globals locals in_method cs start
      let end_t ← typeOfExpression ctx globals locals in_method cs endv
      requireNumeric start_t start.nline start.ncolumn
      requireNumeric end_t endv.nline endv.ncolumn
      let loop_locals := dinsert var_name ("int", true) locals
      let _ ← typeCheckStatement ctx globals loop_locals func_ret in_method cs body
      return locals
  | .deferStmt body _ _ => do
      let _ ← typeCheckStatement ctx globals locals func_ret in_method cs body
      return locals
  | .block stmts _ _ => do
      let _ ← typeCheckStatements ctx globals locals func_ret in_method cs stmts
      return locals
  | .returnStmt value line column => do
      let ret_type ←
        match value with
        | some v => do
            let t ← typeOfExpression ctx globals locals in_method cs v
            pure (some t)
        | none => pure (none : Option String)
      match func_ret with
      | some fr => do
          ensureAssignable fr (ret_type.getD "void") line column
          return locals
      | none => return locals
  | .structDef n f m tp l c =>
      let _ := Node.structDef n f m tp l c
      return locals
  | .enumDef n v l c =>
      let _ := Node.enumDef n v l c
      return locals
  | other => do
      let _ ← typeOfExpression ctx globals locals in_method cs other
      return locals
termination_by st => (sizeOf st, 1)

/-- Statement fold sharing one scope (function bodies and Block scopes). -/
def typeCheckStatements (ctx : TCtx) (globals : REnv) (locals : REnv)
    (func_ret : Option String) (in_method : Bool) (cs : Option Node) :
    List Node → Except VErr REnv
  | [] => return locals
  | s :: rest => do
      let locals' ← typeCheckStatement ctx globals locals func_ret in_method cs s
      typeCheckStatements ctx globals locals' func_ret in_method cs rest
termination_by ss => (sizeOf ss, 0)

/-- TupleUnpack registration loop of _type_check_statement. -/
def registerUnpackTC (names : List String) (types : List (Option String))
    (elem_types : List String) (locals : REnv) (line column : Nat) : Except VErr REnv :=
  match names with
  | [] => return locals
  | name :: restNames => do
      if dmem name locals then
        throw ⟨"Duplicate local variable " ++ name, line, column⟩
      let explicit : Option String :=
        match types with
        | t :: _ => t
        | [] => none
      let var_type :=
        match explicit with
        | some t => t
        | none => elem_types.headD ""
      registerUnpackTC restNames (types.drop 1) (elem_types.drop 1)
        (dinsert name (var_type, true) locals) line column
termination_by (sizeOf names, 0)

end

/-- {s.name: s} comprehension for StructDef statements (type_check). -/
def buildStructsDict : List Node → List (String × Node)
  | [] => []
  | stmt :: rest =>
      match stmt with
      | .structDef n f m tp l c =>
          dinsert n (.structDef n f m tp l c) (buildStructsDict rest)
      | _ => buildStructsDict rest

/-- {e.name: e} comprehension for EnumDef statements (type_check). -/
def buildEnumsDict : List Node → List (String × Node)
  | [] => []
  | stmt :: rest =>
      match stmt with
      | .enumDef n v l c => dinsert n (.enumDef n v l c) (buildEnumsDict rest)
      | _ => buildEnumsDict rest

/-- Comprehension order fix: Python dict comprehensions keep the FIRST
insertion position but the LAST value; with distinct keys both folds agree,
and the claims only exercise lookups, so a left fold is used. -/
def buildStructsDictL (stmts : List Node) : List (String × Node) :=
  stmts.foldl (fun d stmt =>
    match stmt with
    | .structDef n f m tp l c => dinsert n (.structDef n f m tp l c) d
    | _ => d) []

def buildEnumsDictL (stmts : List Node) : List (String × Node) :=
  stmts.foldl (fun d stmt =>
    match stmt with
    | .enumDef n v l c => dinsert n (.enumDef n v l c) d
    | _ => d) []

/-- type_checker._define_var. -/
def defineVar (env : REnv) (name : String) (var_type : Option String)
    (value : Option Node) (is_mutable : Bool) (line column : Nat) : Except VErr REnv := do
  if dmem name env then
    throw ⟨"Duplicate global variable " ++ name, line, column⟩
  let inferred :=
    match var_type with
    | none =>
        let lit_type : Option String :=
          match value with
          | some (.literal _ lt _ _) => some lt
          | _ => none
        optOr lit_type "int"
    | some t =>
        if t = "inf" then
          let lit_type : Option String :=
            match value with
            | some (.literal _ lt _ _) => some lt
            | _ => none
          optOr lit_type "int"
        else t
  return dinsert name (inferred, is_mutable) env

/-- First registration loop of type_checker.type_check. -/
def registerTC : List Node → REnv → List (String × Node) →
    Except VErr (REnv × List (String × Node))
  | [], globs, funcs => .ok (globs, funcs)
  | stmt :: rest, globs, funcs =>
      match stmt with
      | .varDecl name vt value is_mut line column => do
          let globs' ← defineVar globs name vt value is_mut line column
          registerTC rest globs' funcs
      | .functionDef name _ _ _ _ line column =>
          if dmem name funcs then
            .error ⟨"Duplicate function " ++ name, line, column⟩
          else registerTC rest globs (dinsert name stmt funcs)
      | _ => registerTC rest globs funcs

/-- type_checker._type_check_function. -/
def typeCheckFunction (ctx : TCtx) (globals : REnv) (f : Node) : Except VErr Unit :=
  match f with
  | .functionDef _ params rt body _ line column => do
      let locals ← registerParams line column params []
      let stmts := match body with | some (.block ss _ _) => ss | _ => []
      let _ ← typeCheckStatements ctx globals locals (optFalsy rt) false none stmts
      pure ()
  | _ => pure ()

/-- type_checker._type_check_method. -/
def typeCheckMethod (ctx : TCtx) (globals : REnv) (struct : Node) (m : Node) :
    Except VErr Unit :=
  match m with
  | .methodDef _ params rt body line column => do
      let locals0 : REnv := [("self", (struct.structName, false))]
      let locals ← registerParams line column params locals0
      let stmts := match body with | some (.block ss _ _) => ss | _ => []
      let _ ← typeCheckStatements ctx globals locals (optFalsy rt) true (some struct) stmts
      pure ()
  | _ => pure ()

/-- Struct methods loop of type_check's second pass. -/
def typeCheckStructMethods (ctx : TCtx) (globals : REnv) (struct : Node) :
    List Node → Except VErr Unit
  | [] => pure ()
  | m :: rest => do
      typeCheckMethod ctx globals struct m
      typeCheckStructMethods ctx globals struct rest

/-- Second pass of type_checker.type_check; threads the global table
because the VarDecl arm refines inferred global types in place. -/
def typeCheckTopLevel (ctx : TCtx) : List Node → REnv → Except VErr REnv
  | [], globals => return globals
  | stmt :: rest, globals => do
      let globals' ←
        match stmt with
        | .functionDef n ps rt b tp l c => do
            typeCheckFunction ctx globals (.functionDef n ps rt b tp l c)
            pure globals
        | .varDecl name vt value _ _ _ =>
            match value with
            | some v => do
                let val_type ← typeOfExpression ctx globals [] false none v
                match dlookup name globals with
                | some (cur_t, cur_mut) =>
                    if cur_t = "int" && (vt.isNone || vt = some "inf") then
                      pure (dinsert name (val_type, cur_mut) globals)
                    else pure globals
                | none => pure globals
            | none => pure globals
        | .structDef n f m tp l c => do
            typeCheckStructMethods ctx globals (.structDef n f m tp l c) m
            pure globals
        | .enumDef _ _ _ _ => pure globals
        | .interfaceDef _ _ _ _ => pure globals
        | other => do
            let _ ← typeCheckStatement ctx globals [] none false none other
            pure globals
      typeCheckTopLevel ctx rest globals'

/-- type_checker.type_check. -/
def typeCheckProgram (program : Node) : Except VErr Unit := do
  let stmts := match program with | .program ss _ _ => ss | _ => []
  let structs := buildStructsDictL stmts
  let enums := buildEnumsDictL stmts
  let (globals, functions) ← registerTC stmts [] []
  if !(dmem "Main" functions) then
    throw ⟨"Missing Main function entrypoint", program.nline, program.ncolumn⟩
  let ctx : TCtx := ⟨functions, structs, enums⟩
  let _ ← typeCheckTopLevel ctx stmts globals
  pure ()

/-!  ## Code generator data passes (codegen.py)  -/

/-- Layout record held in CodeGenerator.struct_layouts. -/
structure StructLayout where
  size : Nat
  fields : List (String × (String × Nat))
deriving Repr, DecidableEq

/-- Name of a VarDecl field node (attribute access fld.name). -/
def Node.vname : Node → String
  | .varDecl n _ _ _ _ _ => n
  | _ => ""

/-- Declared type of a VarDecl field node (attribute access fld.var_type). -/
def Node.varType : Node → Option String
  | .varDecl _ vt _ _ _ _ => vt
  | _ => none

/-- Inner field scan of CodeGenerator.build_struct_layouts: one word per
declared field, offsets 0, 8, 16, ... in declaration order. -/
def layoutFieldsAux : List Node → Nat → List (String × (String × Nat)) →
    List (String × (String × Nat)) × Nat
  | [], offset, acc => (acc, offset)
  | fld :: rest, offset, acc =>
      layoutFieldsAux rest (offset + 8)
        (dinsert fld.vname (optOr fld.varType "int", offset) acc)

/-- CodeGenerator.build_struct_layouts. -/
def buildStructLayouts (stmts : List Node) : List (String × StructLayout) :=
  stmts.foldl (fun layouts stmt =>
    match stmt with
    | .structDef name fields _ _ _ _ =>
        let (flds, offset) := layoutFieldsAux fields 0 []
        let size := if offset = 0 then 8 else offset
        dinsert name ⟨size, flds⟩ layouts
    | _ => layouts) []

/-- CodeGenerator.build_enum_values. -/
def buildEnumValues (stmts : List Node) : List (String × List (String × Int)) :=
  stmts.foldl (fun enums stmt =>
    match stmt with
    | .enumDef name variants _ _ =>
        dinsert name (variants.foldl (fun d v => dinsert v.1 v.2 d) []) enums
    | _ => enums) []

/-!  ## Code generator: `?` emission and deferred statements (codegen.py)

  generate_try_expr and _emit_deferred_statements are modelled at the
  instruction level.  Deferred bodies are opaque statement ids whose effect
  on %rax is an arbitrary environment function; generated statement code is
  stack-balanced, so a body instruction leaves the model stack untouched. -/

inductive Instr where
  | evalOperand
  | cmpRaxZero
  | jge (l : String)
  | pushRax
  | popRax
  | runStmt (i : Nat)
  | jmp (l : String)
  | leave
  | ret
  | label (l : String)
deriving Repr, DecidableEq

/-- CodeGenerator.get_label: returns the fresh label and bumped counter. -/
def getLabel (pre : String) (label_counter : Nat) : String × Nat :=
  (pre ++ toString label_counter, label_counter + 1)

/-- CodeGenerator._emit_deferred_statements: nothing when the stack is
empty; otherwise push %rax, every deferred body in reverse registration
order (statements of one body in order), pop %rax. -/
def emitDeferred (defer_stack : List (List Nat)) : List Instr :=
  if defer_stack.isEmpty then []
  else
    [.pushRax] ++
    (defer_stack.reverse.flatMap (fun body => body.map Instr.runStmt)) ++
    [.popRax]

/-- CodeGenerator.generate_try_expr: evaluate the operand, skip ahead when
%rax is non-negative, otherwise run the deferred statements and jump to the
function's end label (leave/ret fallback when absent). -/
def generateTryExpr (defer_stack : List (List Nat)) (end_label : Option String)
    (label_counter : Nat) : List Instr × Nat :=
  let (ok_label, counter') := getLabel "try_ok" label_counter
  ([.evalOperand, .cmpRaxZero, .jge ok_label] ++
   emitDeferred defer_stack ++
   (match end_label with
    | some l => [.jmp l]
    | none => [.leave, .ret]) ++
   [.label ok_label], counter')

/-- Machine state of the instruction model. -/
structure MState where
  rax : Int
  stack : List Int
  flagGe : Bool
  log : List Nat
deriving Repr, DecidableEq

/-- Where execution of a straight-line sequence ended. -/
inductive Outcome where
  | fell (s : MState)
  | jumped (l : String) (s : MState)
  | returned (s : MState)
  | stuck
deriving Repr, DecidableEq

/-- Forward jump: the suffix after the first matching label, with a bound
on its length carried for termination. -/
def skipToLabel (l : String) : (is : List Instr) → { out : List Instr // out.length ≤ is.length }
  | [] => ⟨[], Nat.le_refl 0⟩
  | i :: rest =>
      match i with
      | .label l' =>
          if l' = l then ⟨rest, Nat.le_succ_of_le (Nat.le_refl _)⟩
          else
            let r := skipToLabel l rest
            ⟨r.1, Nat.le_succ_of_le r.2⟩
      | _ =>
          let r := skipToLabel l rest
          ⟨r.1, Nat.le_succ_of_le r.2⟩

/-- Executor of the modelled instruction sequence.  `eff` gives each opaque
deferred statement's effect on %rax; `operandVal` is the value the `?`
operand evaluates to. -/
def exec (eff : Nat → Int → Int) (operandVal : Int) : List Instr → MState → Outcome
  | [], s => .fell s
  | i :: rest, s =>
      match i with
      | .evalOperand => exec eff operandVal rest { s with rax := operandVal }
      | .cmpRaxZero => exec eff operandVal rest { s with flagGe := decide (0 ≤ s.rax) }
      | .jge l =>
          if s.flagGe then exec eff operandVal (skipToLabel l rest).1 s
          else exec eff operandVal rest s
      | .pushRax => exec eff operandVal rest { s with stack := s.rax :: s.stack }
      | .popRax =>
          match s.stack with
          | [] => .stuck
          | x :: xs => exec eff operandVal rest { s with rax := x, stack := xs }
      | .runStmt n => exec eff operandVal rest { s with rax := eff n s.rax, log := s.log ++ [n] }
      | .jmp l => .jumped l s
      | .leave => exec eff operandVal rest s
      | .ret => .returned s
      | .label _ => exec eff operandVal rest s
termination_by is => is.length
decreasing_by
  all_goals simp
  exact Nat.lt_succ_of_le (skipToLabel l rest).2

/-!  ## Include preprocessor (main.py)  -/

/-- Python str.splitlines boundary characters (ASCII plus the three
non-ASCII boundaries). -/
def isLineBoundary (c : Char) : Bool :=
  c = nlChar || c = crChar || c = Char.ofNat 11 || c = Char.ofNat 12 ||
  c = Char.ofNat 28 || c = Char.ofNat 29 || c = Char.ofNat 30 ||
  c = Char.ofNat 133 || c = Char.ofNat 8232 || c = Char.ofNat 8233

/-- Python str.splitlines with a reversed-accumulator current line.  The
\r\n two-character boundary is handled by the `lastCR` flag: a \r emits
the line and sets it, and a \n arriving with the flag set is the second
half of the same boundary and is skipped. -/
def pySplitlinesAux : List Char → List Char → Bool → List (List Char)
  | [], cur, _ => if cur.isEmpty then [] else [cur.reverse]
  | c :: rest, cur, lastCR =>
      if lastCR && c = nlChar then pySplitlinesAux rest cur false
      else if c = crChar then cur.reverse :: pySplitlinesAux rest [] true
      else if isLineBoundary c then cur.reverse :: pySplitlinesAux rest [] false
      else pySplitlinesAux rest (c :: cur) false

/-- Python source.splitlines(). -/
def pySplitlines (s : List Char) : List (List Char) := pySplitlinesAux s [] false

/-- "\n".join(lines). -/
def joinLines : List (List Char) → List Char
  | [] => []
  | [l] => l
  | l :: rest => l ++ nlChar :: joinLines rest

/-- Literal prefix match. -/
def matchPrefix : List Char → List Char → Option (List Char)
  | [], cs => some cs
  | _ :: _, [] => none
  | p :: ps, c :: cs => if p = c then matchPrefix ps cs else none

/-- main.INCLUDE_PATTERN: `^\s*(include|import)\s+"([^"]+)"\s*;?\s*$`
(\s at ASCII precision). -/
def isIncludeLine (l : List Char) : Bool :=
  let cs := l.dropWhile isPyWS
  let kw :=
    match matchPrefix "include".toList cs with
    | some r => some r
    | none => matchPrefix "import".toList cs
  match kw with
  | none => false
  | some rest =>
      match rest with
      | c :: _ =>
          if isPyWS c then
            let r2 := rest.dropWhile isPyWS
            match r2 with
            | q :: r3 =>
                if q = quoteChar then
                  let payload := r3.takeWhile (fun ch => ch ≠ quoteChar)
                  if payload.isEmpty then false
                  else
                    match r3.drop payload.length with
                    | q2 :: r5 =>
                        if q2 = quoteChar then
                          let r6 := r5.dropWhile isPyWS
                          let r7 := match r6 with | ch :: t => if ch = ';' then t else r6 | [] => r6
                          let r8 := r7.dropWhile isPyWS
                          r8.isEmpty
                        else false
                    | [] => false
                else false
            | [] => false
          else false
      | [] => false

/-- main.preprocess_includes restricted to its pure behavior: a line
matching INCLUDE_PATTERN triggers file inclusion (I/O outside this model,
returned as `none`); otherwise the lines are rejoined with a final
newline. -/
def pyPreprocessIncludes (src : List Char) : Option (List Char) :=
  let lines := pySplitlines src
  if lines.any isIncludeLine then none
  else some (joinLines lines ++ [nlChar])

/-!  ## Values and encodings used by the claim theorems  -/

/-- Tokens the lexer produces for the source `a == b`. -/
def eqExprTokens : List Token :=
  [⟨"IDENTIFIER", some "a", none, none, 1, 1⟩,
   ⟨"==", some "==", none, none, 1, 3⟩,
   ⟨"IDENTIFIER", some "b", none, none, 1, 6⟩,
   ⟨"EOF", none, none, none, 1, 7⟩]

/-- Tokens the lexer produces for the source `for i in 0..5 { }`. -/
def forRangeTokens : List Token :=
  [⟨"FOR", some "for", none, none, 1, 1⟩,
   ⟨"IDENTIFIER", some "i", none, none, 1, 5⟩,
   ⟨"IN", some "in", none, none, 1, 7⟩,
   ⟨"INTEGER", some "0", some 0, none, 1, 10⟩,
   ⟨"..", some "..", none, none, 1, 11⟩,
   ⟨"INTEGER", some "5", some 5, none, 1, 13⟩,
   ⟨"LBRACE", some (String.singleton (Char.ofNat 123)), none, none, 1, 15⟩,
   ⟨"RBRACE", some (String.singleton (Char.ofNat 125)), none, none, 1, 17⟩,
   ⟨"EOF", none, none, none, 1, 18⟩]

/-- A program whose Main assigns to the immutable global `x`
(`let`-style VarDecl with is_mutable = False, then `x = 2;`). -/
def immutAssignProg : Node :=
  .program [
    .varDecl "x" (some "int") (some (.literal (.int 1) "int" 1 9)) false 1 5,
    .functionDef "Main" [] none (some (.block [
      .assignment "x" (.literal (.int 2) "int" 3 7) none 3 3] 0 0)) [] 2 1] 0 0

/-- Identifier token for an enum variant name. -/
def identTok (n : String) : Token := ⟨"IDENTIFIER", some n, none, none, 0, 0⟩

/-- Token sequence of one enum variant (`NAME` or `NAME = K`) plus comma. -/
def encodeVariant : String × Option Int → List Token
  | (n, none) => [identTok n, ⟨"COMMA", some ",", none, none, 0, 0⟩]
  | (n, some k) =>
      [identTok n, ⟨"ASSIGN", some "=", none, none, 0, 0⟩,
       ⟨"INTEGER", some (toString k), some k, none, 0, 0⟩,
       ⟨"COMMA", some ",", none, none, 0, 0⟩]

/-- Token sequences of an enum variant list. -/
def encodeVariants : List (String × Option Int) → List Token
  | [] => []
  | v :: rest => encodeVariant v ++ encodeVariants rest

/-- Token sequence of a whole enum declaration
  `enum NAME { V1, V2 = K, ... }`. -/
def encodeEnum (name : String) (vs : List (String × Option Int)) : List Token :=
  ⟨"ENUM", some "enum", none, none, 0, 0⟩ :: identTok name ::
  ⟨"LBRACE", some (String.singleton (Char.ofNat 123)), none, none, 0, 0⟩ ::
  (encodeVariants vs ++ [⟨"RBRACE", some (String.singleton (Char.ofNat 125)), none, none, 0, 0⟩])

/-- The spec's variant-numbering rule: implicit variants continue from the
running counter (starting at 0), an explicit `= K` resets it to K, and the
counter always advances to the assigned value plus one. -/
def specAssign : List (String × Option Int) → Int → List (String × Int)
  | [], _ => []
  | (n, some k) :: rest, _ => (n, k) :: specAssign rest (k + 1)
  | (n, none) :: rest, cur => (n, cur) :: specAssign rest (cur + 1)

/-- A program declaring an enum with two variants of the same name,
plus the mandatory Main. -/
def dupEnumProg : Node :=
  .program [
    .enumDef "E" [("A", 0), ("A", 5)] 1 1,
    .functionDef "Main" [] none (some (.block [] 0 0)) [] 2 1] 0 0

/-- Is this statement a StructDef with the given name? -/
def isStructNamed (name : String) : Node → Bool
  | .structDef n _ _ _ _ _ => n = name
  | _ => false

/-- Tokens the lexer produces for the source `if (x == 1) ... Print(1); ...`
with a braced block. -/
def ifEqTokens : List Token :=
  [⟨"IF", some "if", none, none, 1, 1⟩,
   ⟨"LPAREN", some "(", none, none, 1, 4⟩,
   ⟨"IDENTIFIER", some "x", none, none, 1, 5⟩,
   ⟨"==", some "==", none, none, 1, 7⟩,
   ⟨"INTEGER", some "1", some 1, none, 1, 10⟩,
   ⟨"RPAREN", some ")", none, none, 1, 11⟩,
   ⟨"LBRACE", some (String.singleton (Char.ofNat 123)), none, none, 1, 13⟩,
   ⟨"IDENTIFIER", some "Print", none, none, 1, 15⟩,
   ⟨"LPAREN", some "(", none, none, 1, 20⟩,
   ⟨"INTEGER", some "1", some 1, none, 1, 21⟩,
   ⟨"RPAREN", some ")", none, none, 1, 22⟩,
   ⟨"SEMICOLON", some ";", none, none, 1, 23⟩,
   ⟨"RBRACE", some (String.singleton (Char.ofNat 125)), none, none, 1, 25⟩,
   ⟨"EOF", none, none, none, 1, 26⟩]

/-!  ## Theorems  -/

/-- Lookup after inserting the same key. -/
theorem dlookup_dinsert_self {α : Type} (k : String) (v : α) (d : List (String × α)) :
    dlookup k (dinsert k v d) = some v := by
  induction d with
  | nil => simp [dinsert, dlookup]
  | cons kv rest ih =>
      obtain ⟨k0, v0⟩ := kv
      by_cases h : k0 = k
      · subst h; simp [dinsert, dlookup]
      · simp [dinsert, dlookup, h, ih]

/-- Lookup after inserting a different key. -/
theorem dlookup_dinsert_ne {α : Type} {k k' : String} (v : α) (d : List (String × α))
    (h : k' ≠ k) : dlookup k' (dinsert k v d) = dlookup k' d := by
  induction d with
  | nil => simp [dinsert, dlookup, Ne.symm h]
  | cons kv rest ih =>
      obtain ⟨k0, v0⟩ := kv
      by_cases h0 : k0 = k
      · subst h0; simp [dinsert, dlookup, Ne.symm h]
      · simp only [dinsert, dlookup, h0, if_false]
        split
        · rfl
        · exact ih

/-- Membership survives any insertion. -/
theorem dmem_dinsert_mono {α : Type} {x k : String} (v : α) (d : List (String × α))
    (h : dmem x d = true) : dmem x (dinsert k v d) = true := by
  by_cases hxk : x = k
  · subst hxk; simp [dmem, dlookup_dinsert_self]
  · simpa [dmem, dlookup_dinsert_ne v d hxk] using h

/-- The inserted key is a member. -/
theorem dmem_dinsert_self {α : Type} (k : String) (v : α) (d : List (String × α)) :
    dmem k (dinsert k v d) = true := by
  simp [dmem, dlookup_dinsert_self]

/-- A sequence of opaque deferred statements folds its effects into rax and
appends its ids to the log. -/
theorem exec_runStmts (eff : Nat → Int → Int) (v : Int) :
    ∀ (ids : List Nat) (rest : List Instr) (s : MState),
      exec eff v ((ids.map Instr.runStmt) ++ rest) s =
      exec eff v rest { s with rax := ids.foldl (fun r i => eff i r) s.rax,
                               log := s.log ++ ids } := by
  intro ids
  induction ids with
  | nil => intro rest s; simp
  | cons c ids' ih =>
      intro rest s
      simp only [List.map_cons, List.cons_append, exec]
      rw [ih]
      simp [List.append_assoc]

/-- Forward jump through label-free instructions to the target label. -/
theorem skipToLabel_through (l : String) :
    ∀ (xs rest : List Instr), (∀ i ∈ xs, ∀ l', i ≠ Instr.label l') →
      (skipToLabel l (xs ++ Instr.label l :: rest)).1 = rest := by
  intro xs
  induction xs with
  | nil => intro rest _; simp [skipToLabel]
  | cons i xs' ih =>
      intro rest h
      have hi := h i (List.mem_cons_self i xs')
      match i with
      | .label l' => exact absurd rfl (hi l')
      | .evalOperand => simpa [skipToLabel] using ih rest (fun j hj => h j (List.mem_cons_of_mem _ hj))
      | .cmpRaxZero => simpa [skipToLabel] using ih rest (fun j hj => h j (List.mem_cons_of_mem _ hj))
      | .jge a => simpa [skipToLabel] using ih rest (fun j hj => h j (List.mem_cons_of_mem _ hj))
      | .pushRax => simpa [skipToLabel] using ih rest (fun j hj => h j (List.mem_cons_of_mem _ hj))
      | .popRax => simpa [skipToLabel] using ih rest (fun j hj => h j (List.mem_cons_of_mem _ hj))
      | .runStmt n => simpa [skipToLabel] using ih rest (fun j hj => h j (List.mem_cons_of_mem _ hj))
      | .jmp a => simpa [skipToLabel] using ih rest (fun j hj => h j (List.mem_cons_of_mem _ hj))
      | .leave => simpa [skipToLabel] using ih rest (fun j hj => h j (List.mem_cons_of_mem _ hj))
      | .ret => simpa [skipToLabel] using ih rest (fun j hj => h j (List.mem_cons_of_mem _ hj))

/-- Flattening bodies commutes with wrapping statements as instructions. -/
theorem flatMap_map_runStmt (dss : List (List Nat)) :
    dss.flatMap (fun body => body.map Instr.runStmt) = (dss.flatMap id).map Instr.runStmt := by
  induction dss with
  | nil => simp
  | cons d rest ih => simp [List.flatMap_cons, ih]

/-- No instruction emitted by _emit_deferred_statements or the end-label
jump is a label definition. -/
theorem emitDeferred_no_labels (ds : List (List Nat)) (l : String) :
    ∀ i ∈ emitDeferred ds ++ [Instr.jmp l], ∀ l', i ≠ Instr.label l' := by
  intro i hi l' hc
  subst hc
  by_cases hds : ds.isEmpty <;> simp [emitDeferred, hds] at hi

/-- C4: the code emitted for a postfix `?` evaluates the operand; on a
negative value it runs every pending deferred body in reverse registration
order with %rax preserved and jumps to the function's single return label;
on a non-negative value execution falls through with the value in %rax. -/
theorem try_expr_defer_lifo (ds : List (List Nat)) (l : String) (cnt : Nat)
    (v : Int) (eff : Nat → Int → Int) (s0 : MState) :
    (v < 0 → exec eff v (generateTryExpr ds (some l) cnt).1 s0 =
       .jumped l ⟨v, s0.stack, false, s0.log ++ (ds.reverse.flatMap id)⟩) ∧
    (0 ≤ v → exec eff v (generateTryExpr ds (some l) cnt).1 s0 =
       .fell ⟨v, s0.stack, true, s0.log⟩) := by
  constructor
  · intro hv
    have hflag : decide (0 ≤ v) = false := by simp; omega
    cases hds : ds with
    | nil =>
        simp [generateTryExpr, getLabel, emitDeferred, exec, hflag]
    | cons d ds' =>
        have hne : ((d :: ds' : List (List Nat))).isEmpty = false := rfl
        simp only [generateTryExpr, getLabel, emitDeferred, hne, Bool.false_eq_true,
          if_false, List.append_assoc, List.cons_append, List.nil_append, exec, hflag]
        rw [flatMap_map_runStmt]
        rw [exec_runStmts]
        simp [exec]
  · intro hv
    have hflag : decide (0 ≤ v) = true := by simpa
    have hskip := skipToLabel_through ("try_ok" ++ toString cnt)
      (emitDeferred ds ++ [Instr.jmp l]) [] (emitDeferred_no_labels ds l)
    simp only [generateTryExpr, getLabel, List.cons_append, List.append_assoc, exec, hflag,
      if_true, List.nil_append]
    rw [show emitDeferred ds ++ [Instr.jmp l, Instr.label ("try_ok" ++ toString cnt)] =
      (emitDeferred ds ++ [Instr.jmp l]) ++ Instr.label ("try_ok" ++ toString cnt) :: [] by
        simp]
    rw [hskip]
    simp [exec]

/-- Witness for try_expr_defer_lifo at a concrete deferred stack. -/
theorem try_expr_defer_lifo_witness :
    (exec (fun _ r => r + 100) (-4) (generateTryExpr [[0], [1, 2]] (some "ret_7") 3).1
        ⟨99, [7], false, []⟩ = .jumped "ret_7" ⟨-4, [7], false, [1, 2, 0]⟩) ∧
    (exec (fun _ r => r + 100) 5 (generateTryExpr [[0], [1, 2]] (some "ret_7") 3).1
        ⟨99, [7], false, []⟩ = .fell ⟨5, [7], true, []⟩) :=
  ⟨(try_expr_defer_lifo [[0], [1, 2]] "ret_7" 3 (-4) (fun _ r => r + 100) ⟨99, [7], false, []⟩).1
      (by decide),
   (try_expr_defer_lifo [[0], [1, 2]] "ret_7" 3 5 (fun _ r => r + 100) ⟨99, [7], false, []⟩).2
      (by decide)⟩

/-- Scanning boundary-free characters accumulates them into the current
line. -/
theorem pySplitlinesAux_through :
    ∀ (l cs cur : List Char), (∀ c ∈ l, isLineBoundary c = false) →
      pySplitlinesAux (l ++ cs) cur false = pySplitlinesAux cs (l.reverse ++ cur) false := by
  intro l
  induction l with
  | nil => intro cs cur _; simp
  | cons c l2 ih =>
      intro cs cur h
      have hc : isLineBoundary c = false := h c (List.mem_cons_self c l2)
      have hcr : ¬ c = crChar := by
        intro hcc
        rw [hcc] at hc
        simp [isLineBoundary] at hc
      rw [List.cons_append, pySplitlinesAux]
      simp only [Bool.false_and, if_false, hcr, hc, Bool.false_eq_true]
      rw [ih cs (c :: cur) (fun x hx => h x (List.mem_cons_of_mem _ hx))]
      simp

/-- Every produced line is free of boundary characters. -/
theorem pySplitlinesAux_lines_clean :
    ∀ (cs cur : List Char) (b : Bool), (∀ c ∈ cur, isLineBoundary c = false) →
      ∀ l ∈ pySplitlinesAux cs cur b, ∀ c ∈ l, isLineBoundary c = false := by
  intro cs
  induction cs with
  | nil =>
      intro cur b hcur l hl
      rw [pySplitlinesAux] at hl
      by_cases hc : cur.isEmpty
      · simp [hc] at hl
      · simp [hc] at hl
        subst hl
        intro c hcc
        exact hcur c (List.mem_reverse.mp hcc)
  | cons c rest ih =>
      intro cur b hcur l hl
      rw [pySplitlinesAux] at hl
      by_cases h1 : b && c = nlChar
      · rw [if_pos h1] at hl
        exact ih cur false hcur l hl
      · rw [if_neg h1] at hl
        by_cases h2 : c = crChar
        · rw [if_pos h2] at hl
          rcases List.mem_cons.mp hl with hl | hl
          · subst hl
            intro x hx
            exact hcur x (List.mem_reverse.mp hx)
          · exact ih [] true (by simp) l hl
        · rw [if_neg h2] at hl
          by_cases h3 : isLineBoundary c
          · rw [if_pos h3] at hl
            rcases List.mem_cons.mp hl with hl | hl
            · subst hl
              intro x hx
              exact hcur x (List.mem_reverse.mp hx)
            · exact ih [] false (by simp) l hl
          · rw [if_neg h3] at hl
            refine ih (c :: cur) false ?_ l hl
            intro x hx
            rcases List.mem_cons.mp hx with hx | hx
            · subst hx; simpa using h3
            · exact hcur x hx

/-- Rejoining boundary-free lines with newlines and a final newline splits
back to the same lines. -/
theorem pySplitlines_joinLines :
    ∀ ls : List (List Char), ls ≠ [] →
      (∀ l ∈ ls, ∀ c ∈ l, isLineBoundary c = false) →
      pySplitlines (joinLines ls ++ [nlChar]) = ls := by
  intro ls
  induction ls with
  | nil => intro h; exact absurd rfl h
  | cons l rest ih =>
      intro _ hclean
      cases rest with
      | nil =>
          show pySplitlinesAux (l ++ [nlChar]) [] false = [l]
          rw [pySplitlinesAux_through l [nlChar] [] (hclean l (by simp))]
          rw [pySplitlinesAux]
          simp [isLineBoundary, nlChar, crChar, pySplitlinesAux]
      | cons l2 rest2 =>
          show pySplitlinesAux ((l ++ nlChar :: joinLines (l2 :: rest2)) ++ [nlChar]) [] false =
            l :: l2 :: rest2
          rw [List.append_assoc, List.cons_append]
          rw [pySplitlinesAux_through l _ [] (hclean l (by simp))]
          rw [pySplitlinesAux]
          have : ¬ nlChar = crChar := by decide
          simp only [Bool.false_and, Bool.false_eq_true, if_false, this,
            show isLineBoundary nlChar = true by decide, if_true, List.append_nil,
            List.reverse_reverse]
          exact congrArg (List.cons l) (ih (by simp)
            (fun x hx => hclean x (List.mem_cons_of_mem _ hx)))

/-- C8: on source text free of include and import directives, the include
preprocessor is idempotent: a second application returns its input. -/
theorem preprocess_includes_idempotent (x y : List Char)
    (h : pyPreprocessIncludes x = some y) : pyPreprocessIncludes y = some y := by
  unfold pyPreprocessIncludes at h
  by_cases hany : (pySplitlines x).any isIncludeLine
  · rw [if_pos hany] at h
    cases h
  · rw [if_neg hany] at h
    have hy : y = joinLines (pySplitlines x) ++ [nlChar] := (Option.some.inj h).symm
    cases hls : pySplitlines x with
    | nil =>
        rw [hls] at hy
        subst hy
        rfl
    | cons l0 ls0 =>
        have hclean : ∀ l ∈ pySplitlines x, ∀ c ∈ l, isLineBoundary c = false :=
          pySplitlinesAux_lines_clean x [] false (by simp)
        have hsplit : pySplitlines y = pySplitlines x := by
          rw [hy, hls]
          exact pySplitlines_joinLines (l0 :: ls0) (by simp)
            (by rw [← hls]; exact hclean)
        unfold pyPreprocessIncludes
        rw [hsplit, if_neg hany, hy, hls]

/-- Witness for preprocess_includes_idempotent on a concrete source. -/
theorem preprocess_includes_idempotent_witness :
    pyPreprocessIncludes ("var int x = 1;\nMain() { }\n".toList) =
      some ("var int x = 1;\nMain() { }\n".toList) :=
  preprocess_includes_idempotent ("var int x = 1;\nMain() { }".toList)
    ("var int x = 1;\nMain() { }\n".toList) (by decide)

/-- Inversion of a successful Except bind. -/
theorem ebind_ok {ε α β : Type} {e : Except ε α} {f : α → Except ε β} {b : β}
    (h : e >>= f = .ok b) : ∃ a, e = .ok a ∧ f a = .ok b := by
  cases e with
  | error er => simp [Bind.bind, Except.bind] at h
  | ok a => exact ⟨a, rfl, by simpa [Bind.bind, Except.bind] using h⟩

/-- registerUnpack only inserts bindings. -/
theorem registerUnpack_mono :
    ∀ (names : List String) (types : List (Option String)) (mt : Bool) (l c : Nat)
      (env env' : REnv), registerUnpack mt l c names types env = .ok env' →
      ∀ k, dmem k env = true → dmem k env' = true := by
  intro names
  induction names with
  | nil =>
      intro types mt l c env env' h k hk
      rw [registerUnpack] at h
      cases h
      exact hk
  | cons n ns ih =>
      intro types mt l c env env' h k hk
      rw [registerUnpack] at h
      by_cases hd : dmem n env
      · simp [hd] at h
      · rw [if_neg hd] at h
        exact ih _ _ _ _ _ _ h k (dmem_dinsert_mono _ env hk)

/-- Inversion of a pure Except result. -/
theorem epure_ok {ε α : Type} {x y : α} (h : (pure x : Except ε α) = .ok y) : x = y := by
  simpa [pure, Except.pure] using h

/-- A throw never succeeds. -/
theorem ethrow_ne_ok {ε α : Type} {e : ε} {y : α} :
    (throw e : Except ε α) ≠ .ok y := by
  simp [throw, throwThe, MonadExcept.throw]

/-- _resolve_statement can only grow the caller-visible environment:
VarDecl and TupleUnpack insert bindings, every other statement returns it
unchanged (nested scopes work on copies). -/
theorem resolveStatement_mono (st : Node) (ctx : RCtx) (inf im : Bool) (cs : Option Node)
    (env env' : REnv) (h : resolveStatement ctx inf im cs env st = .ok env')
    (k : String) (hk : dmem k env = true) : dmem k env' = true := by
  cases st with
  | varDecl name vt value mt l c =>
      simp only [resolveStatement] at h
      split at h
      · obtain ⟨u, h1, _⟩ := ebind_ok h
        exact absurd h1 ethrow_ne_ok
      · obtain ⟨u, _, h2⟩ := ebind_ok h
        cases value with
        | none => exact (epure_ok h2) ▸ dmem_dinsert_mono _ env hk
        | some v =>
            dsimp only at h2
            obtain ⟨u2, _, h3⟩ := ebind_ok h2
            exact (epure_ok h3) ▸ dmem_dinsert_mono _ env hk
  | tupleUnpack names types value mt l c =>
      simp only [resolveStatement] at h
      obtain ⟨env1, hru, h2⟩ := ebind_ok h
      obtain ⟨u2, _, h3⟩ := ebind_ok h2
      exact (epure_ok h3) ▸ registerUnpack_mono names types mt l c env env1 hru k hk
  | assignment name value target l c =>
      cases target with
      | some t =>
          simp only [resolveStatement] at h
          obtain ⟨u1, _, h2⟩ := ebind_ok h
          obtain ⟨u2, _, h3⟩ := ebind_ok h2
          exact (epure_ok h3) ▸ hk
      | none =>
          simp only [resolveStatement] at h
          split at h
          · obtain ⟨u, h1, _⟩ := ebind_ok h
            exact absurd h1 ethrow_ne_ok
          · split at h
            · obtain ⟨u, h1, _⟩ := ebind_ok h
              exact absurd h1 ethrow_ne_ok
            · obtain ⟨u1, _, h2⟩ := ebind_ok h
              obtain ⟨u2, _, h3⟩ := ebind_ok h2
              exact (epure_ok h3) ▸ hk
  | functionCall n args l c =>
      simp only [resolveStatement] at h
      obtain ⟨u1, _, h2⟩ := ebind_ok h
      exact (epure_ok h2) ▸ hk
  | methodCall r m args l c =>
      simp only [resolveStatement] at h
      obtain ⟨u1, _, h2⟩ := ebind_ok h
      exact (epure_ok h2) ▸ hk
  | ifStmt cond tb eb l c =>
      cases eb with
      | none =>
          simp only [resolveStatement] at h
          obtain ⟨u1, _, h2⟩ := ebind_ok h
          obtain ⟨u2, _, h3⟩ := ebind_ok h2
          exact (epure_ok h3) ▸ hk
      | some e =>
          simp only [resolveStatement] at h
          obtain ⟨u1, _, h2⟩ := ebind_ok h
          obtain ⟨u2, _, h3⟩ := ebind_ok h2
          obtain ⟨u3, _, h4⟩ := ebind_ok h3
          exact (epure_ok h4) ▸ hk
  | whileStmt cond body l c =>
      simp only [resolveStatement] at h
      obtain ⟨u1, _, h2⟩ := ebind_ok h
      obtain ⟨u2, _, h3⟩ := ebind_ok h2
      exact (epure_ok h3) ▸ hk
  | forStmt vn s e body l c =>
      simp only [resolveStatement] at h
      obtain ⟨u1, _, h2⟩ := ebind_ok h
      obtain ⟨u2, _, h3⟩ := ebind_ok h2
      obtain ⟨u3, _, h4⟩ := ebind_ok h3
      exact (epure_ok h4) ▸ hk
  | deferStmt body l c =>
      simp only [resolveStatement] at h
      obtain ⟨u1, _, h2⟩ := ebind_ok h
      exact (epure_ok h2) ▸ hk
  | block stmts l c =>
      simp only [resolveStatement] at h
      obtain ⟨u1, _, h2⟩ := ebind_ok h
      exact (epure_ok h2) ▸ hk
  | returnStmt value l c =>
      cases value with
      | none =>
          simp only [resolveStatement] at h
          split at h
          · exact absurd h ethrow_ne_ok
          · exact (epure_ok h) ▸ hk
      | some v =>
          simp only [resolveStatement] at h
          split at h
          · obtain ⟨u, h1, _⟩ := ebind_ok h
            exact absurd h1 ethrow_ne_ok
          · obtain ⟨u2, _, h3⟩ := ebind_ok h
            obtain ⟨u3, _, h4⟩ := ebind_ok h3
            exact (epure_ok h4) ▸ hk
  | structDef n f m tp l c =>
      simp only [resolveStatement] at h
      exact (epure_ok h) ▸ hk
  | enumDef n v l c =>
      simp only [resolveStatement] at h
      exact (epure_ok h) ▸ hk
  | program ss l c =>
      simp only [resolveStatement] at h
      split at h
      · exact (epure_ok h) ▸ hk
      · obtain ⟨u1, _, h2⟩ := ebind_ok h
        exact (epure_ok h2) ▸ hk
  | functionDef n ps rt b tp l c =>
      simp only [resolveStatement] at h
      split at h
      · exact (epure_ok h) ▸ hk
      · obtain ⟨u1, _, h2⟩ := ebind_ok h
        exact (epure_ok h2) ▸ hk
  | binaryExpr a o b l c =>
      simp only [resolveStatement] at h
      split at h
      · exact (epure_ok h) ▸ hk
      · obtain ⟨u1, _, h2⟩ := ebind_ok h
        exact (epure_ok h2) ▸ hk
  | unaryExpr o a l c =>
      simp only [resolveStatement] at h
      split at h
      · exact (epure_ok h) ▸ hk
      · obtain ⟨u1, _, h2⟩ := ebind_ok h
        exact (epure_ok h2) ▸ hk
  | literal v t l c =>
      simp only [resolveStatement] at h
      split at h
      · exact (epure_ok h) ▸ hk
      · obtain ⟨u1, _, h2⟩ := ebind_ok h
        exact (epure_ok h2) ▸ hk
  | interpString p l c =>
      simp only [resolveStatement] at h
      split at h
      · exact (epure_ok h) ▸ hk
      · obtain ⟨u1, _, h2⟩ := ebind_ok h
        exact (epure_ok h2) ▸ hk
  | identifier n l c =>
      simp only [resolveStatement] at h
      split at h
      · exact (epure_ok h) ▸ hk
      · obtain ⟨u1, _, h2⟩ := ebind_ok h
        exact (epure_ok h2) ▸ hk
  | fieldAccess r f l c =>
      simp only [resolveStatement] at h
      split at h
      · exact (epure_ok h) ▸ hk
      · obtain ⟨u1, _, h2⟩ := ebind_ok h
        exact (epure_ok h2) ▸ hk
  | indexExpr r i l c =>
      simp only [resolveStatement] at h
      split at h
      · exact (epure_ok h) ▸ hk
      · obtain ⟨u1, _, h2⟩ := ebind_ok h
        exact (epure_ok h2) ▸ hk
  | newExpr n i l c =>
      simp only [resolveStatement] at h
      split at h
      · exact (epure_ok h) ▸ hk
      · obtain ⟨u1, _, h2⟩ := ebind_ok h
        exact (epure_ok h2) ▸ hk
  | arrayLiteral e t l c =>
      simp only [resolveStatement] at h
      split at h
      · exact (epure_ok h) ▸ hk
      · obtain ⟨u1, _, h2⟩ := ebind_ok h
        exact (epure_ok h2) ▸ hk
  | interfaceDef n m l c =>
      simp only [resolveStatement] at h
      split at h
      · exact (epure_ok h) ▸ hk
      · obtain ⟨u1, _, h2⟩ := ebind_ok h
        exact (epure_ok h2) ▸ hk
  | interfaceMethod n p rt l c =>
      simp only [resolveStatement] at h
      split at h
      · exact (epure_ok h) ▸ hk
      · obtain ⟨u1, _, h2⟩ := ebind_ok h
        exact (epure_ok h2) ▸ hk
  | enumAccess e v l c =>
      simp only [resolveStatement] at h
      split at h
      · exact (epure_ok h) ▸ hk
      · obtain ⟨u1, _, h2⟩ := ebind_ok h
        exact (epure_ok h2) ▸ hk
  | methodDef n p rt b l c =>
      simp only [resolveStatement] at h
      split at h
      · exact (epure_ok h) ▸ hk
      · obtain ⟨u1, _, h2⟩ := ebind_ok h
        exact (epure_ok h2) ▸ hk
  | selfExpr l c =>
      simp only [resolveStatement] at h
      split at h
      · exact (epure_ok h) ▸ hk
      · obtain ⟨u1, _, h2⟩ := ebind_ok h
        exact (epure_ok h2) ▸ hk
  | addressOf a l c =>
      simp only [resolveStatement] at h
      split at h
      · exact (epure_ok h) ▸ hk
      · obtain ⟨u1, _, h2⟩ := ebind_ok h
        exact (epure_ok h2) ▸ hk
  | dereference a l c =>
      simp only [resolveStatement] at h
      split at h
      · exact (epure_ok h) ▸ hk
      · obtain ⟨u1, _, h2⟩ := ebind_ok h
        exact (epure_ok h2) ▸ hk
  | nullLiteral l c =>
      simp only [resolveStatement] at h
      split at h
      · exact (epure_ok h) ▸ hk
      · obtain ⟨u1, _, h2⟩ := ebind_ok h
        exact (epure_ok h2) ▸ hk
  | tryExpr a l c =>
      simp only [resolveStatement] at h
      split at h
      · exact (epure_ok h) ▸ hk
      · obtain ⟨u1, _, h2⟩ := ebind_ok h
        exact (epure_ok h2) ▸ hk
  | tupleLiteral e l c =>
      simp only [resolveStatement] at h
      split at h
      · exact (epure_ok h) ▸ hk
      · obtain ⟨u1, _, h2⟩ := ebind_ok h
        exact (epure_ok h2) ▸ hk

/-- Monotonicity of the statement fold. -/
theorem resolveStatements_mono :
    ∀ (ss : List Node) (ctx : RCtx) (inf im : Bool) (cs : Option Node) (env env' : REnv),
      resolveStatements ctx inf im cs env ss = .ok env' →
      ∀ k, dmem k env = true → dmem k env' = true := by
  intro ss
  induction ss with
  | nil =>
      intro ctx inf im cs env env' h k hk
      simp only [resolveStatements] at h
      exact (epure_ok h) ▸ hk
  | cons s rest ih =>
      intro ctx inf im cs env env' h k hk
      simp only [resolveStatements] at h
      obtain ⟨env1, h1, h2⟩ := ebind_ok h
      exact ih ctx inf im cs env1 env' h2 k
        (resolveStatement_mono s ctx inf im cs env env1 h1 k hk)

/-- The statement fold splits over list append. -/
theorem resolveStatements_append :
    ∀ (xs ys : List Node) (ctx : RCtx) (inf im : Bool) (cs : Option Node) (env : REnv),
      resolveStatements ctx inf im cs env (xs ++ ys) =
      (resolveStatements ctx inf im cs env xs) >>= fun env1 =>
        resolveStatements ctx inf im cs env1 ys := by
  intro xs
  induction xs with
  | nil =>
      intro ys ctx inf im cs env
      simp only [List.nil_append, resolveStatements]
      rfl
  | cons s rest ih =>
      intro ys ctx inf im cs env
      simp only [List.cons_append, resolveStatements]
      cases hs : resolveStatement ctx inf im cs env s with
      | error e => simp [Bind.bind, Except.bind]
      | ok env1 => simp [Bind.bind, Except.bind, ih]

/-- C10: a nested block (if / while / for body) declaring a name already
bound in an enclosing scope of the same function is rejected with the
duplicate-local error, because the nested scope checks membership in a copy
of the parent's local map. -/
theorem nested_shadowing_rejected (ctx : RCtx) (inf im : Bool) (cs : Option Node)
    (env env' : REnv) (x : String) (ty : Option String) (v : Option Node) (mt : Bool)
    (cond : Node) (pre rest : List Node) (lc cc bl bc l c : Nat) :
    (∀ els, dmem x env = true →
      resolveExpression ctx im cs env cond = .ok () →
      resolveStatements ctx inf im cs env pre = .ok env' →
      resolveStatement ctx inf im cs env
        (.ifStmt cond (.block (pre ++ .varDecl x ty v mt lc cc :: rest) bl bc) els l c) =
        .error ⟨"Duplicate local variable " ++ x, lc, cc⟩) ∧
    (dmem x env = true →
      resolveExpression ctx im cs env cond = .ok () →
      resolveStatements ctx inf im cs env pre = .ok env' →
      resolveStatement ctx inf im cs env
        (.whileStmt cond (.block (pre ++ .varDecl x ty v mt lc cc :: rest) bl bc) l c) =
        .error ⟨"Duplicate local variable " ++ x, lc, cc⟩) ∧
    (∀ (vn : String) (startE endE : Node), dmem x env = true →
      resolveExpression ctx im cs env startE = .ok () →
      resolveExpression ctx im cs env endE = .ok () →
      resolveStatements ctx inf im cs (dinsert vn ("int", true) env) pre = .ok env' →
      resolveStatement ctx inf im cs env
        (.forStmt vn startE endE (.block (pre ++ .varDecl x ty v mt lc cc :: rest) bl bc) l c) =
        .error ⟨"Duplicate local variable " ++ x, lc, cc⟩) := by
  refine ⟨?_, ?_, ?_⟩
  · intro els hx hcond hpre
    have hx' : dmem x env' = true := resolveStatements_mono pre ctx inf im cs env env' hpre x hx
    cases els with
    | none =>
        simp only [resolveStatement, hcond, Bind.bind, Except.bind]
        rw [resolveStatements_append, hpre]
        simp only [Bind.bind, Except.bind, resolveStatements, resolveStatement, hx', if_pos]
    | some e =>
        simp only [resolveStatement, hcond, Bind.bind, Except.bind]
        rw [resolveStatements_append, hpre]
        simp only [Bind.bind, Except.bind, resolveStatements, resolveStatement, hx', if_pos]
  · intro hx hcond hpre
    have hx' : dmem x env' = true := resolveStatements_mono pre ctx inf im cs env env' hpre x hx
    simp only [resolveStatement, hcond, Bind.bind, Except.bind]
    rw [resolveStatements_append, hpre]
    simp only [Bind.bind, Except.bind, resolveStatements, resolveStatement, hx', if_pos]
  · intro vn startE endE hx hs he hpre
    have hx0 : dmem x (dinsert vn ("int", true) env) = true := dmem_dinsert_mono _ env hx
    have hx' : dmem x env' = true :=
      resolveStatements_mono pre ctx inf im cs (dinsert vn ("int", true) env) env' hpre x hx0
    simp only [resolveStatement, hs, he, Bind.bind, Except.bind]
    rw [resolveStatements_append, hpre]
    simp only [Bind.bind, Except.bind, resolveStatements, resolveStatement, hx', if_pos]

theorem nested_shadowing_rejected_witness :
    resolveStatement ⟨[], [], [], []⟩ false false none [("x", ("int", true))]
      (.ifStmt (.literal (.int 1) "int" 1 4)
        (.block [.varDecl "x" none none false 2 3] 1 10) none 1 1) =
      .error ⟨"Duplicate local variable " ++ "x", 2, 3⟩ :=
  (nested_shadowing_rejected ⟨[], [], [], []⟩ false false none
      [("x", ("int", true))] [("x", ("int", true))] "x" none none false
      (.literal (.int 1) "int" 1 4) [] [] 2 3 1 10 1 1).1 none
    (by decide)
    (by simp only [resolveExpression]; rfl)
    (by simp only [resolveStatements]; rfl)

/-- C5 counterexample: the resolver accepts a program whose Main assigns to
the immutable global x; no mutability check exists in resolve_program. -/
theorem c5_resolver_accepts_immutable_assign : resolveProgram immutAssignProg = .ok
    ([("x", ("int", false))],
     [("Main", .functionDef "Main" [] none
        (some (.block [.assignment "x" (.literal (.int 2) "int" 3 7) none 3 3] 0 0)) [] 2 1)]) := by
  simp only [immutAssignProg, resolveProgram, registerTopLevel, resolveTopLevel,
    resolveFunction, registerParams, resolveStatements, resolveStatement,
    resolveExpression, Bind.bind, Except.bind, dmem, dlookup, dinsert]
  rfl

/-- C5 (amended): the immutability check lives in the type checker, not the
resolver, and fires only for plain-name assignment targets: when the assigned
name resolves (in locals, or in globals when absent from locals) to a binding
whose mutability flag is false, _type_check_statement raises "Cannot assign to
immutable binding name" at the assignment's location. -/
theorem immutable_assign_rejected_by_type_checker
    (ctx : TCtx) (globals locals : REnv) (func_ret : Option String)
    (in_method : Bool) (cs : Option Node) (name ty : String) (value : Node)
    (line column : Nat) :
    (dlookup name locals = some (ty, false) →
      typeCheckStatement ctx globals locals func_ret in_method cs
        (.assignment name value none line column) =
        .error ⟨"Cannot assign to immutable binding " ++ name, line, column⟩) ∧
    (dlookup name locals = none → dlookup name globals = some (ty, false) →
      typeCheckStatement ctx globals locals func_ret in_method cs
        (.assignment name value none line column) =
        .error ⟨"Cannot assign to immutable binding " ++ name, line, column⟩) := by
  constructor
  · intro hl
    simp only [typeCheckStatement, hl, Bind.bind, Except.bind, pure, Except.pure,
      Bool.not_false, if_true]
  · intro hl hg
    simp only [typeCheckStatement, hl, hg, Bind.bind, Except.bind, pure, Except.pure,
      Bool.not_false, if_true]

theorem immutable_assign_rejected_by_type_checker_witness :
    typeCheckStatement ⟨[], [], []⟩ [("x", ("int", false))] [] none false none
      (.assignment "x" (.literal (.int 2) "int" 3 7) none 3 3) =
      .error ⟨"Cannot assign to immutable binding " ++ "x", 3, 3⟩ :=
  (immutable_assign_rejected_by_type_checker ⟨[], [], []⟩ [("x", ("int", false))] []
      none false none "x" "int" (.literal (.int 2) "int" 3 7) 3 3).2 rfl rfl

/-- Indexing past an appended prefix. -/
theorem get_append_add {α : Type} (pre l : List α) (i : Nat) :
    (pre ++ l).get? (pre.length + i) = l.get? i := by
  induction pre with
  | nil => simp
  | cons a t ih => simpa [Nat.succ_add] using ih

/-- Indexing at the end of an appended prefix. -/
theorem get_append_len {α : Type} (pre l : List α) :
    (pre ++ l).get? pre.length = l.get? 0 := by
  simpa using get_append_add pre l 0

/-- skip_newlines is a no-op when the current token is not a NEWLINE. -/
theorem skipNewlines_noop (p : PState) (h : p.curIs "NEWLINE" = false) :
    skipNewlines p = p := by
  simp [skipNewlines, skipNewlinesAux, h]

/-- One iteration of the enum-variant loop on an implicit variant. -/
theorem enum_step_none (toks : List Token) (pos fuel : Nat) (n : String)
    (t0 t1 : Token) (cur : Int) (acc : List (String × Int))
    (h0 : (⟨toks, pos⟩ : PState).cur = some t0)
    (ht0 : t0.type = "IDENTIFIER") (hv0 : t0.value = some n)
    (h1 : (⟨toks, pos + 1⟩ : PState).cur = some t1)
    (ht1 : t1.type = "COMMA")
    (h2 : (⟨toks, pos + 2⟩ : PState).curIs "NEWLINE" = false) :
    parseEnumVariants (fuel + 1) ⟨toks, pos⟩ cur acc =
    parseEnumVariants fuel ⟨toks, pos + 2⟩ (cur + 1) (acc ++ [(n, cur)]) := by
  have hcis : (PState.mk toks (pos + 1)).curIs "ASSIGN" = false := by
    simp [PState.curIs, h1, ht1]
  have hcic : (PState.mk toks (pos + 1)).curIs "COMMA" = true := by
    simp [PState.curIs, h1, ht1]
  simp [parseEnumVariants, h0, ht0, hv0, consume, PState.adv, Bind.bind, Except.bind,
    hcis, hcic, tokStr, pure, Except.pure, Nat.add_assoc]
  rw [skipNewlines_noop _ h2]

/-- One iteration of the enum-variant loop on an explicit `= K` variant. -/
theorem enum_step_some (toks : List Token) (pos fuel : Nat) (n : String) (k : Int)
    (t0 t1 t2 t3 : Token) (cur : Int) (acc : List (String × Int))
    (h0 : (⟨toks, pos⟩ : PState).cur = some t0)
    (ht0 : t0.type = "IDENTIFIER") (hv0 : t0.value = some n)
    (h1 : (⟨toks, pos + 1⟩ : PState).cur = some t1)
    (ht1 : t1.type = "ASSIGN")
    (h2 : (⟨toks, pos + 2⟩ : PState).cur = some t2)
    (ht2 : t2.type = "INTEGER") (hiv : t2.int_value = some k)
    (h3 : (⟨toks, pos + 3⟩ : PState).cur = some t3)
    (ht3 : t3.type = "COMMA")
    (h4 : (⟨toks, pos + 4⟩ : PState).curIs "NEWLINE" = false) :
    parseEnumVariants (fuel + 1) ⟨toks, pos⟩ cur acc =
    parseEnumVariants fuel ⟨toks, pos + 4⟩ (k + 1) (acc ++ [(n, k)]) := by
  have hcis : (PState.mk toks (pos + 1)).curIs "ASSIGN" = true := by
    simp [PState.curIs, h1, ht1]
  have hcic : (PState.mk toks (pos + 3)).curIs "COMMA" = true := by
    simp [PState.curIs, h3, ht3]
  simp [parseEnumVariants, h0, ht0, hv0, consume, PState.adv, Bind.bind, Except.bind,
    hcis, hcic, h1, ht1, h2, ht2, hiv, tokStr, pure, Except.pure, Nat.add_assoc]
  rw [skipNewlines_noop _ h4]

/-- The enum-variant loop stops at an RBRACE, returning the accumulator. -/
theorem enum_stop (toks : List Token) (pos fuel : Nat) (rb : Token)
    (cur : Int) (acc : List (String × Int))
    (h0 : (⟨toks, pos⟩ : PState).cur = some rb) (hrb : rb.type = "RBRACE") :
    parseEnumVariants (fuel + 1) ⟨toks, pos⟩ cur acc = .ok (acc, ⟨toks, pos⟩) := by
  simp [parseEnumVariants, h0, hrb]

/-- The enum-variant loop implements the spec numbering rule on any encoded
variant list, never rejecting duplicate names. -/
theorem parseEnumVariants_spec :
    ∀ (vs : List (String × Option Int)) (pre post : List Token) (rb : Token)
      (cur : Int) (acc : List (String × Int)), rb.type = "RBRACE" →
      parseEnumVariants (vs.length + 1)
        ⟨pre ++ encodeVariants vs ++ rb :: post, pre.length⟩ cur acc =
      .ok (acc ++ specAssign vs cur,
        ⟨pre ++ encodeVariants vs ++ rb :: post, pre.length + (encodeVariants vs).length⟩) := by
  intro vs
  induction vs with
  | nil =>
      intro pre post rb cur acc hrb
      have h0 : (PState.mk (pre ++ encodeVariants [] ++ rb :: post) pre.length).cur
          = some rb := by
        simp only [PState.cur, encodeVariants, List.append_nil]
        rw [get_append_len]
        simp [List.get?]
      simp only [List.length_nil]
      rw [enum_stop _ _ 0 rb cur acc h0 hrb]
      simp [specAssign, encodeVariants]
  | cons v rest ih =>
      intro pre post rb cur acc hrb
      obtain ⟨n, ov⟩ := v
      cases ov with
      | none =>
          have htoks : pre ++ encodeVariants ((n, none) :: rest) ++ rb :: post =
              pre ++ (identTok n :: ⟨"COMMA", some ",", none, none, 0, 0⟩ ::
                (encodeVariants rest ++ rb :: post)) := by
            simp [encodeVariants, encodeVariant]
          have h0 : (PState.mk (pre ++ encodeVariants ((n, none) :: rest) ++ rb :: post)
              pre.length).cur = some (identTok n) := by
            simp only [PState.cur]
            rw [htoks, get_append_len]
            simp [List.get?]
          have h1 : (PState.mk (pre ++ encodeVariants ((n, none) :: rest) ++ rb :: post)
              (pre.length + 1)).cur = some ⟨"COMMA", some ",", none, none, 0, 0⟩ := by
            simp only [PState.cur]
            rw [htoks, get_append_add]
            simp [List.get?]
          have hcur2 : (PState.mk (pre ++ encodeVariants ((n, none) :: rest) ++ rb :: post)
              (pre.length + 2)).cur = (encodeVariants rest ++ rb :: post).get? 0 := by
            simp only [PState.cur]
            rw [htoks, get_append_add]
            simp [List.get?]
          have h2 : (PState.mk (pre ++ encodeVariants ((n, none) :: rest) ++ rb :: post)
              (pre.length + 2)).curIs "NEWLINE" = false := by
            simp only [PState.curIs, hcur2]
            cases rest with
            | nil => simp [encodeVariants, hrb]
            | cons w ws =>
                obtain ⟨wn, wov⟩ := w
                cases wov <;> simp [encodeVariants, encodeVariant, identTok]
          simp only [List.length_cons]
          rw [enum_step_none _ _ _ n _ _ cur acc h0 rfl rfl h1 rfl h2]
          simpa [encodeVariants, encodeVariant, specAssign, Nat.add_assoc, Nat.add_comm, Nat.add_left_comm] using
            ih (pre ++ [identTok n, ⟨"COMMA", some ",", none, none, 0, 0⟩]) post rb
              (cur + 1) (acc ++ [(n, cur)]) hrb
      | some k =>
          have htoks : pre ++ encodeVariants ((n, some k) :: rest) ++ rb :: post =
              pre ++ (identTok n :: ⟨"ASSIGN", some "=", none, none, 0, 0⟩ ::
                ⟨"INTEGER", some (toString k), some k, none, 0, 0⟩ ::
                ⟨"COMMA", some ",", none, none, 0, 0⟩ ::
                (encodeVariants rest ++ rb :: post)) := by
            simp [encodeVariants, encodeVariant]
          have h0 : (PState.mk (pre ++ encodeVariants ((n, some k) :: rest) ++ rb :: post)
              pre.length).cur = some (identTok n) := by
            simp only [PState.cur]
            rw [htoks, get_append_len]
            simp [List.get?]
          have h1 : (PState.mk (pre ++ encodeVariants ((n, some k) :: rest) ++ rb :: post)
              (pre.length + 1)).cur = some ⟨"ASSIGN", some "=", none, none, 0, 0⟩ := by
            simp only [PState.cur]
            rw [htoks, get_append_add]
            simp [List.get?]
          have h2 : (PState.mk (pre ++ encodeVariants ((n, some k) :: rest) ++ rb :: post)
              (pre.length + 2)).cur = some ⟨"INTEGER", some (toString k), some k, none, 0, 0⟩ := by
            simp only [PState.cur]
            rw [htoks, get_append_add]
            simp [List.get?]
          have h3 : (PState.mk (pre ++ encodeVariants ((n, some k) :: rest) ++ rb :: post)
              (pre.length + 3)).cur = some ⟨"COMMA", some ",", none, none, 0, 0⟩ := by
            simp only [PState.cur]
            rw [htoks, get_append_add]
            simp [List.get?]
          have hcur4 : (PState.mk (pre ++ encodeVariants ((n, some k) :: rest) ++ rb :: post)
              (pre.length + 4)).cur = (encodeVariants rest ++ rb :: post).get? 0 := by
            simp only [PState.cur]
            rw [htoks, get_append_add]
            simp [List.get?]
          have h4 : (PState.mk (pre ++ encodeVariants ((n, some k) :: rest) ++ rb :: post)
              (pre.length + 4)).curIs "NEWLINE" = false := by
            simp only [PState.curIs, hcur4]
            cases rest with
            | nil => simp [encodeVariants, hrb]
            | cons w ws =>
                obtain ⟨wn, wov⟩ := w
                cases wov <;> simp [encodeVariants, encodeVariant, identTok]
          simp only [List.length_cons]
          rw [enum_step_some _ _ _ n k _ _ _ _ cur acc h0 rfl rfl h1 rfl h2 rfl rfl h3 rfl h4]
          simpa [encodeVariants, encodeVariant, specAssign, Nat.add_assoc, Nat.add_comm, Nat.add_left_comm] using
            ih (pre ++ [identTok n, ⟨"ASSIGN", some "=", none, none, 0, 0⟩,
                ⟨"INTEGER", some (toString k), some k, none, 0, 0⟩,
                ⟨"COMMA", some ",", none, none, 0, 0⟩]) post rb
              (k + 1) (acc ++ [(n, k)]) hrb

/-- Parser.parse_enum_decl on an encoded enum declaration yields the
spec numbering of the variants; no duplicate-name check is performed. -/
theorem parseEnumDecl_spec (ename : String) (vs : List (String × Option Int)) :
    parseEnumDecl (vs.length + 1) ⟨encodeEnum ename vs, 0⟩ =
    .ok (.enumDef ename (specAssign vs 0) 0 0,
      ⟨encodeEnum ename vs, 3 + (encodeVariants vs).length + 1⟩) := by
  have hc0 : (PState.mk (encodeEnum ename vs) 0).cur =
      some ⟨"ENUM", some "enum", none, none, 0, 0⟩ := by
    simp [PState.cur, encodeEnum, List.get?]
  have hc1 : (PState.mk (encodeEnum ename vs) 1).cur = some (identTok ename) := by
    simp [PState.cur, encodeEnum, List.get?]
  have hc2 : (PState.mk (encodeEnum ename vs) 2).cur =
      some ⟨"LBRACE", some (String.singleton (Char.ofNat 123)), none, none, 0, 0⟩ := by
    simp [PState.cur, encodeEnum, List.get?]
  have hnl : (PState.mk (encodeEnum ename vs) 3).curIs "NEWLINE" = false := by
    simp only [PState.curIs, PState.cur, encodeEnum]
    cases vs with
    | nil => simp [encodeVariants, List.get?]
    | cons w ws =>
        obtain ⟨wn, wov⟩ := w
        cases wov <;> simp [encodeVariants, encodeVariant, identTok, List.get?]
  have hspec := parseEnumVariants_spec vs
    [⟨"ENUM", some "enum", none, none, 0, 0⟩, identTok ename,
     ⟨"LBRACE", some (String.singleton (Char.ofNat 123)), none, none, 0, 0⟩] []
    ⟨"RBRACE", some (String.singleton (Char.ofNat 125)), none, none, 0, 0⟩ 0 [] rfl
  have htok : [(⟨"ENUM", some "enum", none, none, 0, 0⟩ : Token), identTok ename,
      ⟨"LBRACE", some (String.singleton (Char.ofNat 123)), none, none, 0, 0⟩] ++
      encodeVariants vs ++
      [⟨"RBRACE", some (String.singleton (Char.ofNat 125)), none, none, 0, 0⟩] =
      encodeEnum ename vs := by
    simp [encodeEnum]
  rw [htok] at hspec
  norm_num at hspec
  have hrb : (PState.mk (encodeEnum ename vs) (3 + (encodeVariants vs).length)).cur =
      some ⟨"RBRACE", some (String.singleton (Char.ofNat 125)), none, none, 0, 0⟩ := by
    simp only [PState.cur, encodeEnum]
    have heq : (⟨"ENUM", some "enum", none, none, 0, 0⟩ : Token) :: identTok ename ::
        ⟨"LBRACE", some (String.singleton (Char.ofNat 123)), none, none, 0, 0⟩ ::
        (encodeVariants vs ++
          [⟨"RBRACE", some (String.singleton (Char.ofNat 125)), none, none, 0, 0⟩]) =
        (⟨"ENUM", some "enum", none, none, 0, 0⟩ :: identTok ename ::
        ⟨"LBRACE", some (String.singleton (Char.ofNat 123)), none, none, 0, 0⟩ ::
        encodeVariants vs) ++
          [⟨"RBRACE", some (String.singleton (Char.ofNat 125)), none, none, 0, 0⟩] := by
      simp
    have hlen : 3 + (encodeVariants vs).length =
        ((⟨"ENUM", some "enum", none, none, 0, 0⟩ : Token) :: identTok ename ::
        ⟨"LBRACE", some (String.singleton (Char.ofNat 123)), none, none, 0, 0⟩ ::
        encodeVariants vs).length := by
      simp [List.length_cons]
      omega
    rw [heq, hlen, get_append_len]
    simp [List.get?]
  simp [parseEnumDecl, Bind.bind, Except.bind, consume, hc0, hc1, hc2, PState.adv,
    tokStr, identTok, skipNewlines_noop _ hnl, hspec, hrb, pure, Except.pure]

/-- C6 counterexample: an enum declaring the variant A twice is accepted by
parse_enum_decl, passes the resolver, and build_enum_values silently keeps
only the last value for the repeated name. -/
theorem c6_duplicate_variant_not_rejected :
    parseEnumDecl 3 ⟨encodeEnum "E" [("A", none), ("A", some 5)], 0⟩ =
      .ok (.enumDef "E" [("A", 0), ("A", 5)] 0 0,
        ⟨encodeEnum "E" [("A", none), ("A", some 5)], 10⟩) ∧
    resolveProgram dupEnumProg =
      .ok ([], [("Main", .functionDef "Main" [] none (some (.block [] 0 0)) [] 2 1)]) ∧
    buildEnumValues [.enumDef "E" [("A", 0), ("A", 5)] 1 1] = [("E", [("A", 5)])] := by
  refine ⟨rfl, ?_, rfl⟩
  simp only [dupEnumProg, resolveProgram, registerTopLevel, resolveTopLevel,
    resolveFunction, registerParams, resolveStatements, resolveStatement,
    resolveExpression, Bind.bind, Except.bind, dmem, dlookup, dinsert]
  rfl

/-- C6 (amended): enum variant numbering follows the spec rule — implicit
variants continue the running counter starting at 0, an explicit `= N` sets
the variant to N and resets the counter to N + 1 — but duplicate variant
names are never rejected: the parser accepts them and build_enum_values
keeps the last value bound to a repeated name. -/
theorem enum_numbering_and_duplicates :
    (∀ (ename : String) (vs : List (String × Option Int)),
      parseEnumDecl (vs.length + 1) ⟨encodeEnum ename vs, 0⟩ =
      .ok (.enumDef ename (specAssign vs 0) 0 0,
        ⟨encodeEnum ename vs, 3 + (encodeVariants vs).length + 1⟩)) ∧
    (∀ (ename n : String) (k1 k2 : Int) (l c : Nat),
      buildEnumValues [.enumDef ename [(n, k1), (n, k2)] l c] = [(ename, [(n, k2)])]) := by
  constructor
  · exact parseEnumDecl_spec
  · intro ename n k1 k2 l c
    simp [buildEnumValues, dinsert]

/-- The field scan's running offset advances by 8 per declared field. -/
theorem layoutFieldsAux_offset :
    ∀ (fields : List Node) (off : Nat) (acc : List (String × (String × Nat))),
      (layoutFieldsAux fields off acc).2 = off + 8 * fields.length := by
  intro fields
  induction fields with
  | nil => intro off acc; simp [layoutFieldsAux]
  | cons f rest ih =>
      intro off acc
      simp only [layoutFieldsAux, ih, List.length_cons]
      omega

/-- A name not declared by the remaining fields keeps its binding through
the field scan. -/
theorem layoutFieldsAux_preserved :
    ∀ (fields : List Node) (off : Nat) (acc : List (String × (String × Nat))) (k : String),
      k ∉ fields.map Node.vname →
      dlookup k (layoutFieldsAux fields off acc).1 = dlookup k acc := by
  intro fields
  induction fields with
  | nil => intro off acc k _; simp [layoutFieldsAux]
  | cons f rest ih =>
      intro off acc k hk
      simp only [List.map_cons, List.mem_cons, not_or] at hk
      simp only [layoutFieldsAux]
      rw [ih _ _ _ hk.2, dlookup_dinsert_ne _ _ hk.1]

/-- With distinct field names, the i-th declared field is laid out at
offset off + 8 i with its declared type (defaulting to int). -/
theorem layoutFieldsAux_lookup :
    ∀ (fields : List Node) (off : Nat) (acc : List (String × (String × Nat)))
      (i : Nat) (hi : i < fields.length),
      (fields.map Node.vname).Nodup →
      dlookup (fields.get ⟨i, hi⟩).vname (layoutFieldsAux fields off acc).1 =
        some (optOr (fields.get ⟨i, hi⟩).varType "int", off + 8 * i) := by
  intro fields
  induction fields with
  | nil => intro off acc i hi; simp at hi
  | cons f rest ih =>
      intro off acc i hi hnd
      simp only [List.map_cons, List.nodup_cons] at hnd
      cases i with
      | zero =>
          simp only [layoutFieldsAux, List.get]
          rw [layoutFieldsAux_preserved rest _ _ _ hnd.1, dlookup_dinsert_self]
          simp
      | succ j =>
          have hj : j < rest.length := by
            simpa [Nat.succ_lt_succ_iff] using hi
          simp only [layoutFieldsAux, List.get]
          rw [ih (off + 8) _ j hj hnd.2]
          congr 2
          omega

/-- C7: a struct's layout gives the i-th declared field (distinct names)
offset 8 i with one machine word each, the scan's total offset is 8 times
the field count, and build_struct_layouts records size 8 n, or 8 for a
zero-field struct. -/
theorem struct_layout_spec :
    (∀ (fields : List Node) (i : Nat) (hi : i < fields.length),
      (fields.map Node.vname).Nodup →
      dlookup (fields.get ⟨i, hi⟩).vname (layoutFieldsAux fields 0 []).1 =
        some (optOr (fields.get ⟨i, hi⟩).varType "int", 8 * i)) ∧
    (∀ (fields : List Node), (layoutFieldsAux fields 0 []).2 = 8 * fields.length) ∧
    (∀ (name : String) (fields methods : List Node) (tp : List String) (l c : Nat),
      buildStructLayouts [.structDef name fields methods tp l c] =
        [(name, ⟨if fields.length = 0 then 8 else 8 * fields.length,
          (layoutFieldsAux fields 0 []).1⟩)]) := by
  refine ⟨?_, ?_, ?_⟩
  · intro fields i hi hnd
    simpa using layoutFieldsAux_lookup fields 0 [] i hi hnd
  · intro fields
    simpa using layoutFieldsAux_offset fields 0 []
  · intro name fields methods tp l c
    simp only [buildStructLayouts, List.foldl_cons, List.foldl_nil]
    rw [show (layoutFieldsAux fields 0 []) =
      ((layoutFieldsAux fields 0 []).1, (layoutFieldsAux fields 0 []).2) from rfl]
    rw [layoutFieldsAux_offset fields 0 []]
    simp only [Nat.zero_add, dinsert]
    by_cases h : fields.length = 0 <;> simp [h, Nat.mul_eq_zero]

theorem struct_layout_spec_witness :
    ((([.varDecl "a" (some "str") none true 1 1,
        .varDecl "b" none none true 2 1] : List Node).map Node.vname).Nodup ∧
      dlookup "b" (layoutFieldsAux
        [.varDecl "a" (some "str") none true 1 1,
         .varDecl "b" none none true 2 1] 0 []).1 = some ("int", 8)) ∧
    (layoutFieldsAux [(.varDecl "a" (some "str") none true 1 1 : Node),
        .varDecl "b" none none true 2 1] 0 []).2 = 16 ∧
    buildStructLayouts [.structDef "P" [.varDecl "a" (some "str") none true 1 1,
        .varDecl "b" none none true 2 1] [] [] 1 1] =
      [("P", ⟨16, [("a", ("str", 0)), ("b", ("int", 8))]⟩)] := by
  refine ⟨⟨by decide, ?_⟩, ?_, ?_⟩
  · exact struct_layout_spec.1 [.varDecl "a" (some "str") none true 1 1,
      .varDecl "b" none none true 2 1] 1 (by decide) (by decide)
  · exact struct_layout_spec.2.1 [.varDecl "a" (some "str") none true 1 1,
      .varDecl "b" none none true 2 1]
  · exact struct_layout_spec.2.2 "P" [.varDecl "a" (some "str") none true 1 1,
      .varDecl "b" none none true 2 1] [] [] 1 1

/-- C1: the lexer emits equality and comparison operators with literal token
types and rejects `&&` outright, while the parser's precedence chain matches
the never-produced types EQ/NE/LE/GE — so `a == b` parses only as the bare
identifier `a`, and an `==` inside an if condition is a parse error. -/
theorem equality_operators_never_parsed :
    tokenize "a && b" = .error (.syn "Unexpected character & at line 1, column 3") ∧
    tokenize "a == b" = .ok eqExprTokens ∧
    parse_expression 100 ⟨eqExprTokens, 0⟩ =
      .ok (.identifier "a" 1 1, ⟨eqExprTokens, 1⟩) ∧
    tokenize ("if (x == 1) " ++ String.singleton (Char.ofNat 123) ++ " Print(1); " ++
      String.singleton (Char.ofNat 125)) = .ok ifEqTokens ∧
    parse_if 100 ⟨ifEqTokens, 0⟩ = .error "Expected RPAREN, got == at line 1" :=
  ⟨rfl, rfl, rfl, rfl, rfl⟩

/-- C2: the lexer emits the range operator with literal token type `..`, but
parse_for demands the never-produced type RANGE, so every for statement
`for i in 0..5` is rejected with "Expected .. in for loop range". -/
theorem for_range_operator_never_parsed :
    tokenize ("for i in 0..5 " ++ String.singleton (Char.ofNat 123) ++ " " ++
      String.singleton (Char.ofNat 125)) = .ok forRangeTokens ∧
    parse_for 100 ⟨forRangeTokens, 0⟩ = .error "Expected .. in for loop range" :=
  ⟨rfl, rfl⟩

/-- skip_whitespace is a no-op when the current character is not skippable. -/
theorem skipWhitespace_noop (st : LexState)
    (h : ∀ c, st.peek = some c → isSkippableWS c = false) :
    skipWhitespace st = st := by
  simp only [skipWhitespace, skipWhitespaceAux]
  split
  · cases hp : st.peek with
    | none => rfl
    | some c => simp [hp, h c hp]
  · rfl

/-- skip_comment is a no-op when the current character is not a slash. -/
theorem skipComment_noop (st : LexState) (h : st.peek ≠ some '/') :
    skipComment st = st := by
  simp [skipComment, h]

/-- The string-scanning loop consumes the whole remaining input when no
closing quote appears, returning it as content. -/
theorem scanStringAux_run :
    ∀ (s : List Char) (fuel : Nat) (src : List Char) (p line col : Nat)
      (acc : List Char),
      src.drop p = s → p + s.length = src.length → s.length < fuel →
      quoteChar ∉ s → backslashChar ∉ s → nlChar ∉ s →
      scanStringAux fuel ⟨src, src.length, p, line, col⟩ acc =
        (acc ++ s, ⟨src, src.length, src.length, line, col + s.length⟩) := by
  intro s
  induction s with
  | nil =>
      intro fuel src p line col acc hd hp hf _ _ _
      cases fuel with
      | zero => omega
      | succ f =>
          simp only [List.length_nil, Nat.add_zero] at hp
          subst hp
          simp [scanStringAux]
  | cons ch rest ih =>
      intro fuel src p line col acc hd hp hf hq hb hn
      cases fuel with
      | zero => omega
      | succ f =>
          simp only [List.mem_cons, not_or] at hq hb hn
          have hplt : p < src.length := by
            simp only [List.length_cons] at hp; omega
          have hget : src.get? p = some ch := by
            rw [List.get?_eq_getElem?]
            have h0 : (src.drop p)[0]? = some ch := by rw [hd]; simp
            rw [List.getElem?_drop] at h0
            simpa using h0
          have hpeek : (LexState.mk src src.length p line col).peek = some ch := by
            simp only [LexState.peek, LexState.peekAt, Nat.add_zero]
            rw [if_pos hplt]
            exact hget
          have hge : ¬ (p ≥ src.length) := by omega
          have hadv : (LexState.mk src src.length p line col).advance1 =
              ⟨src, src.length, p + 1, line, col + 1⟩ := by
            simp only [LexState.advance1]
            rw [if_neg hge, hget]
            simp [Ne.symm hn.1]
          have hdrop : src.drop (p + 1) = rest := by
            have hdd : src.drop (p + 1) = (src.drop p).drop 1 := by
              rw [← List.drop_drop]
            rw [hdd, hd]
            rfl
          simp only [scanStringAux, hpeek, hadv]
          rw [if_pos hplt, if_neg (Ne.symm hq.1), if_neg (Ne.symm hb.1)]
          rw [ih f src (p + 1) line (col + 1) (acc ++ [ch]) hdrop
            (by simp only [List.length_cons] at hp ⊢; omega)
            (by simp only [List.length_cons] at hf ⊢; omega) hq.2 hb.2 hn.2]
          simp only [List.length_cons, List.append_assoc, List.cons_append,
            List.nil_append]
          have hcol : col + 1 + rest.length = col + (rest.length + 1) := by omega
          rw [hcol]

/-- C3 (amended): a string literal whose opening quote is never closed is
accepted silently — scan_string consumes to end of input and the lexer
returns a STRING token of the remaining text followed by EOF, with no error. -/
theorem unterminated_string_accepted (s : List Char)
    (hq : quoteChar ∉ s) (hb : backslashChar ∉ s) (hn : nlChar ∉ s) :
    tokenize (String.mk (quoteChar :: s)) =
      .ok [⟨"STRING", some (String.mk s), none, none, 1, 1⟩,
           ⟨"EOF", none, none, none, 1, s.length + 2⟩] := by
  have hpeek0 : (LexState.mk (quoteChar :: s) (s.length + 1) 0 1 1).peek =
      some quoteChar := by
    simp [LexState.peek, LexState.peekAt]
  have hsw0 : skipWhitespace (LexState.mk (quoteChar :: s) (s.length + 1) 0 1 1) =
      LexState.mk (quoteChar :: s) (s.length + 1) 0 1 1 := by
    apply skipWhitespace_noop
    intro c hc
    rw [hpeek0] at hc
    cases hc
    decide
  have hsc0 : skipComment (LexState.mk (quoteChar :: s) (s.length + 1) 0 1 1) =
      LexState.mk (quoteChar :: s) (s.length + 1) 0 1 1 := by
    apply skipComment_noop
    rw [hpeek0]
    decide
  have hadv0 : (LexState.mk (quoteChar :: s) (s.length + 1) 0 1 1).advance1 =
      LexState.mk (quoteChar :: s) (s.length + 1) 1 1 2 := by
    simp only [LexState.advance1]
    rw [if_neg (by omega)]
    simp
    decide
  have hrun := scanStringAux_run s (s.length + 1 + 1) (quoteChar :: s) 1 1 2 []
    (by simp) (by simp only [List.length_cons]; omega) (by omega) hq hb hn
  simp only [List.length_cons] at hrun
  have hpeek1 : (LexState.mk (quoteChar :: s) (s.length + 1) (s.length + 1) 1
      (2 + s.length)).peek = none := by
    simp [LexState.peek, LexState.peekAt]
  have hsw1 : skipWhitespace (LexState.mk (quoteChar :: s) (s.length + 1)
      (s.length + 1) 1 (2 + s.length)) =
      LexState.mk (quoteChar :: s) (s.length + 1) (s.length + 1) 1 (2 + s.length) := by
    apply skipWhitespace_noop
    intro c hc
    rw [hpeek1] at hc
    cases hc
  have hsc1 : skipComment (LexState.mk (quoteChar :: s) (s.length + 1)
      (s.length + 1) 1 (2 + s.length)) =
      LexState.mk (quoteChar :: s) (s.length + 1) (s.length + 1) 1 (2 + s.length) := by
    apply skipComment_noop
    rw [hpeek1]
    simp
  simp only [tokenize, LexState.init]
  rw [show (String.mk (quoteChar :: s)).toList = quoteChar :: s from rfl]
  simp only [List.length_cons]
  simp only [tokenizeAux, nextToken, hsw0, hsc0, hpeek0, Bind.bind, Except.bind,
    pure, Except.pure, scanString, hadv0]
  rw [if_neg (by simp : ¬ (0 ≥ s.length + 1))]
  rw [hrun]
  rw [if_neg (show ¬ (quoteChar = nlChar) by decide)]
  simp only [if_true]
  simp only [tokenizeAux, nextToken, hsw1, hsc1, hpeek1, Bind.bind, Except.bind,
    pure, Except.pure, List.nil_append]
  rw [if_pos (by omega : (s.length + 1 : Nat) ≥ s.length + 1)]
  simp [Nat.add_comm]

/-- C3 counterexample: lexing a string literal opened at column 1 and never
closed yields a completed token list (STRING then EOF), not an error. -/
theorem c3_unterminated_string_no_error :
    tokenize (String.mk [quoteChar, 'a', 'b', 'c']) =
      .ok [⟨"STRING", some "abc", none, none, 1, 1⟩,
           ⟨"EOF", none, none, none, 1, 5⟩] := rfl

theorem unterminated_string_accepted_witness :
    tokenize (String.mk (quoteChar :: ['x', 'y'])) =
      .ok [⟨"STRING", some (String.mk ['x', 'y']), none, none, 1, 1⟩,
           ⟨"EOF", none, none, none, 1, 4⟩] :=
  unterminated_string_accepted ['x', 'y'] (by decide) (by decide) (by decide)

/-- advance1 keeps source and length, never moves backwards, and stays in
bounds. -/
theorem advance1_facts (st : LexState) :
    st.advance1.source = st.source ∧ st.advance1.length = st.length ∧
    st.position ≤ st.advance1.position ∧
    (st.position ≤ st.length → st.advance1.position ≤ st.length) := by
  unfold LexState.advance1
  split
  · exact ⟨rfl, rfl, Nat.le_refl _, fun h => h⟩
  · rename_i hlt
    cases hg : st.source.get? st.position with
    | some c =>
        dsimp only
        by_cases hc : c = nlChar
        · rw [if_pos hc]
          exact ⟨rfl, rfl, Nat.le_succ _, fun _ => by dsimp only; omega⟩
        · rw [if_neg hc]
          exact ⟨rfl, rfl, Nat.le_succ _, fun _ => by dsimp only; omega⟩
    | none => exact ⟨rfl, rfl, Nat.le_succ _, fun _ => by dsimp only; omega⟩

/-- advance1 moves exactly one position while in bounds. -/
theorem advance1_pos (st : LexState) (h : st.position < st.length) :
    st.advance1.position = st.position + 1 := by
  unfold LexState.advance1
  rw [if_neg (by omega)]
  cases hg : st.source.get? st.position with
  | some c =>
      dsimp only
      split <;> rfl
  | none => rfl

/-- advance(count) keeps source and length, never moves backwards, and stays
in bounds. -/
theorem advanceN_facts :
    ∀ (n : Nat) (st : LexState),
      (st.advanceN n).source = st.source ∧ (st.advanceN n).length = st.length ∧
      st.position ≤ (st.advanceN n).position ∧
      (st.position ≤ st.length → (st.advanceN n).position ≤ st.length) := by
  intro n
  induction n with
  | zero => intro st; exact ⟨rfl, rfl, Nat.le_refl _, fun h => h⟩
  | succ m ih =>
      intro st
      obtain ⟨h1, h2, h3, h4⟩ := advance1_facts st
      obtain ⟨g1, g2, g3, g4⟩ := ih st.advance1
      simp only [LexState.advanceN]
      refine ⟨by rw [g1, h1], by rw [g2, h2], by omega, fun hb => ?_⟩
      have h4' := h4 hb
      have g4' := g4 (by omega)
      omega

/-- advance(count+1) from an in-bounds position makes strict progress. -/
theorem advanceN_strict (n : Nat) (st : LexState) (h : st.position < st.length) :
    st.position + 1 ≤ (st.advanceN (n + 1)).position := by
  obtain ⟨g1, g2, g3, g4⟩ := advanceN_facts n st.advance1
  simp only [LexState.advanceN]
  rw [advance1_pos st h] at g3
  exact g3

/-- The whitespace loop keeps source and length, never moves backwards, and
stays in bounds. -/
theorem skipWhitespaceAux_facts :
    ∀ (fuel : Nat) (st : LexState),
      (skipWhitespaceAux fuel st).source = st.source ∧
      (skipWhitespaceAux fuel st).length = st.length ∧
      st.position ≤ (skipWhitespaceAux fuel st).position ∧
      (st.position ≤ st.length → (skipWhitespaceAux fuel st).position ≤ st.length) := by
  intro fuel
  induction fuel with
  | zero => intro st; exact ⟨rfl, rfl, Nat.le_refl _, fun h => h⟩
  | succ f ih =>
      intro st
      simp only [skipWhitespaceAux]
      split
      · cases hp : st.peek with
        | none => exact ⟨rfl, rfl, Nat.le_refl _, fun h => h⟩
        | some c =>
            dsimp only
            split
            · obtain ⟨h1, h2, h3, h4⟩ := advance1_facts st
              obtain ⟨g1, g2, g3, g4⟩ := ih st.advance1
              refine ⟨by rw [g1, h1], by rw [g2, h2], by omega, fun hb => ?_⟩
              have h4' := h4 hb
              have g4' := g4 (by omega)
              omega
            · exact ⟨rfl, rfl, Nat.le_refl _, fun h => h⟩
      · exact ⟨rfl, rfl, Nat.le_refl _, fun h => h⟩

/-- The comment loop keeps source and length, never moves backwards, and
stays in bounds. -/
theorem skipCommentAux_facts :
    ∀ (fuel : Nat) (st : LexState),
      (skipCommentAux fuel st).source = st.source ∧
      (skipCommentAux fuel st).length = st.length ∧
      st.position ≤ (skipCommentAux fuel st).position ∧
      (st.position ≤ st.length → (skipCommentAux fuel st).position ≤ st.length) := by
  intro fuel
  induction fuel with
  | zero => intro st; exact ⟨rfl, rfl, Nat.le_refl _, fun h => h⟩
  | succ f ih =>
      intro st
      simp only [skipCommentAux]
      split
      · cases hp : st.peek with
        | none => exact ⟨rfl, rfl, Nat.le_refl _, fun h => h⟩
        | some c =>
            dsimp only
            split
            · exact ⟨rfl, rfl, Nat.le_refl _, fun h => h⟩
            · obtain ⟨h1, h2, h3, h4⟩ := advance1_facts st
              obtain ⟨g1, g2, g3, g4⟩ := ih st.advance1
              refine ⟨by rw [g1, h1], by rw [g2, h2], by omega, fun hb => ?_⟩
              have h4' := h4 hb
              have g4' := g4 (by omega)
              omega
      · exact ⟨rfl, rfl, Nat.le_refl _, fun h => h⟩

/-- The string loop keeps source and length, never moves backwards, and
stays in bounds. -/
theorem scanStringAux_facts :
    ∀ (fuel : Nat) (st : LexState) (acc : List Char),
      (scanStringAux fuel st acc).2.source = st.source ∧
      (scanStringAux fuel st acc).2.length = st.length ∧
      st.position ≤ (scanStringAux fuel st acc).2.position ∧
      (st.position ≤ st.length → (scanStringAux fuel st acc).2.position ≤ st.length) := by
  intro fuel
  induction fuel with
  | zero => intro st acc; exact ⟨rfl, rfl, Nat.le_refl _, fun h => h⟩
  | succ f ih =>
      intro st acc
      simp only [scanStringAux]
      split
      · cases hp : st.peek with
        | none => exact ⟨rfl, rfl, Nat.le_refl _, fun h => h⟩
        | some c =>
            dsimp only
            obtain ⟨h1, h2, h3, h4⟩ := advance1_facts st
            split
            · exact ⟨h1, h2, h3, h4⟩
            · split
              · obtain ⟨i1, i2, i3, i4⟩ := advance1_facts st.advance1
                split
                · obtain ⟨g1, g2, g3, g4⟩ := ih st.advance1.advance1 (acc ++ [stringEscape _])
                  refine ⟨by rw [g1, i1, h1], by rw [g2, i2, h2], by omega, fun hb => ?_⟩
                  have h4' := h4 hb
                  have i4' := i4 (by omega)
                  have g4' := g4 (by omega)
                  omega
                · obtain ⟨g1, g2, g3, g4⟩ := ih st.advance1.advance1 acc
                  refine ⟨by rw [g1, i1, h1], by rw [g2, i2, h2], by omega, fun hb => ?_⟩
                  have h4' := h4 hb
                  have i4' := i4 (by omega)
                  have g4' := g4 (by omega)
                  omega
              · obtain ⟨g1, g2, g3, g4⟩ := ih st.advance1 (acc ++ [c])
                refine ⟨by rw [g1, h1], by rw [g2, h2], by omega, fun hb => ?_⟩
                have h4' := h4 hb
                have g4' := g4 (by omega)
                omega
      · exact ⟨rfl, rfl, Nat.le_refl _, fun h => h⟩

/-- The number loop keeps source and length, never moves backwards, and
stays in bounds. -/
theorem scanNumberAux_facts :
    ∀ (fuel : Nat) (st : LexState) (hasDot : Bool),
      (scanNumberAux fuel st hasDot).2.source = st.source ∧
      (scanNumberAux fuel st hasDot).2.length = st.length ∧
      st.position ≤ (scanNumberAux fuel st hasDot).2.position ∧
      (st.position ≤ st.length → (scanNumberAux fuel st hasDot).2.position ≤ st.length) := by
  intro fuel
  induction fuel with
  | zero => intro st hasDot; exact ⟨rfl, rfl, Nat.le_refl _, fun h => h⟩
  | succ f ih =>
      intro st hasDot
      simp only [scanNumberAux]
      split
      · cases hp : st.peek with
        | none => exact ⟨rfl, rfl, Nat.le_refl _, fun h => h⟩
        | some c =>
            dsimp only
            obtain ⟨h1, h2, h3, h4⟩ := advance1_facts st
            split
            · split
              · exact ⟨rfl, rfl, Nat.le_refl _, fun h => h⟩
              · split
                · exact ⟨rfl, rfl, Nat.le_refl _, fun h => h⟩
                · obtain ⟨g1, g2, g3, g4⟩ := ih st.advance1 true
                  refine ⟨by rw [g1, h1], by rw [g2, h2], by omega, fun hb => ?_⟩
                  have h4' := h4 hb
                  have g4' := g4 (by omega)
                  omega
            · split
              · obtain ⟨g1, g2, g3, g4⟩ := ih st.advance1 hasDot
                refine ⟨by rw [g1, h1], by rw [g2, h2], by omega, fun hb => ?_⟩
                have h4' := h4 hb
                have g4' := g4 (by omega)
                omega
              · exact ⟨rfl, rfl, Nat.le_refl _, fun h => h⟩
      · exact ⟨rfl, rfl, Nat.le_refl _, fun h => h⟩

/-- The identifier loop keeps source and length, never moves backwards, and
stays in bounds. -/
theorem scanIdentifierAux_facts :
    ∀ (fuel : Nat) (st : LexState),
      (scanIdentifierAux fuel st).source = st.source ∧
      (scanIdentifierAux fuel st).length = st.length ∧
      st.position ≤ (scanIdentifierAux fuel st).position ∧
      (st.position ≤ st.length → (scanIdentifierAux fuel st).position ≤ st.length) := by
  intro fuel
  induction fuel with
  | zero => intro st; exact ⟨rfl, rfl, Nat.le_refl _, fun h => h⟩
  | succ f ih =>
      intro st
      simp only [scanIdentifierAux]
      split
      · cases hp : st.peek with
        | none => exact ⟨rfl, rfl, Nat.le_refl _, fun h => h⟩
        | some c =>
            dsimp only
            split
            · obtain ⟨h1, h2, h3, h4⟩ := advance1_facts st
              obtain ⟨g1, g2, g3, g4⟩ := ih st.advance1
              refine ⟨by rw [g1, h1], by rw [g2, h2], by omega, fun hb => ?_⟩
              have h4' := h4 hb
              have g4' := g4 (by omega)
              omega
            · exact ⟨rfl, rfl, Nat.le_refl _, fun h => h⟩
      · exact ⟨rfl, rfl, Nat.le_refl _, fun h => h⟩

/-- skip_whitespace keeps source and length, never moves backwards, stays in
bounds. -/
theorem skipWhitespace_facts (st : LexState) :
    (skipWhitespace st).source = st.source ∧
    (skipWhitespace st).length = st.length ∧
    st.position ≤ (skipWhitespace st).position ∧
    (st.position ≤ st.length → (skipWhitespace st).position ≤ st.length) :=
  skipWhitespaceAux_facts (st.length + 1) st

/-- skip_comment keeps source and length, never moves backwards, stays in
bounds. -/
theorem skipComment_facts (st : LexState) :
    (skipComment st).source = st.source ∧
    (skipComment st).length = st.length ∧
    st.position ≤ (skipComment st).position ∧
    (st.position ≤ st.length → (skipComment st).position ≤ st.length) := by
  unfold skipComment
  split
  · obtain ⟨h1, h2, h3, h4⟩ := advanceN_facts 2 st
    obtain ⟨g1, g2, g3, g4⟩ := skipCommentAux_facts (st.length + 1) (st.advanceN 2)
    refine ⟨by rw [g1, h1], by rw [g2, h2], by omega, fun hb => ?_⟩
    have h4' := h4 hb
    have g4' := g4 (by omega)
    omega
  · exact ⟨rfl, rfl, Nat.le_refl _, fun h => h⟩

/-- The whitespace-comment-whitespace prelude of next_token keeps source and
length, never moves backwards, stays in bounds. -/
theorem skips_facts (st : LexState) :
    (skipWhitespace (skipComment (skipWhitespace st))).source = st.source ∧
    (skipWhitespace (skipComment (skipWhitespace st))).length = st.length ∧
    st.position ≤ (skipWhitespace (skipComment (skipWhitespace st))).position ∧
    (st.position ≤ st.length →
      (skipWhitespace (skipComment (skipWhitespace st))).position ≤ st.length) := by
  obtain ⟨a1, a2, a3, a4⟩ := skipWhitespace_facts st
  obtain ⟨b1, b2, b3, b4⟩ := skipComment_facts (skipWhitespace st)
  obtain ⟨c1, c2, c3, c4⟩ := skipWhitespace_facts (skipComment (skipWhitespace st))
  refine ⟨by rw [c1, b1, a1], by rw [c2, b2, a2], by omega, fun hb => ?_⟩
  have a4' := a4 hb
  have b4' := b4 (by omega)
  have c4' := c4 (by omega)
  omega

/-- An in-bounds cursor always sees a character. -/
theorem peek_some (st : LexState) (hlen : st.length = st.source.length)
    (h : st.position < st.length) : ∃ c, st.peek = some c := by
  simp only [LexState.peek, LexState.peekAt, Nat.add_zero]
  rw [if_pos h]
  have hlt : st.position < st.source.length := by omega
  exact ⟨st.source.get ⟨st.position, hlt⟩, List.get?_eq_get hlt⟩

/-- A decimal digit is not the dot character. -/
theorem digit_ne_dot (c : Char) (h : pyIsDigit c = true) : ¬ (c = '.') := by
  intro hc
  subst hc
  simp [pyIsDigit] at h

/-- An identifier head character satisfies the identifier-body predicate. -/
theorem alpha_to_alnum (c : Char)
    (h : (pyIsAlpha c || (c = '_' : Bool)) = true) :
    (pyIsAlnum c || (c = '_' : Bool)) = true := by
  rcases Bool.or_eq_true_iff.mp h with ha | hu
  · simp only [pyIsAlpha] at ha
    simp [pyIsAlnum, ha]
  · simp [hu]

/-- scan_string keeps source and length, stays in bounds, and makes strict
progress from an in-bounds position. -/
theorem scanString_facts (st : LexState) (h : st.position < st.length) :
    (scanString st).2.source = st.source ∧
    (scanString st).2.length = st.length ∧
    st.position + 1 ≤ (scanString st).2.position ∧
    (st.position ≤ st.length → (scanString st).2.position ≤ st.length) := by
  obtain ⟨h1, h2, h3, h4⟩ := advance1_facts st
  have hp := advance1_pos st h
  obtain ⟨g1, g2, g3, g4⟩ := scanStringAux_facts (st.length + 1) st.advance1 []
  refine ⟨by rw [show (scanString st).2 = (scanStringAux (st.length + 1) st.advance1 []).2 from rfl, g1, h1],
    by rw [show (scanString st).2 = (scanStringAux (st.length + 1) st.advance1 []).2 from rfl, g2, h2],
    ?_, fun hb => ?_⟩
  · rw [show (scanString st).2 = (scanStringAux (st.length + 1) st.advance1 []).2 from rfl]
    omega
  · rw [show (scanString st).2 = (scanStringAux (st.length + 1) st.advance1 []).2 from rfl]
    have h4' := h4 hb
    have g4' := g4 (by omega)
    omega

/-- scan_number keeps source and length, stays in bounds, and makes strict
progress when the cursor sees a digit. -/
theorem scanNumber_strict (st : LexState) (c : Char) (hpk : st.peek = some c)
    (hd : pyIsDigit c = true) (h : st.position < st.length) :
    (scanNumber st).2.2.source = st.source ∧
    (scanNumber st).2.2.length = st.length ∧
    st.position + 1 ≤ (scanNumber st).2.2.position ∧
    (st.position ≤ st.length → (scanNumber st).2.2.position ≤ st.length) := by
  have hone : scanNumberAux (st.length + 1) st false =
      scanNumberAux st.length st.advance1 false := by
    simp only [scanNumberAux]
    rw [if_pos h, hpk]
    dsimp only
    rw [if_neg (digit_ne_dot c hd), if_pos hd]
  have h22 : (scanNumber st).2.2 = (scanNumberAux (st.length + 1) st false).2 := by
    simp only [scanNumber]
  obtain ⟨h1, h2, h3, h4⟩ := advance1_facts st
  have hp := advance1_pos st h
  obtain ⟨g1, g2, g3, g4⟩ := scanNumberAux_facts st.length st.advance1 false
  rw [h22, hone]
  refine ⟨by rw [g1, h1], by rw [g2, h2], by omega, fun hb => ?_⟩
  have h4' := h4 hb
  have g4' := g4 (by omega)
  omega

/-- scan_identifier keeps source and length, stays in bounds, and makes
strict progress when the cursor sees an identifier head. -/
theorem scanIdentifier_strict (st : LexState) (c : Char) (hpk : st.peek = some c)
    (ha : (pyIsAlpha c || (c = '_' : Bool)) = true) (h : st.position < st.length) :
    (scanIdentifier st).2.source = st.source ∧
    (scanIdentifier st).2.length = st.length ∧
    st.position + 1 ≤ (scanIdentifier st).2.position ∧
    (st.position ≤ st.length → (scanIdentifier st).2.position ≤ st.length) := by
  have hone : scanIdentifierAux (st.length + 1) st =
      scanIdentifierAux st.length st.advance1 := by
    simp only [scanIdentifierAux]
    rw [if_pos h, hpk]
    dsimp only
    rw [if_pos (alpha_to_alnum c ha)]
  have h2eq : (scanIdentifier st).2 = scanIdentifierAux (st.length + 1) st := rfl
  obtain ⟨h1, h2, h3, h4⟩ := advance1_facts st
  have hp := advance1_pos st h
  obtain ⟨g1, g2, g3, g4⟩ := scanIdentifierAux_facts st.length st.advance1
  rw [h2eq, hone]
  refine ⟨by rw [g1, h1], by rw [g2, h2], by omega, fun hb => ?_⟩
  have h4' := h4 hb
  have g4' := g4 (by omega)
  omega

set_option maxHeartbeats 1600000 in
/-- next_token either raises a syntax error or returns a token, preserving
source and length, staying in bounds, and making strict progress unless the
token is EOF. -/
theorem nextToken_cases (st : LexState) (hlen : st.length = st.source.length) :
    (∃ msg, nextToken st = .error (.syn msg)) ∨
    (∃ tok st', nextToken st = .ok (tok, st') ∧
      st'.source = st.source ∧ st'.length = st.length ∧
      (st.position ≤ st.length → st'.position ≤ st.length) ∧
      (tok.type = "EOF" ∨ st.position < st'.position)) := by
  obtain ⟨s1, s2, s3, s4⟩ := skips_facts st
  set stm := skipWhitespace (skipComment (skipWhitespace st)) with hstm
  by_cases hend : stm.position ≥ stm.length
  · refine Or.inr ⟨⟨"EOF", none, none, none, stm.line, stm.column⟩, stm, ?_, s1, s2,
      fun hb => s4 hb, Or.inl rfl⟩
    simp only [nextToken, Bind.bind, Except.bind, pure, Except.pure]
    rw [← hstm, if_pos hend]
  · have hlt : stm.position < stm.length := by omega
    have hlen' : stm.length = stm.source.length := by rw [s2, hlen, s1]
    obtain ⟨c, hc⟩ := peek_some stm hlen' hlt
    obtain ⟨a1, a2, a3, a4⟩ := advance1_facts stm
    have hap := advance1_pos stm hlt
    by_cases h1 : c = nlChar
    · refine Or.inr ⟨⟨"NEWLINE", none, none, none, stm.line, stm.column⟩, stm.advance1,
        ?_, by rw [a1, s1], by rw [a2, s2], fun hb => ?_, Or.inr ?_⟩
      · simp only [nextToken, Bind.bind, Except.bind, pure, Except.pure]
        rw [← hstm, if_neg hend, hc]
        dsimp only
        rw [if_pos h1]
      · have s4' := s4 hb
        have a4' := a4 (by omega)
        omega
      · omega
    · by_cases h2 : c = quoteChar
      · rcases hss : scanString stm with ⟨content, st2⟩
        obtain ⟨f1, f2, f3, f4⟩ := scanString_facts stm hlt
        rw [hss] at f1 f2 f3 f4
        dsimp only at f1 f2 f3 f4
        refine Or.inr ⟨⟨"STRING", some (String.mk content), none, none, stm.line, stm.column⟩,
          st2, ?_, by rw [f1, s1], by rw [f2, s2], fun hb => ?_, Or.inr ?_⟩
        · simp only [nextToken, Bind.bind, Except.bind, pure, Except.pure]
          rw [← hstm, if_neg hend, hc]
          dsimp only
          rw [if_neg h1, if_pos h2, hss]
        · have s4' := s4 hb
          have f4' := f4 (by omega)
          omega
        · omega
      · by_cases h3 : pyIsDigit c = true
        · rcases hsn : scanNumber stm with ⟨isDec, numStr, st2⟩
          obtain ⟨f1, f2, f3, f4⟩ := scanNumber_strict stm c hc h3 hlt
          rw [hsn] at f1 f2 f3 f4
          dsimp only at f1 f2 f3 f4
          cases isDec with
          | true =>
              refine Or.inr ⟨⟨"DECIMAL", some (String.mk numStr), none,
                some (String.mk numStr), stm.line, stm.column⟩, st2, ?_,
                by rw [f1, s1], by rw [f2, s2], fun hb => ?_, Or.inr ?_⟩
              · simp only [nextToken, Bind.bind, Except.bind, pure, Except.pure]
                rw [← hstm, if_neg hend, hc]
                dsimp only
                rw [if_neg h1, if_neg h2, if_pos h3, hsn]
                simp
              · have s4' := s4 hb
                have f4' := f4 (by omega)
                omega
              · omega
          | false =>
              refine Or.inr ⟨⟨"INTEGER", some (toString (digitsToNat numStr)),
                some (Int.ofNat (digitsToNat numStr)), none, stm.line, stm.column⟩,
                st2, ?_, by rw [f1, s1], by rw [f2, s2], fun hb => ?_, Or.inr ?_⟩
              · simp only [nextToken, Bind.bind, Except.bind, pure, Except.pure]
                rw [← hstm, if_neg hend, hc]
                dsimp only
                rw [if_neg h1, if_neg h2, if_pos h3, hsn]
                simp
              · have s4' := s4 hb
                have f4' := f4 (by omega)
                omega
              · omega
        · by_cases h4 : (pyIsAlpha c || (c = '_' : Bool)) = true
          · rcases hsi : scanIdentifier stm with ⟨chars, st2⟩
            obtain ⟨f1, f2, f3, f4⟩ := scanIdentifier_strict stm c hc h4 hlt
            rw [hsi] at f1 f2 f3 f4
            dsimp only at f1 f2 f3 f4
            refine Or.inr ⟨⟨(dlookup (String.mk chars) KEYWORDS).getD "IDENTIFIER",
              some (String.mk chars), none, none, stm.line, stm.column⟩, st2, ?_,
              by rw [f1, s1], by rw [f2, s2], fun hb => ?_, Or.inr ?_⟩
            · simp only [nextToken, Bind.bind, Except.bind, pure, Except.pure]
              rw [← hstm, if_neg hend, hc]
              dsimp only
              rw [if_neg h1, if_neg h2, if_neg h3, if_pos h4, hsi]
            · have s4' := s4 hb
              have f4' := f4 (by omega)
              omega
            · omega
          · obtain ⟨b1, b2, b3, b4⟩ := advance1_facts stm.advance1
            have htc : ∀ tc : String,
                (twoCharOps.contains tc = true →
                  (stm.advanceN 2).source = st.source ∧
                  (stm.advanceN 2).length = st.length ∧
                  (st.position ≤ st.length → (stm.advanceN 2).position ≤ st.length) ∧
                  st.position < (stm.advanceN 2).position) := by
              intro tc _
              rw [show stm.advanceN 2 = stm.advance1.advance1 from rfl]
              refine ⟨by rw [b1, a1, s1], by rw [b2, a2, s2], fun hb => ?_, ?_⟩
              · have s4' := s4 hb
                have a4' := a4 (by omega)
                have b4' := b4 (by omega)
                omega
              · omega
            rcases hp1 : stm.peekAt 1 with _ | c2
            · by_cases h5 : twoCharOps.contains (String.mk [c]) = true
              · obtain ⟨t1, t2, t3, t4⟩ := htc (String.mk [c]) h5
                refine Or.inr ⟨⟨String.mk [c], some (String.mk [c]), none, none,
                  stm.line, stm.column⟩, stm.advanceN 2, ?_, t1, t2, t3, Or.inr t4⟩
                simp only [nextToken, Bind.bind, Except.bind, pure, Except.pure]
                rw [← hstm, if_neg hend, hc]
                dsimp only
                rw [if_neg h1, if_neg h2, if_neg h3, if_neg h4, hp1]
                dsimp only
                rw [if_pos h5]
              · cases hsc : singleCharToken c stm.line stm.column with
                | some tok2 =>
                    refine Or.inr ⟨tok2, stm.advance1, ?_, by rw [a1, s1],
                      by rw [a2, s2], fun hb => ?_, Or.inr ?_⟩
                    · simp only [nextToken, Bind.bind, Except.bind, pure, Except.pure]
                      rw [← hstm, if_neg hend, hc]
                      dsimp only
                      rw [if_neg h1, if_neg h2, if_neg h3, if_neg h4, hp1]
                      dsimp only
                      rw [if_neg h5, hsc]
                    · have s4' := s4 hb
                      have a4' := a4 (by omega)
                      omega
                    · omega
                | none =>
                    refine Or.inl ⟨"Unexpected character " ++ String.singleton c ++
                      " at line " ++ toString stm.line ++ ", column " ++
                      toString stm.column, ?_⟩
                    simp only [nextToken, Bind.bind, Except.bind, pure, Except.pure,
                      throw, throwThe, MonadExcept.throw]
                    rw [← hstm, if_neg hend, hc]
                    dsimp only
                    rw [if_neg h1, if_neg h2, if_neg h3, if_neg h4, hp1]
                    dsimp only
                    rw [if_neg h5, hsc]
                    rfl
            · by_cases h5 : twoCharOps.contains (String.mk [c, c2]) = true
              · obtain ⟨t1, t2, t3, t4⟩ := htc (String.mk [c, c2]) h5
                refine Or.inr ⟨⟨String.mk [c, c2], some (String.mk [c, c2]), none, none,
                  stm.line, stm.column⟩, stm.advanceN 2, ?_, t1, t2, t3, Or.inr t4⟩
                simp only [nextToken, Bind.bind, Except.bind, pure, Except.pure]
                rw [← hstm, if_neg hend, hc]
                dsimp only
                rw [if_neg h1, if_neg h2, if_neg h3, if_neg h4, hp1]
                dsimp only
                rw [if_pos h5]
              · cases hsc : singleCharToken c stm.line stm.column with
                | some tok2 =>
                    refine Or.inr ⟨tok2, stm.advance1, ?_, by rw [a1, s1],
                      by rw [a2, s2], fun hb => ?_, Or.inr ?_⟩
                    · simp only [nextToken, Bind.bind, Except.bind, pure, Except.pure]
                      rw [← hstm, if_neg hend, hc]
                      dsimp only
                      rw [if_neg h1, if_neg h2, if_neg h3, if_neg h4, hp1]
                      dsimp only
                      rw [if_neg h5, hsc]
                    · have s4' := s4 hb
                      have a4' := a4 (by omega)
                      omega
                    · omega
                | none =>
                    refine Or.inl ⟨"Unexpected character " ++ String.singleton c ++
                      " at line " ++ toString stm.line ++ ", column " ++
                      toString stm.column, ?_⟩
                    simp only [nextToken, Bind.bind, Except.bind, pure, Except.pure,
                      throw, throwThe, MonadExcept.throw]
                    rw [← hstm, if_neg hend, hc]
                    dsimp only
                    rw [if_neg h1, if_neg h2, if_neg h3, if_neg h4, hp1]
                    dsimp only
                    rw [if_neg h5, hsc]
                    rfl

/-- The tokenize loop, given enough fuel for the remaining input, never runs
out of fuel and returns the accumulator extended by non-EOF tokens and a
final EOF token. -/
theorem tokenizeAux_ok :
    ∀ (fuel : Nat) (st : LexState) (acc : List Token),
      st.length = st.source.length → st.position ≤ st.length →
      st.length - st.position < fuel →
      (tokenizeAux fuel st acc ≠ .error .fuel) ∧
      (∀ ts, tokenizeAux fuel st acc = .ok ts →
        ∃ pre eof, ts = acc ++ pre ++ [eof] ∧ eof.type = "EOF" ∧
          ∀ t ∈ pre, t.type ≠ "EOF") := by
  intro fuel
  induction fuel with
  | zero => intro st acc _ _ hm; omega
  | succ f ih =>
      intro st acc hlen hpos hm
      rcases nextToken_cases st hlen with ⟨msg, he⟩ | ⟨tok, st', heq, e1, e2, e3, e4⟩
      · constructor
        · simp only [tokenizeAux, he, Bind.bind, Except.bind]
          intro hcon
          injection hcon with h1
          cases h1
        · intro ts hts
          simp only [tokenizeAux, he, Bind.bind, Except.bind] at hts
          cases hts
      · simp only [tokenizeAux, heq, Bind.bind, Except.bind]
        by_cases ht : tok.type = "EOF"
        · rw [if_pos ht]
          constructor
          · intro hcon
            cases hcon
          · intro ts hts
            injection hts with h1
            exact ⟨[], tok, by simp [← h1], ht, by simp⟩
        · rw [if_neg ht]
          have hprog : st.position < st'.position := by
            rcases e4 with h | h
            · exact absurd h ht
            · exact h
          have hb' := e3 hpos
          have hlen' : st'.length = st'.source.length := by
            rw [e2, e1]
            exact hlen
          have hpos' : st'.position ≤ st'.length := by omega
          have hm' : st'.length - st'.position < f := by omega
          obtain ⟨ihne, ihok⟩ := ih st' (acc ++ [tok]) hlen' hpos' hm'
          refine ⟨ihne, fun ts hts => ?_⟩
          obtain ⟨pre, eof, hshape, htype, hpre⟩ := ihok ts hts
          refine ⟨tok :: pre, eof, by simp [hshape], htype, ?_⟩
          intro t htm
          rcases List.mem_cons.mp htm with h | h
          · subst h; exact ht
          · exact hpre t h

/-- C9: tokenize either fails with a syntax error or terminates (the fuel
bound is never hit) and, on success, returns a nonempty token list ending in
EOF and containing exactly one EOF token. -/
theorem lexer_terminates_unique_eof (src : String) :
    tokenize src ≠ .error .fuel ∧
    ∀ ts, tokenize src = .ok ts →
      ts ≠ [] ∧ (∃ eof, ts.getLast? = some eof ∧ eof.type = "EOF") ∧
      (ts.filter (fun t => t.type = "EOF")).length = 1 := by
  have h := tokenizeAux_ok (src.toList.length + 1) (LexState.init src) [] rfl
    (by simp [LexState.init]) (by simp [LexState.init])
  constructor
  · exact h.1
  · intro ts hts
    obtain ⟨pre, eof, hshape, htype, hpre⟩ := h.2 ts hts
    simp only [List.nil_append] at hshape
    subst hshape
    refine ⟨by simp, ⟨eof, ?_, htype⟩, ?_⟩
    · rw [List.getLast?_concat]
    · rw [List.filter_append]
      have hp : pre.filter (fun t => t.type = "EOF") = [] := by
        rw [List.filter_eq_nil_iff]
        intro t htm
        simpa using hpre t htm
      rw [hp]
      simp [htype]

theorem lexer_terminates_unique_eof_witness :
    ([⟨"IDENTIFIER", some "x", none, none, 1, 1⟩,
      ⟨"EOF", none, none, none, 1, 2⟩] : List Token) ≠ [] ∧
    (∃ eof, ([⟨"IDENTIFIER", some "x", none, none, 1, 1⟩,
      ⟨"EOF", none, none, none, 1, 2⟩] : List Token).getLast? = some eof ∧
      eof.type = "EOF") ∧
    (([⟨"IDENTIFIER", some "x", none, none, 1, 1⟩,
      ⟨"EOF", none, none, none, 1, 2⟩] : List Token).filter
        (fun t => t.type = "EOF")).length = 1 :=
  (lexer_terminates_unique_eof "x").2
    [⟨"IDENTIFIER", some "x", none, none, 1, 1⟩, ⟨"EOF", none, none, none, 1, 2⟩] rfl
